import Mathlib

/-!
# ZippyMesh Router: admission and routing core

A shallow embedding of the rate limiter (`src/lib/routing/rateLimiter.js`), the
routing engine (`src/lib/routing/engine.js`), the queue manager
(`src/lib/routing/queueManager.js`) and the batch path of the orchestrator
(`src/sse/services/orchestrator.js`), followed by theorems about them.

Conventions of the embedding.

* Clock readings (`Date.now()`) are integers (milliseconds) passed in as `now`;
  one operation uses one clock reading.
* A numeric field that may be missing is stored as `0`: every use of such a
  field in the source goes through JavaScript truthiness (`x || d`, `x && ..`),
  where `undefined` and `0` behave alike.
* A string field that may be missing is stored as `""` when the source only
  tests its truthiness, and as an `Option` otherwise.
* Asynchronous functions are modelled by their effect on explicit state; the
  collaborators they await (database, backend call) are parameters.
* Scores are JavaScript numbers that are integers or `NaN`; the arithmetic on them
  gives `NaN` as soon as one operand is `NaN`.
* A read of an object literal used as lookup table (`GROUP_PRIORITY`,
  `PROVIDER_ID_TO_ALIAS`, the pricing object) answers the inherited member for a
  key named like a property of `Object.prototype`.
* Values compared with `===` (trigger values, `context.intent`,
  `context.userGroup`) keep `undefined`, `null` and `NaN` apart.
-/

namespace ZippyMesh

/-! ## JavaScript helpers -/

/-- A JavaScript number that is either an integer or `NaN`. -/
inductive JsNum where
  | nan : JsNum
  | val (i : Int) : JsNum
deriving DecidableEq

/-- JavaScript truthiness of a number: `NaN` and `0` are falsy. -/
def JsNum.truthy : JsNum → Bool
  | .nan => false
  | .val i => i != 0

/-- A numeral read as a JavaScript number. -/
instance (n : Nat) : OfNat JsNum n := ⟨.val n⟩

/-- The sum `a + b` of two JavaScript numbers: `NaN` when either is `NaN`. -/
def JsNum.add : JsNum → JsNum → JsNum
  | .val a, .val b => .val (a + b)
  | _, _ => .nan

/-- The difference `a - b` of two JavaScript numbers: `NaN` when either is `NaN`. -/
def JsNum.sub : JsNum → JsNum → JsNum
  | .val a, .val b => .val (a - b)
  | _, _ => .nan

/-- The product `a * b` of two JavaScript numbers: `NaN` when either is `NaN`. -/
def JsNum.mul : JsNum → JsNum → JsNum
  | .val a, .val b => .val (a * b)
  | _, _ => .nan

/-- The property names of `Object.prototype`, which every object literal answers when it has
no own property of that name: with a function, or with `Object.prototype` itself for
`__proto__`. Each of these values is truthy, converts to `NaN` as a number, and has no
property `input` or `output`. -/
def objectPrototypeNames : List String :=
  ["constructor", "__defineGetter__", "__defineSetter__", "hasOwnProperty",
   "__lookupGetter__", "__lookupSetter__", "isPrototypeOf", "propertyIsEnumerable",
   "toString", "valueOf", "__proto__", "toLocaleString"]

/-- A JavaScript value as far as strict equality `===` tells values apart: `undefined`,
`null`, `NaN`, a string, or any other value (a boolean, a number other than `NaN`, an
object), numbered so that two such values are strictly equal exactly when they carry the
same number. -/
inductive JsVal where
  | undefined : JsVal
  | null : JsVal
  | nan : JsVal
  | str (s : String) : JsVal
  | other (n : Nat) : JsVal
deriving DecidableEq

/-- The comparison `a === b`: `NaN` is equal to nothing, not even to itself. -/
def JsVal.strictEq (a b : JsVal) : Bool :=
  match a, b with
  | .nan, _ => false
  | _, .nan => false
  | x, y => decide (x = y)

/-- The expression `x || d` on a numeric config field (`0` stands for a missing field). -/
def orDefault (x d : Nat) : Nat := if x = 0 then d else x

/-- Split a character list at every occurrence of `c` (`String.prototype.split` with a
one-character separator): the result always has at least one piece. -/
def splitOnChar (c : Char) : List Char → List (List Char)
  | [] => [[]]
  | x :: xs =>
    if x = c then [] :: splitOnChar c xs
    else
      match splitOnChar c xs with
      | [] => [[x]]
      | p :: ps => (x :: p) :: ps

/-- The characters removed by `String.prototype.trim` (WhiteSpace and LineTerminator). -/
def isJsWhitespace (c : Char) : Bool :=
  let n := c.toNat
  n = 0x09 || n = 0x0A || n = 0x0B || n = 0x0C || n = 0x0D || n = 0x20 || n = 0xA0 ||
  n = 0x1680 || (0x2000 ≤ n && n ≤ 0x200A) || n = 0x2028 || n = 0x2029 || n = 0x202F ||
  n = 0x205F || n = 0x3000 || n = 0xFEFF

/-- The method `String.prototype.trim` on a character list. -/
def trimChars (l : List Char) : List Char :=
  ((l.dropWhile isJsWhitespace).reverse.dropWhile isJsWhitespace).reverse

/-- The method `hay.includes(needle)`: `needle` occurs in `hay` as a contiguous block. -/
def includesChars : List Char → List Char → Bool
  | [], needle => needle.isEmpty
  | h :: t, needle => needle.isPrefixOf (h :: t) || includesChars t needle

/-- The method `String.prototype.includes` on strings. -/
def jsIncludes (hay needle : String) : Bool := includesChars hay.data needle.data

/-- ASCII lower-casing of a header name (`toLowerCase` on the ASCII names HTTP allows). -/
def lowerAscii (s : String) : String := String.mk (s.data.map Char.toLower)

/-! ## Rate limiter: data model -/

/-- A rate-limit bucket of a provider config (`config.buckets[i]`). -/
structure Bucket where
  name : String
  window_type : String
  window_seconds : Nat
  unit : String
  value_hint : Nat
  applies_to : String
deriving DecidableEq

/-- A window state (`memoryStore.windows[key]`). -/
structure WindowState where
  count : Nat
  tokens : Nat
  startTime : Int
  resetTime : JsNum
deriving DecidableEq

/-- The window store `memoryStore.windows`, keyed by `provider:bucketName:model`. -/
abbrev Windows := String → Option WindowState

/-- The rate-limit configuration: provider id to its bucket list (`none` when the provider
has no config or the config has no `buckets`). -/
abbrev Configs := String → Option (List Bucket)

/-- The rate limiter object: window store, loaded configs (`null` before `init`), dirty flag. -/
structure RateLimiter where
  windows : Windows
  configs : Option Configs
  isDirty : Bool

/-- The state of a freshly constructed `RateLimiter`. -/
def RateLimiter.new : RateLimiter :=
  { windows := fun _ => none, configs := none, isDirty := false }

/-- The two database reads of `init`: each either raises or returns. `getRateLimitState`
returns `none` when the saved state has no `windows` field. -/
structure RateLimitDb where
  getRateLimitConfigs : Except String Configs
  getRateLimitState : Except String (Option Windows)

/-- The verdict of `evaluateBucket`. -/
structure BucketVerdict where
  allowed : Bool
  resetTime : Option JsNum
  remaining : Nat
deriving DecidableEq

/-- The result of `checkLimit`. -/
structure LimitResult where
  allowed : Bool
  reason : Option String
  resetTime : Option JsNum
  remaining : Option Nat
deriving DecidableEq

/-- The usage object passed to `recordUsage` (`0` stands for a missing field). -/
structure Usage where
  tokens : Nat
  total_tokens : Nat
  prompt_tokens : Nat
  completion_tokens : Nat
deriving DecidableEq

/-- A response-header value, by what `parseFloat` and `parseInt` make of it: `int n` is a text
that both read as the integer `n` (its decimal text, possibly followed by a unit such as
`60s`), `text` a non-empty text that neither reads as a number, `empty` the empty string.
Texts with a fractional part, on which the two functions differ, are not represented. -/
inductive HeaderVal where
  | int (n : Int) : HeaderVal
  | text : HeaderVal
  | empty : HeaderVal
deriving DecidableEq

/-- Truthiness of a header value (a string is falsy only when empty). -/
def HeaderVal.truthy : HeaderVal → Bool
  | .empty => false
  | _ => true

/-- The function `parseFloat` on a header value. -/
def parseFloat : HeaderVal → JsNum
  | .int n => .val n
  | _ => .nan

/-- The call `parseInt(v, 10)` on a header value. -/
def parseInt : HeaderVal → JsNum
  | .int n => .val n
  | _ => .nan

/-- Response headers as a plain object, in property order. -/
abbrev Headers := List (String × HeaderVal)

/-! ## Rate limiter: operations -/

/-- The method `isApplicable(bucket, model)`. -/
def isApplicable (bucket : Bucket) (model : String) : Bool :=
  if bucket.applies_to = "" then true
  else if bucket.applies_to = "all" then true
  else if bucket.applies_to = "per model" || bucket.applies_to = "per_model" then true
  else if bucket.applies_to = "most models" then true
  else
    (splitOnChar ',' bucket.applies_to.data).any fun a =>
      let trimmed := trimChars a
      model.data = trimmed || includesChars model.data trimmed

/-- The method `getBucketKey(provider, bucketName, model)`. -/
def getBucketKey (provider bucketName model : String) : String :=
  provider ++ ":" ++ bucketName ++ ":" ++ model

/-- The window length `(bucket.window_seconds || 60) * 1000` in milliseconds. -/
def windowMs (bucket : Bucket) : Int := ((orDefault bucket.window_seconds 60 : Nat) : Int) * 1000

/-- The method `evaluateBucket(bucket, state, now, costTokens)`. -/
def evaluateBucket (bucket : Bucket) (state : Option WindowState) (now : Int)
    (_costTokens : Nat) : BucketVerdict :=
  match state with
  | none => { allowed := true, resetTime := none, remaining := 999999 }
  | some state =>
    if bucket.window_type = "fixed_reset" then
      if state.resetTime.truthy && (match state.resetTime with
          | .val r => decide (now ≥ r)
          | .nan => false) then
        { allowed := true, resetTime := none, remaining := orDefault bucket.value_hint 999999 }
      else if bucket.unit = "requests" then
        if state.count ≥ orDefault bucket.value_hint 10000 then
          { allowed := false, resetTime := some state.resetTime, remaining := 0 }
        else { allowed := true, resetTime := none, remaining := 999 }
      else if bucket.unit = "neurons" || bucket.unit = "tokens" then
        if state.tokens ≥ orDefault bucket.value_hint 10000 then
          { allowed := false, resetTime := some state.resetTime, remaining := 0 }
        else { allowed := true, resetTime := none, remaining := 999 }
      else { allowed := true, resetTime := none, remaining := 999 }
    else if bucket.window_type = "rolling" then
      if now - state.startTime > windowMs bucket then
        { allowed := true, resetTime := none, remaining := orDefault bucket.value_hint 999 }
      else if bucket.unit = "requests" then
        if state.count ≥ orDefault bucket.value_hint 60 then
          { allowed := false, resetTime := some (.val (state.startTime + windowMs bucket)),
            remaining := 0 }
        else { allowed := true, resetTime := none, remaining := 999 }
      else { allowed := true, resetTime := none, remaining := 999 }
    else { allowed := true, resetTime := none, remaining := 999 }

/-- The method `updateBucketState(bucket, state, now, reqCount, tokenCount)`. -/
def updateBucketState (bucket : Bucket) (state : Option WindowState) (now : Int)
    (reqCount tokenCount : Nat) : WindowState :=
  let newState : WindowState :=
    if bucket.window_type = "fixed_reset" then
      match state with
      | none => { count := 0, tokens := 0, resetTime := .val (now + 86400000), startTime := now }
      | some s =>
        let resetTime : Int :=
          match s.resetTime with
          | .val r => if r = 0 then now + 86400000 else r
          | .nan => now + 86400000
        if now ≥ resetTime then
          { count := 0, tokens := 0, resetTime := .val (now + 86400000), startTime := now }
        else s
    else
      match state with
      | none => { count := 0, tokens := 0, startTime := now, resetTime := .val (now + windowMs bucket) }
      | some s =>
        if now - s.startTime > windowMs bucket then
          { count := 0, tokens := 0, startTime := now, resetTime := .val (now + windowMs bucket) }
        else s
  { newState with count := newState.count + reqCount, tokens := newState.tokens + tokenCount }

/-- The object `normalizedHeaders`: header names lower-cased, a later property overwriting an
earlier one of the same lower-cased name (`none` is `undefined`). -/
def normalizeHeaders (headers : Headers) : String → Option HeaderVal :=
  headers.foldl (fun acc kv => Function.update acc (lowerAscii kv.1) (some kv.2)) (fun _ => none)

/-- The expression `a || b` on two header lookups (`none` is `undefined`). -/
def headerOr (a b : Option HeaderVal) : Option HeaderVal :=
  match a with
  | some v => if v.truthy then some v else b
  | none => b

/-- The variables `remainingHeader` and `resetHeader` chosen for a bucket. For a unit other
than requests and tokens both stay `null` (result `none`), and then no branch of the loop
body writes anything: `null` is falsy and `parseInt(null, 10)` is `NaN`. -/
def selectHeaders (nh : String → Option HeaderVal) (bucket : Bucket) :
    Option (Option HeaderVal × Option HeaderVal) :=
  if bucket.unit = "requests" then
    some (headerOr (nh "x-ratelimit-remaining-requests") (nh "x-ratelimit-remaining"),
          headerOr (nh "x-ratelimit-reset-requests") (nh "x-ratelimit-reset"))
  else if bucket.unit = "tokens" then
    some (nh "x-ratelimit-remaining-tokens", nh "x-ratelimit-reset-tokens")
  else none

/-- The reset time computed from a truthy reset header at clock reading `now`. -/
def headerResetTime (now : Int) (resetHeader : HeaderVal) : JsNum :=
  match parseFloat resetHeader with
  | .val resetVal =>
    if resetVal < 10000000 then .val (now + resetVal * 1000)
    else if resetVal < 10000000000 then .val (resetVal * 1000)
    else .val resetVal
  | .nan => .nan

/-- The body of the header-sync loop for one bucket on its state: the state after the two
header blocks, and the flag `didUpdate`. -/
def syncState (bucket : Bucket) (state : WindowState) (now : Int)
    (remainingHeader resetHeader : Option HeaderVal) : WindowState × Bool :=
  let afterReset : WindowState × Bool :=
    match resetHeader with
    | some h =>
      if h.truthy then ({ state with resetTime := headerResetTime now h }, true)
      else (state, false)
    | none => (state, false)
  match remainingHeader with
  | some h =>
    if bucket.value_hint ≠ 0 then
      match parseInt h with
      | .val remaining =>
        if bucket.unit = "requests" then
          ({ afterReset.1 with count := Int.toNat ((bucket.value_hint : Int) - remaining) }, true)
        else
          ({ afterReset.1 with tokens := Int.toNat ((bucket.value_hint : Int) - remaining) }, true)
      | .nan => afterReset
    else afterReset
  | none => afterReset

/-- The state that `syncFromHeaders` starts from when a key has no window yet (the right
operand of `this.memoryStore.windows[key] || ..`). -/
def freshWindow (now : Int) : WindowState :=
  { count := 0, tokens := 0, startTime := now, resetTime := .val (now + 86400000) }

/-- One iteration of the loop of `syncFromHeaders` on the pair (updatedKeys, limiter). -/
def syncBucket (nh : String → Option HeaderVal) (provider model : String) (now : Int)
    (acc : List String × RateLimiter) (bucket : Bucket) : List String × RateLimiter :=
  if !isApplicable bucket model then acc
  else
    match selectHeaders nh bucket with
    | none => acc
    | some (remainingHeader, resetHeader) =>
      if remainingHeader.isSome || resetHeader.isSome then
        let key := getBucketKey provider bucket.name model
        let state : WindowState := (acc.2.windows key).getD (freshWindow now)
        let r := syncState bucket state now remainingHeader resetHeader
        if r.2 then
          (acc.1 ++ [key],
            { acc.2 with windows := Function.update acc.2.windows key (some r.1), isDirty := true })
        else acc
      else acc

/-- The method `syncFromHeaders(provider, model, headers, config)`: the updated keys and the
limiter afterwards. `buckets` is `config.buckets`. -/
def syncFromHeaders (rl : RateLimiter) (provider model : String) (headers : Headers)
    (buckets : List Bucket) (now : Int) : List String × RateLimiter :=
  buckets.foldl (syncBucket (normalizeHeaders headers) provider model now) ([], rl)

/-- The method `init()`: reads the configs, then the saved state. A read that raises makes
`init` raise; the fields assigned before the failing read keep their new value. -/
def RateLimiter.init (db : RateLimitDb) (rl : RateLimiter) : Except String Unit × RateLimiter :=
  match db.getRateLimitConfigs with
  | .error e => (.error e, rl)
  | .ok cfg =>
    let rl1 := { rl with configs := some cfg }
    match db.getRateLimitState with
    | .error e => (.error e, rl1)
    | .ok (some saved) => (.ok (), { rl1 with windows := saved })
    | .ok none => (.ok (), rl1)

/-- The guard `if (!this.configs) await this.init()`. -/
def ensureInit (db : RateLimitDb) (rl : RateLimiter) : Except String Unit × RateLimiter :=
  match rl.configs with
  | some _ => (.ok (), rl)
  | none => rl.init db

/-- The loop of `checkLimit` over `config.buckets`. -/
def checkBuckets (windows : Windows) (provider model : String) (now : Int)
    (estimatedTokens : Nat) : List Bucket → LimitResult
  | [] => { allowed := true, reason := none, resetTime := none, remaining := none }
  | bucket :: rest =>
    if !isApplicable bucket model then checkBuckets windows provider model now estimatedTokens rest
    else
      let key := getBucketKey provider bucket.name model
      let result := evaluateBucket bucket (windows key) now estimatedTokens
      if !result.allowed then
        { allowed := false, reason := some ("Rate limit exceeded: " ++ bucket.name),
          resetTime := result.resetTime, remaining := some result.remaining }
      else checkBuckets windows provider model now estimatedTokens rest

/-- The method `checkLimit(provider, model, context)` at clock reading `now`; `estimatedTokens`
is `context.estimatedTokens` (`0` when missing). The result is an error when `init` raised. -/
def checkLimit (db : RateLimitDb) (rl : RateLimiter) (now : Int) (provider model : String)
    (estimatedTokens : Nat) : Except String LimitResult × RateLimiter :=
  match ensureInit db rl with
  | (.error e, rl1) => (.error e, rl1)
  | (.ok _, rl1) =>
    match rl1.configs.bind (fun c => c provider) with
    | none => (.ok { allowed := true, reason := none, resetTime := none, remaining := none }, rl1)
    | some buckets =>
      (.ok (checkBuckets rl1.windows provider model now (orDefault estimatedTokens 100) buckets),
        rl1)

/-- One iteration of the local-increment loop of `recordUsage`. -/
def recordBucket (provider model : String) (now : Int) (tokens : Nat) (updatedKeys : List String)
    (rl : RateLimiter) (bucket : Bucket) : RateLimiter :=
  if !isApplicable bucket model then rl
  else
    let key := getBucketKey provider bucket.name model
    if key ∈ updatedKeys then rl
    else
      { rl with
        windows :=
          Function.update rl.windows key (some (updateBucketState bucket (rl.windows key) now 1 tokens)),
        isDirty := true }

/-- The method `recordUsage(provider, model, usage, headers)` at clock reading `now`
(`headers = none` is the default `null`). -/
def recordUsage (db : RateLimitDb) (rl : RateLimiter) (now : Int) (provider model : String)
    (usage : Usage) (headers : Option Headers) : Except String Unit × RateLimiter :=
  match ensureInit db rl with
  | (.error e, rl1) => (.error e, rl1)
  | (.ok _, rl1) =>
    match rl1.configs.bind (fun c => c provider) with
    | none => (.ok (), rl1)
    | some buckets =>
      let tokens := usage.tokens
      let synced : List String × RateLimiter :=
        match headers with
        | some h => syncFromHeaders rl1 provider model h buckets now
        | none => ([], rl1)
      (.ok (), buckets.foldl (recordBucket provider model now tokens synced.1) synced.2)

/-! ## Routing engine: data model -/

/-- A pooled provider connection (`db.data.providerConnections[i]`). `rateLimitedUntil` is the
end of the rate-limit cooldown as epoch milliseconds (`none` for `null`); `nodeId` is
`providerSpecificData?.nodeId`. -/
structure Connection where
  id : String
  provider : String
  group : String
  priority : Nat
  isActive : Bool
  rateLimitedUntil : Option Int
  nodeId : Option String
deriving DecidableEq

/-- The filter argument of `getProviderConnections` (`none` for an absent field). -/
structure ConnectionFilter where
  provider : Option String
  group : Option String
  isActive : Option Bool

/-- A price entry (per-million-token rates, in integral units). -/
structure Pricing where
  input : Int
  output : Int
deriving DecidableEq

/-- What a read `pricing[key]?.[model]` of the pricing object answers: nothing (`undefined`
or another falsy value), a price entry, or another truthy value, which has no numeric
`input` and `output` (such as a member inherited from `Object.prototype`). -/
inductive PriceLookup where
  | nothing : PriceLookup
  | entry (p : Pricing) : PriceLookup
  | foreign : PriceLookup
deriving DecidableEq

/-- A value used as first key of the pricing object: a text, or the member that an object
literal inherits from `Object.prototype` under the given name (which `getPricingForModel`
obtains as alias of a provider id of that name). -/
inductive PricingKey where
  | text (s : String) : PricingKey
  | inherited (name : String) : PricingKey
deriving DecidableEq

/-- The merged pricing object returned by `getPricing()`, given by what its reads answer:
`pricing key model` is the value of `pricing[key]?.[model]`, own or inherited. -/
abbrev PricingTable := PricingKey → String → PriceLookup

/-- The `value` field of a playbook rule: absent, a number, a string or an array of strings. -/
inductive RuleValue where
  | missing : RuleValue
  | num (n : Int) : RuleValue
  | str (s : String) : RuleValue
  | list (l : List String) : RuleValue
deriving DecidableEq

/-- A playbook rule (`parallel` and `strategy` are read from a batch rule; `0` and `""`
stand for missing). -/
structure Rule where
  type : String
  target : Option String
  value : RuleValue
  parallel : Nat
  strategy : String
deriving DecidableEq

/-- A playbook trigger. -/
structure Trigger where
  type : String
  value : JsVal
deriving DecidableEq

/-- A routing playbook. -/
structure Playbook where
  id : String
  name : String
  priority : Int
  isActive : Bool
  trigger : Option Trigger
  rules : List Rule
deriving DecidableEq

/-- The settings object, as far as routing reads it (`""` for no default playbook). -/
structure Settings where
  defaultPlaybookId : String

/-- The request context given to `findRoute`. -/
structure RequestContext where
  model : String
  equivalentModels : Option (List String)
  estimatedTokens : Nat
  userGroup : JsVal
  intent : JsVal

/-- A routing candidate. `costPer1k` is absent until `defaultStrategy` sets it, `batchRule`
until `executePlaybook` attaches one. -/
structure Candidate where
  connection : Connection
  provider : String
  model : String
  score : JsNum
  reasons : List String
  costPer1k : Option JsNum
  batchRule : Option Rule
deriving DecidableEq

/-- What the routing engine reads from its collaborators. `resolveProviderId` belongs to
`shared/constants/providers.js`. -/
structure EngineDb where
  playbooks : List Playbook
  settings : Option Settings
  providerConnections : List Connection
  pricing : PricingTable
  resolveProviderId : String → String
  rateLimit : RateLimitDb

/-! ## Routing engine: operations -/

/-- The function `getProviderConnections(filter)` of `localDb.js`: filter, then a stable sort
by `priority || 999` ascending. -/
def getProviderConnections (pool : List Connection) (filter : ConnectionFilter) : List Connection :=
  let c1 : List Connection :=
    match filter.provider with
    | some p => if p = "" then pool else pool.filter (fun c => c.provider = p)
    | none => pool
  let c2 : List Connection :=
    match filter.group with
    | some g => if g = "" then c1 else c1.filter (fun c => c.group = g)
    | none => c1
  let c3 : List Connection :=
    match filter.isActive with
    | some a => c2.filter (fun c => c.isActive = a)
    | none => c2
  c3.insertionSort (fun a b => orDefault a.priority 999 ≤ orDefault b.priority 999)

/-- The table `PROVIDER_ID_TO_ALIAS` of `getPricingForModel`. -/
def PROVIDER_ID_TO_ALIAS : List (String × String) :=
  [("claude", "cc"), ("codex", "cx"), ("gemini-cli", "gc"), ("qwen", "qw"), ("iflow", "if"),
   ("antigravity", "ag"), ("github", "gh"), ("openai", "openai"), ("anthropic", "anthropic"),
   ("gemini", "gemini"), ("openrouter", "openrouter"), ("glm", "glm"), ("kimi", "kimi"),
   ("minimax", "minimax")]

/-- The read `PROVIDER_ID_TO_ALIAS[provider]`: the alias of a listed provider id, the
inherited member for an id named like a property of `Object.prototype`, otherwise
`undefined`. Every alias found is truthy. -/
def providerAlias (provider : String) : Option PricingKey :=
  match PROVIDER_ID_TO_ALIAS.lookup provider with
  | some aliasId => some (.text aliasId)
  | none => if provider ∈ objectPrototypeNames then some (.inherited provider) else none

/-- The function `getPricingForModel(provider, model)` over the merged pricing object: the
direct read when it is truthy, otherwise the read under the alias of the provider
(`pricing[alias][model] || null` when `alias && pricing[alias]`), otherwise `null`. -/
def getPricingForModel (pricing : PricingTable) (provider model : String) : PriceLookup :=
  match pricing (.text provider) model with
  | .nothing =>
    match providerAlias provider with
    | some aliasKey => pricing aliasKey model
    | none => .nothing
  | found => found

/-- The method `selectPlaybook(playbooks, context, settings)`. -/
def selectPlaybook (playbooks : List Playbook) (context : RequestContext)
    (settings : Option Settings) : Option Playbook :=
  let sorted := (playbooks.filter (fun p => p.isActive)).insertionSort
    (fun a b => b.priority ≤ a.priority)
  let triggered := sorted.find? fun pb =>
    match pb.trigger with
    | some t =>
      if t.type = "intent" then context.intent.strictEq t.value
      else if t.type = "group" then context.userGroup.strictEq t.value
      else false
    | none => false
  match triggered with
  | some pb => some pb
  | none =>
    match settings with
    | some st =>
      if st.defaultPlaybookId = "" then none
      else playbooks.find? (fun p => p.id = st.defaultPlaybookId && p.isActive)
    | none => none

/-- The table `GROUP_PRIORITY` of `defaultStrategy`. -/
def GROUP_PRIORITY : List (String × Int) :=
  [("personal", 10), ("work", 20), ("team", 30), ("default", 40)]

/-- The constant `groupScore` of the loop body, as the number it is in the score:
`GROUP_PRIORITY[cand.connection.group || "default"] || 99`. An own entry of the table is
its weight; a group named like a property of `Object.prototype` reads the inherited
member, which is truthy and `NaN` as a number; any other group weighs 99. -/
def groupScore (group : String) : JsNum :=
  let g := if group = "" then "default" else group
  match GROUP_PRIORITY.lookup g with
  | some w => .val w
  | none => if g ∈ objectPrototypeNames then .nan else .val 99

/-- The constant `costScore` of the loop body, `pricing.input * 1000 + pricing.output * 1000`
on `getPricingForModel(..) || { input: 0, output: 0 }`: a truthy value without numeric
`input` and `output` gives `NaN`. -/
def costScoreOf (lookup : PriceLookup) : JsNum :=
  match lookup with
  | .entry p => .val (p.input * 1000 + p.output * 1000)
  | .nothing => .val 0
  | .foreign => .nan

/-- The loop body of `defaultStrategy`: the scored copy of a candidate. -/
def scoreCandidate (pricing : PricingTable) (cand : Candidate) : Candidate :=
  let priority : Int := (orDefault cand.connection.priority 999 : Nat)
  let costScore := costScoreOf (getPricingForModel pricing cand.provider cand.model)
  let finalScore :=
    (((groupScore cand.connection.group).mul (.val 10000)).add (.val (priority * 10))).add
      costScore
  { cand with score := finalScore, costPer1k := some costScore }

/-- The comparator `(a, b) => a.score - b.score` as the sort reads it: `a` may stand before
`b` unless the difference is positive; a difference that is `NaN` counts as `+0`. -/
def scoreBefore (a b : Candidate) : Prop :=
  match a.score, b.score with
  | .val x, .val y => x ≤ y
  | _, _ => True

instance : DecidableRel scoreBefore := fun a b => by
  unfold scoreBefore
  cases a.score <;> cases b.score <;> infer_instance

/-- The stable ascending sort `arr.sort((a, b) => a.score - b.score)`. When a score is `NaN`
the comparator is not a consistent comparison and the language leaves the order to the
implementation; the list returned here is then one permutation of the input. -/
def sortByScore (l : List Candidate) : List Candidate :=
  l.insertionSort scoreBefore

/-- The method `defaultStrategy(candidates, context)`. -/
def defaultStrategy (pricing : PricingTable) (candidates : List Candidate) : List Candidate :=
  sortByScore (candidates.map (scoreCandidate pricing))

/-- The first loop of `executePlaybook`: the filter-in and filter-out rules, in rule order. -/
def applyFilterRules (rules : List Rule) (candidates : List Candidate) : List Candidate :=
  rules.foldl
    (fun filtered rule =>
      if rule.type = "filter-in" then
        filtered.filter (fun c => decide (RuleValue.str c.provider = rule.value))
      else if rule.type = "filter-out" then
        filtered.filter (fun c => !decide (RuleValue.str c.provider = rule.value))
      else filtered)
    candidates

/-- The amount `rule.value || 1000` of a boost or penalty rule. Such rules carry a number;
a rule without a numeric value is read as carrying none. -/
def ruleAmount (v : RuleValue) : Int :=
  match v with
  | .num n => if n = 0 then 1000 else n
  | _ => 1000

/-- The list `order` of a stack rule. -/
def stackOrder (v : RuleValue) : List String :=
  match v with
  | .list l => l
  | .str s => (splitOnChar ',' s.data).map String.mk
  | _ => []

/-- The test `isMatch`; an absent target is read by `includes` as the text "undefined". -/
def ruleMatches (cand : Candidate) (rule : Rule) : Bool :=
  match rule.target with
  | some t => cand.provider = t || jsIncludes cand.model t
  | none => jsIncludes cand.model "undefined"

/-- One step of the modifier loop of `executePlaybook` on the running score. -/
def applyModifier (cand : Candidate) (score : JsNum) (rule : Rule) : JsNum :=
  if ruleMatches cand rule then
    if rule.type = "boost" then score.sub (.val (ruleAmount rule.value))
    else if rule.type = "penalty" then score.add (.val (ruleAmount rule.value))
    else if rule.type = "stack" then
      let order := stackOrder rule.value
      let index : Option Nat :=
        match order.indexOf? cand.provider with
        | some i => some i
        | none => order.indexOf? cand.model
      match index with
      | some i => score.sub (.val (((order.length : Int) - i) * 10000))
      | none => score
    else score
  else score

/-- The method `executePlaybook(playbook, candidates, context)`. -/
def executePlaybook (pricing : PricingTable) (playbook : Playbook)
    (candidates : List Candidate) : List Candidate :=
  let filtered := applyFilterRules playbook.rules candidates
  let baseScored := defaultStrategy pricing filtered
  let scored := baseScored.map fun cand =>
    { cand with score := playbook.rules.foldl (applyModifier cand) cand.score }
  let batchRule := playbook.rules.find? (fun r => r.type = "batch")
  let attached :=
    match batchRule with
    | some r => scored.map fun s => { s with batchRule := some r }
    | none => scored
  sortByScore attached

/-- The candidates gathered for one entry of `equivalentModels`. -/
def expandModel (db : EngineDb) (modelStr : String) : List Candidate :=
  let separator : Option Char :=
    if modelStr.data.contains '/' then some '/'
    else if modelStr.data.contains ':' then some ':'
    else none
  match separator with
  | some sep =>
    let parts := splitOnChar sep modelStr.data
    let providerAlias := String.mk (parts.headD [])
    let providerId := db.resolveProviderId providerAlias
    let modelName := String.mk (List.intercalate [sep] parts.tail)
    (getProviderConnections db.providerConnections
        { provider := some providerId, group := none, isActive := some true }).map fun conn =>
      { connection := conn, provider := providerId, model := modelName, score := 0,
        reasons := [], costPer1k := none, batchRule := none }
  | none =>
    (getProviderConnections db.providerConnections
        { provider := none, group := none, isActive := some true }).map fun conn =>
      { connection := conn, provider := conn.provider, model := modelStr, score := 0,
        reasons := [], costPer1k := none, batchRule := none }

/-- Step 2 of `findRoute`: all candidates, in the order of `equivalentModels`. -/
def expandCandidates (db : EngineDb) (ctx : RequestContext) : List Candidate :=
  let equivalentModels :=
    match ctx.equivalentModels with
    | some l => l
    | none => [ctx.model]
  equivalentModels.flatMap (expandModel db)

/-- Step 3 of `findRoute`: the candidates for which `checkLimit` answers allowed, in order.
A `checkLimit` that raises ends the loop with that error. -/
def filterByRateLimits (db : RateLimitDb) (now : Int) (estimatedTokens : Nat) :
    RateLimiter → List Candidate → Except String (List Candidate) × RateLimiter
  | rl, [] => (.ok [], rl)
  | rl, cand :: rest =>
    match checkLimit db rl now cand.provider cand.model estimatedTokens with
    | (.error e, rl1) => (.error e, rl1)
    | (.ok limitCheck, rl1) =>
      match filterByRateLimits db now estimatedTokens rl1 rest with
      | (.error e, rl2) => (.error e, rl2)
      | (.ok available, rl2) =>
        (.ok (if limitCheck.allowed then cand :: available else available), rl2)

/-- The method `findRoute(requestContext)` at clock reading `now`, on the engine whose rate
limiter is `rl`. -/
def findRoute (db : EngineDb) (rl : RateLimiter) (now : Int) (ctx : RequestContext) :
    Except String (List Candidate) × RateLimiter :=
  let activePlaybook := selectPlaybook db.playbooks ctx db.settings
  let candidates := expandCandidates db ctx
  match filterByRateLimits db.rateLimit now ctx.estimatedTokens rl candidates with
  | (.error e, rl1) => (.error e, rl1)
  | (.ok availableCandidates, rl1) =>
    match activePlaybook with
    | some pb => (.ok (executePlaybook db.pricing pb availableCandidates), rl1)
    | none => (.ok (defaultStrategy db.pricing availableCandidates), rl1)

/-! ## Queue manager -/

/-- The metadata of an enqueued request (`none` for an absent field). -/
structure Metadata where
  group : Option String
  intent : Option String
deriving DecidableEq

/-- A queue item. `id` identifies the task closure and its promise (the position of the
request among all requests ever enqueued). -/
structure QueueItem where
  id : Nat
  metadata : Metadata
  priority : Int
  ts : Int
deriving DecidableEq

/-- How a task settled. -/
inductive Settlement where
  | resolved : Settlement
  | rejected : Settlement
deriving DecidableEq

/-- The queue manager. `queue`, `concurrencyLimit` and `activeCount` are the fields of the
class; `running` lists the started tasks whose `await item.task()` is still pending, `settled`
the items whose promise was resolved or rejected, `enqueued` counts the calls of `enqueue`. -/
structure QueueManager where
  queue : List QueueItem
  concurrencyLimit : Int
  activeCount : Int
  running : List QueueItem
  settled : List (QueueItem × Settlement)
  enqueued : Nat

/-- The state set up by the constructor. -/
def QueueManager.new : QueueManager :=
  { queue := [], concurrencyLimit := 10, activeCount := 0, running := [], settled := [],
    enqueued := 0 }

/-- The table `weights` of `calculatePriority`. -/
def queueWeights : List (String × Int) :=
  [("personal", 10), ("work", 20), ("team", 30), ("enterprise", 50), ("urgent", 100)]

/-- The method `calculatePriority(metadata)`. The groups that reach the queue are the
orchestrator's `params.user?.group || "default"`; a group named like a property of
`Object.prototype`, whose entry in `weights` is not a number, is not represented. -/
def calculatePriority (metadata : Metadata) : Int :=
  let score : Int :=
    match metadata.group with
    | some g => (queueWeights.lookup g).getD 0
    | none => 0
  if metadata.intent = some "urgent" || metadata.intent = some "coding" then score + 100
  else score

/-- The synchronous part of `process()`: return when no slot is free or nothing waits,
otherwise count one more active task, take the head of the queue and start its task (a
task is a closure that does not itself call the queue manager). -/
def QueueManager.process (q : QueueManager) : QueueManager :=
  if q.activeCount ≥ q.concurrencyLimit || q.queue.length = 0 then q
  else
    match q.queue with
    | [] => q
    | item :: rest =>
      { q with activeCount := q.activeCount + 1, queue := rest, running := q.running ++ [item] }

/-- The order of `queue.sort((a, b) => b.priority - a.priority || a.ts - b.ts)`: `a` may
stand before `b`. -/
def queueBefore (a b : QueueItem) : Prop :=
  if b.priority - a.priority ≠ 0 then b.priority - a.priority ≤ 0 else a.ts - b.ts ≤ 0

instance : DecidableRel queueBefore := fun a b => by unfold queueBefore; infer_instance

/-- The method `enqueue(task, metadata)` called at clock reading `ts`. -/
def QueueManager.enqueue (q : QueueManager) (metadata : Metadata) (ts : Int) : QueueManager :=
  let item : QueueItem :=
    { id := q.enqueued, metadata := metadata, priority := calculatePriority metadata, ts := ts }
  let pushed := q.queue ++ [item]
  QueueManager.process
    { q with queue := pushed.insertionSort queueBefore, enqueued := q.enqueued + 1 }

/-- The continuation of `process()` after `await item.task()` for the running task at
position `i`: its promise is resolved or rejected, `activeCount` is decremented and
`process()` is called. Nothing happens when no task runs at that position. -/
def QueueManager.settle (q : QueueManager) (i : Nat) (how : Settlement) : QueueManager :=
  match q.running.get? i with
  | none => q
  | some item =>
    QueueManager.process
      { q with running := q.running.eraseIdx i, settled := q.settled ++ [(item, how)],
               activeCount := q.activeCount - 1 }

/-- The method `setConcurrency(limit)`. -/
def QueueManager.setConcurrency (q : QueueManager) (limit : Int) : QueueManager :=
  QueueManager.process { q with concurrencyLimit := limit }

/-- An event of the queue manager: a call of `enqueue`, the settlement of a running task,
or a call of `setConcurrency`. -/
inductive QueueEvent where
  | enqueue (metadata : Metadata) (ts : Int) : QueueEvent
  | settle (i : Nat) (how : Settlement) : QueueEvent
  | setConcurrency (limit : Int) : QueueEvent
deriving DecidableEq

/-- The state after one event. -/
def QueueManager.step (q : QueueManager) : QueueEvent → QueueManager
  | .enqueue metadata ts => q.enqueue metadata ts
  | .settle i how => q.settle i how
  | .setConcurrency limit => q.setConcurrency limit

/-- The state after a sequence of events. -/
def QueueManager.run (q : QueueManager) (events : List QueueEvent) : QueueManager :=
  events.foldl QueueManager.step q

/-- Whether an event is a call of `setConcurrency`. -/
def QueueEvent.isSetConcurrency : QueueEvent → Bool
  | .setConcurrency _ => true
  | _ => false

/-! ## Orchestrator: batch mode -/

/-- The result object of the backend call `handleChatCore` (`status = 0` when missing). -/
structure CallResult where
  success : Bool
  status : Nat
  usage : Option Usage
  providerHeaders : Option Headers
  error : Option String
deriving DecidableEq

/-- How a backend call ends: it returns a result object or throws an error with a name. -/
inductive BackendOutcome where
  | returned (r : CallResult) : BackendOutcome
  | threw (name message : String) : BackendOutcome
deriving DecidableEq

/-- An entry given to `appendRequestLog`. -/
structure LogEntry where
  model : String
  provider : Option String
  connectionId : Option String
  status : Nat
  tokens : Option Usage
  latency : Option Int
deriving DecidableEq

/-- A transaction given to `recordP2pTransaction` (the amount, a floating-point figure, is
left out). -/
structure Transaction where
  type : String
  offerId : Option String
  model : String
  tokens : Option Usage
deriving DecidableEq

/-- A side effect of the orchestrator on its collaborators. `updateProviderConnection` carries
the latency and the token count from which the tokens-per-second figure is derived,
`handleChatCore` the candidate whose connection and model are passed to the backend call and
the signed identity header of a peer call, `onFailure` the arguments of the failure
callback. -/
inductive Effect where
  | abort : Effect
  | updateProviderConnection (connectionId : String) (latency : Int) (tokens : Nat) : Effect
  | recordUsage (provider model : String) (usage : Usage) (headers : Option Headers) : Effect
  | appendRequestLog (entry : LogEntry) : Effect
  | recordP2pTransaction (tx : Transaction) : Effect
  | handleChatCore (cand : Candidate) (identity : Option String) : Effect
  | onFailure (connectionId : String) (status : Nat) (error : Option String)
      (provider : String) : Effect
deriving DecidableEq

/-- What the caller of the orchestrator receives. -/
inductive Response where
  | result (r : CallResult) : Response
  | aborted : Response
  | error (status : Nat) (message : String) : Response
deriving DecidableEq

/-- How a batch task (one raced promise) settles. -/
inductive TaskSettlement where
  | fulfilled (value : Response) : TaskSettlement
  | rejected (message : String) : TaskSettlement
deriving DecidableEq

/-- The names that `orchestrator.js` imports from `@/lib/localDb.js`. -/
def orchestratorLocalDbImports : List String :=
  ["updateProviderConnection", "getP2pSubscriptions", "getPricingForModel", "getNodeIdentity"]

/-- The billing block of a success: nothing unless the provider is `peer` and pricing is
known. The call of `recordP2pTransaction` raises a ReferenceError when the name is not bound
in the module, which the surrounding `try` swallows. -/
def billingEffects (pricing : PricingTable) (cand : Candidate) (result : CallResult) :
    List Effect :=
  if cand.provider = "peer" then
    match getPricingForModel pricing cand.provider cand.model with
    | .nothing => []
    | _ =>
      if "recordP2pTransaction" ∈ orchestratorLocalDbImports then
        [Effect.recordP2pTransaction
          { type := "spend", offerId := cand.connection.nodeId, model := cand.model,
            tokens := result.usage }]
      else []
  else []

/-- The body of one raced task of `_executeBatchChat`, given how its backend call ended and
the milliseconds elapsed since the batch started: the effects it performs and how its
promise settles. -/
def batchTask (pricing : PricingTable) (cand : Candidate) (outcome : BackendOutcome)
    (latency : Int) : List Effect × TaskSettlement :=
  match outcome with
  | .returned result =>
    if result.success then
      let tokens : Nat :=
        match result.usage with
        | some u => orDefault u.total_tokens 1
        | none => 1
      let usage : Usage :=
        match result.usage with
        | some u => u
        | none => { tokens := 0, total_tokens := 0, prompt_tokens := 0, completion_tokens := 0 }
      ([Effect.abort,
        Effect.updateProviderConnection cand.connection.id latency tokens,
        Effect.recordUsage cand.provider cand.model usage result.providerHeaders,
        Effect.appendRequestLog
          { model := cand.model, provider := some cand.provider,
            connectionId := some cand.connection.id, status := 200, tokens := result.usage,
            latency := some latency }]
        ++ billingEffects pricing cand result,
       .fulfilled (.result result))
    else
      ([], .rejected (result.error.getD "Batch candidate failed"))
  | .threw name message =>
    if name = "AbortError" then ([], .fulfilled .aborted)
    else ([], .rejected message)

/-- One raced backend call as the environment plays it: how `handleChatCore` ends, after how
many milliseconds from the start of the batch, and how many milliseconds the awaited writes
of the success block (connection health, usage, log, billing) then take. -/
structure RacedCall where
  outcome : BackendOutcome
  latency : Int
  recording : Int
deriving DecidableEq

/-- One raced attempt: a candidate and its backend call. -/
structure Attempt where
  cand : Candidate
  call : RacedCall
deriving DecidableEq

/-- The time at which the promise of a raced task settles: a success first awaits its
writes, a failure or an abort settles as soon as the backend call has ended. -/
def Attempt.settledAt (a : Attempt) : Int :=
  match a.call.outcome with
  | .returned r => if r.success then a.call.latency + a.call.recording else a.call.latency
  | .threw _ _ => a.call.latency

/-- The raced attempts of a batch, in candidate order: the first `batchRule.parallel || 2`
candidates, each with the backend call played for its position. -/
def raceAttempts (candidates : List Candidate) (batchRule : Rule) (race : Nat → RacedCall) :
    List Attempt :=
  let batchCandidates := candidates.take (orDefault batchRule.parallel 2)
  batchCandidates.enum.map fun ic => { cand := ic.2, call := race ic.1 : Attempt }

/-- The value of `Promise.any(tasks)` inside the `try` of `_executeBatchChat`, on the task
settlements in the order in which they happen: the value of the first task to fulfil, or
the 503 response when every task rejects. -/
def promiseAny : List TaskSettlement → Response
  | [] => .error 503 "All batch candidates failed"
  | .fulfilled v :: _ => v
  | .rejected _ :: rest => promiseAny rest

/-- The function `_executeBatchChat(params, candidates, batchRule)`: the effects of all raced
tasks, in the order in which their backend calls end, and the value returned to the
caller, which `Promise.any` takes from the tasks in the order in which their promises
settle (equal times keep candidate order). -/
def executeBatchChat (pricing : PricingTable) (candidates : List Candidate) (batchRule : Rule)
    (race : Nat → RacedCall) : List Effect × Response :=
  let attempts := raceAttempts candidates batchRule race
  let byCompletion := attempts.insertionSort (fun a b => a.call.latency ≤ b.call.latency)
  let bySettlement := attempts.insertionSort (fun a b => a.settledAt ≤ b.settledAt)
  (byCompletion.flatMap (fun a => (batchTask pricing a.cand a.call.outcome a.call.latency).1),
   promiseAny
     (bySettlement.map (fun a => (batchTask pricing a.cand a.call.outcome a.call.latency).2)))

/-- Whether an effect is a usage-log entry. -/
def Effect.isLog : Effect → Bool
  | .appendRequestLog _ => true
  | _ => false

/-- Whether an effect is a call of `RateLimiter.recordUsage`. -/
def Effect.isRecordUsage : Effect → Bool
  | .recordUsage _ _ _ _ => true
  | _ => false

/-- Whether an effect is a connection-health update. -/
def Effect.isHealthUpdate : Effect → Bool
  | .updateProviderConnection _ _ _ => true
  | _ => false

/-! ## Notions used in the statements -/

deriving instance DecidableEq for Except

/-- The identity of a candidate: its connection, provider and model. -/
def Candidate.route (c : Candidate) : Connection × String × String :=
  (c.connection, c.provider, c.model)

/-- Whether `checkLimit` returns and answers allowed for a candidate. -/
def limitAllows (db : RateLimitDb) (rl : RateLimiter) (now : Int) (estimatedTokens : Nat)
    (c : Candidate) : Bool :=
  match (checkLimit db rl now c.provider c.model estimatedTokens).1 with
  | .ok r => r.allowed
  | .error _ => false

/-- The limiter after a sequence of `recordUsage` calls without headers for one provider and
model, each call given by its clock reading and usage. -/
def recordUsages (db : RateLimitDb) (provider model : String) (rl : RateLimiter)
    (calls : List (Int × Usage)) : RateLimiter :=
  calls.foldl (fun r c => (recordUsage db r c.1 provider model c.2 none).2) rl

/-- An operation on the limiter: a `checkLimit` for a provider and model, or a `checkLimit`
at `tCheck` followed, only when it answered allowed, by a `recordUsage` without headers for
the same provider and model at `tRecord`. -/
inductive LimiterOp where
  | check (provider model : String) (now : Int) (estimatedTokens : Nat) : LimiterOp
  | checkThenRecord (provider model : String) (tCheck : Int) (estimatedTokens : Nat)
      (tRecord : Int) (usage : Usage) : LimiterOp

/-- The provider an operation is for. -/
def LimiterOp.provider : LimiterOp → String
  | .check p _ _ _ => p
  | .checkThenRecord p _ _ _ _ _ => p

/-- The model an operation is for. -/
def LimiterOp.model : LimiterOp → String
  | .check _ m _ _ => m
  | .checkThenRecord _ m _ _ _ _ => m

/-- The clock of an operation does not run backwards. -/
def LimiterOp.timed : LimiterOp → Prop
  | .check _ _ _ _ => True
  | .checkThenRecord _ _ tCheck _ tRecord _ => tCheck ≤ tRecord

instance : DecidablePred LimiterOp.timed := fun op => by
  cases op <;> unfold LimiterOp.timed <;> infer_instance

/-- None of the buckets that an operation counts on is stored under the key `k`. -/
def LimiterOp.leaves (cfg : Configs) (k : String) (op : LimiterOp) : Prop :=
  match cfg op.provider with
  | none => True
  | some bs =>
    ∀ b ∈ bs, isApplicable b op.model = true → getBucketKey op.provider b.name op.model ≠ k

instance (cfg : Configs) (k : String) : DecidablePred (LimiterOp.leaves cfg k) := fun op => by
  unfold LimiterOp.leaves
  cases cfg op.provider <;> infer_instance

/-- The limiter after one operation. -/
def applyLimiterOp (db : RateLimitDb) (rl : RateLimiter) : LimiterOp → RateLimiter
  | .check provider model now est => (checkLimit db rl now provider model est).2
  | .checkThenRecord provider model tCheck est tRecord usage =>
    match checkLimit db rl tCheck provider model est with
    | (.ok r, rl1) =>
      if r.allowed then (recordUsage db rl1 tRecord provider model usage none).2 else rl1
    | (.error _, rl1) => rl1

/-- The invariant of the queue manager under a fixed limit `L`. -/
def QueueManager.Inv (L : Int) (q : QueueManager) : Prop :=
  q.activeCount ≤ L ∧ q.concurrencyLimit = L ∧ (q.running.length : Int) = q.activeCount

/-! ## Example data -/

/-- A pricing object without entries: every read answers nothing. -/
def noPricing : PricingTable := fun _ _ => .nothing

/-- The reads of a pricing object with the given own entries, as the examples make them:
under an own provider key an own entry, or the inherited member for a model named like a
property of `Object.prototype`; nothing for every other read. -/
def pricingOf (own : String → Option (String → Option Pricing)) : PricingTable :=
  fun key model =>
    match key with
    | .text provider =>
      match own provider with
      | some models =>
        match models model with
        | some p => .entry p
        | none => if model ∈ objectPrototypeNames then .foreign else .nothing
      | none => .nothing
    | .inherited _ => .nothing

/-- A usage object without figures. -/
def noUsage : Usage := { tokens := 0, total_tokens := 0, prompt_tokens := 0, completion_tokens := 0 }

/-- An active connection of a provider, with an optional cooldown. -/
def exConn (id provider : String) (cooldown : Option Int) : Connection :=
  { id := id, provider := provider, group := "", priority := 1, isActive := true,
    rateLimitedUntil := cooldown, nodeId := none }

/-- An unscored candidate on a connection without cooldown. -/
def exCand (id provider model : String) : Candidate :=
  { connection := exConn id provider none, provider := provider, model := model, score := 0,
    reasons := [], costPer1k := none, batchRule := none }

/-- A successful backend result. -/
def exOk : CallResult :=
  { success := true, status := 200, usage := none, providerHeaders := none, error := none }

/-- A batch rule racing two candidates. -/
def exBatchRule : Rule :=
  { type := "batch", target := none, value := .missing, parallel := 2, strategy := "race" }

/-- A race in which both backend calls return success after 10 ms, so that both have
completed before the continuation of either task runs; the writes take 5 ms. -/
def exBothSucceed : Nat → RacedCall :=
  fun _ => { outcome := .returned exOk, latency := 10, recording := 5 }

/-- A database without rate-limit configuration and without saved state. -/
def exNoLimits : RateLimitDb :=
  { getRateLimitConfigs := .ok (fun _ => none), getRateLimitState := .ok none }

/-- A database whose configuration read raises. -/
def exConfigReadFails : RateLimitDb :=
  { getRateLimitConfigs := .error "db unavailable", getRateLimitState := .ok none }

/-- A database whose state read raises. -/
def exStateReadFails : RateLimitDb :=
  { getRateLimitConfigs := .ok (fun _ => none), getRateLimitState := .error "db unavailable" }

/-- A pool with one active openai connection that is rate limited until time 2000. -/
def exCooldownDb : EngineDb :=
  { playbooks := [], settings := none,
    providerConnections := [exConn "c1" "openai" (some 2000)],
    pricing := noPricing, resolveProviderId := fun a => a, rateLimit := exNoLimits }

/-- A request for `openai/gpt-4o`. -/
def exCtx : RequestContext :=
  { model := "openai/gpt-4o", equivalentModels := none, estimatedTokens := 100,
    userGroup := .str "default", intent := .undefined }

/-- The bucket `llama-3-1-8b-instant-tpm` of `DEFAULT_RATE_LIMITS.groq`. -/
def exTpmBucket : Bucket :=
  { name := "llama-3-1-8b-instant-tpm", window_type := "rolling", window_seconds := 60,
    unit := "tokens", value_hint := 6000, applies_to := "llama-3.1-8b-instant" }

/-- A rolling requests bucket with limit 2 per 60 seconds. -/
def exRpmBucket : Bucket :=
  { name := "rpm", window_type := "rolling", window_seconds := 60, unit := "requests",
    value_hint := 2, applies_to := "llama-3.1-8b-instant" }

/-- A fixed-reset requests bucket with limit 2. -/
def exRpdBucket : Bucket :=
  { name := "rpd", window_type := "fixed_reset", window_seconds := 86400, unit := "requests",
    value_hint := 2, applies_to := "all" }

/-- A configuration giving the provider `groq` the listed buckets. -/
def exConfigs (buckets : List Bucket) : Configs :=
  fun p => if p = "groq" then some buckets else none

/-- An initialised limiter with the given groq buckets and an empty window store. -/
def exLimiter (buckets : List Bucket) : RateLimiter :=
  { RateLimiter.new with configs := some (exConfigs buckets) }

/-- The candidate that routing returns for `exCtx` on `exCooldownDb`. -/
def exCooldownRouted : Candidate :=
  { connection := exConn "c1" "openai" (some 2000), provider := "openai", model := "gpt-4o",
    score := 400010, reasons := [], costPer1k := some 0, batchRule := none }

/-- A pool with a groq and an openai connection; the groq requests bucket (limit 2) already
holds two requests in the window that started at time 0. -/
def exLimitedDb : EngineDb :=
  { playbooks := [], settings := none,
    providerConnections := [exConn "g1" "groq" none, exConn "o1" "openai" none],
    pricing := noPricing, resolveProviderId := fun a => a,
    rateLimit :=
      { getRateLimitConfigs := .ok (exConfigs [exRpmBucket]),
        getRateLimitState := .ok (some (fun k =>
          if k = "groq:rpm:llama-3.1-8b-instant" then
            some { count := 2, tokens := 0, startTime := 0, resetTime := .val 60000 }
          else none)) } }

/-- A request whose equivalent models are a groq model and an openai model. -/
def exTwoModelCtx : RequestContext :=
  { model := "llama3-sota",
    equivalentModels := some ["groq/llama-3.1-8b-instant", "openai/gpt-4o"],
    estimatedTokens := 100, userGroup := .str "default", intent := .undefined }

/-- The candidates that routing returns for `exTwoModelCtx` on `exLimitedDb` at time 1000. -/
def exLimitedRouted : List Candidate :=
  [{ connection := exConn "o1" "openai" none, provider := "openai", model := "gpt-4o",
     score := 400010, reasons := [], costPer1k := some 0, batchRule := none }]

/-- A window state written for a bucket by `updateBucketState` alone: its reset time is a
number, and for a bucket that is not `fixed_reset` it is the window start plus the window
length. -/
def WindowOk (b : Bucket) (s : WindowState) : Prop :=
  ∃ r, s.resetTime = .val r ∧ (b.window_type ≠ "fixed_reset" → r = s.startTime + windowMs b)

/-- Every stored window belongs to a bucket of `bs` that applies to the model, and was
written for it by `updateBucketState` alone. -/
def StreamInv (provider model : String) (bs : List Bucket) (w : Windows) : Prop :=
  ∀ k s, w k = some s →
    ∃ b ∈ bs, isApplicable b model = true ∧ k = getBucketKey provider b.name model ∧ WindowOk b s

/-- A set of field overwrites on a window state: the effect of one or more header syncs. -/
structure Patch where
  count : Option Nat
  tokens : Option Nat
  resetTime : Option JsNum

/-- Apply the overwrites to a state. -/
def Patch.apply (P : Patch) (s : WindowState) : WindowState :=
  { count := P.count.getD s.count, tokens := P.tokens.getD s.tokens,
    startTime := s.startTime, resetTime := P.resetTime.getD s.resetTime }

/-- The overwrites of `P` followed by those of `Q`. -/
def Patch.andThen (P Q : Patch) : Patch :=
  { count := Q.count.orElse (fun _ => P.count), tokens := Q.tokens.orElse (fun _ => P.tokens),
    resetTime := Q.resetTime.orElse (fun _ => P.resetTime) }

/-- The operations of the C6 example: two admitted requests for model `m`, an admitted
request for another model, a third check for `m` that is refused, and a plain check. -/
def exFixedOps : List LimiterOp :=
  [.checkThenRecord "groq" "m" 0 100 0 noUsage, .checkThenRecord "groq" "m" 1 100 1 noUsage,
   .checkThenRecord "groq" "other" 1 100 2 noUsage,
   .checkThenRecord "groq" "m" 2 100 2 noUsage, .check "groq" "m" 3 100]

/-- Response headers reporting one remaining request and a reset in 60 seconds. -/
def exHeaders : Headers :=
  [("X-RateLimit-Remaining-Requests", .int 1), ("X-RateLimit-Reset-Requests", .int 60)]

/-- A connection with its cooldown replaced by `g`. -/
def setCooldown (g : Connection → Option Int) (c : Connection) : Connection :=
  { c with rateLimitedUntil := g c }

/-- A candidate with the cooldown of its connection replaced. -/
def Candidate.withCooldown (g : Connection → Option Int) (cand : Candidate) : Candidate :=
  { cand with connection := setCooldown g cand.connection }

/-- A database with the cooldown of every pooled connection replaced. -/
def EngineDb.withCooldowns (g : Connection → Option Int) (db : EngineDb) : EngineDb :=
  { db with providerConnections := db.providerConnections.map (setCooldown g) }

/-! ## Notions used in the statements about the queue order -/

/-- The queue manager on which `process()` runs inside an event: after `enqueue` has pushed
the new item and sorted, after a settlement has decremented `activeCount`, after
`setConcurrency` has stored the limit. `none` for a settlement at a position at which
nothing runs. -/
def QueueManager.beforeProcess (q : QueueManager) : QueueEvent → Option QueueManager
  | .enqueue metadata ts =>
    let item : QueueItem :=
      { id := q.enqueued, metadata := metadata, priority := calculatePriority metadata, ts := ts }
    let pushed := q.queue ++ [item]
    some { q with queue := pushed.insertionSort queueBefore, enqueued := q.enqueued + 1 }
  | .settle i how =>
    match q.running.get? i with
    | none => none
    | some item =>
      some { q with running := q.running.eraseIdx i, settled := q.settled ++ [(item, how)],
                    activeCount := q.activeCount - 1 }
  | .setConcurrency limit => some { q with concurrencyLimit := limit }

/-- The task that a call of `process()` starts: the head of the queue when a slot is free and
something waits. -/
def QueueManager.starts (q : QueueManager) : Option QueueItem :=
  if q.activeCount ≥ q.concurrencyLimit || q.queue.length = 0 then none
  else q.queue.head?

/-- The clock readings of the `enqueue` calls of an event sequence, in order. -/
def enqueueTimes (events : List QueueEvent) : List Int :=
  events.filterMap fun e =>
    match e with
    | .enqueue _ ts => some ts
    | _ => none

/-- Admission order: `a` has the greater priority, or the same priority and was enqueued
earlier. -/
def admittedBefore (a b : QueueItem) : Prop :=
  b.priority < a.priority ∨ (a.priority = b.priority ∧ a.id < b.id)

instance : DecidableRel admittedBefore := fun a b => by unfold admittedBefore; infer_instance

/-- The comparator of the sort and the admission order agree on a pair. -/
def sortAgrees (a b : QueueItem) : Prop :=
  (queueBefore a b → admittedBefore a b) ∧ (¬ queueBefore a b → admittedBefore b a)

/-- The ordering invariant of the waiting list, relative to the clock readings `later` of the
`enqueue` calls still to come: the list is in admission order, its items carry their
calculated priority and an enqueue position below the counter, and timestamps do not
decrease with the enqueue position nor exceed a later clock reading. -/
def QueueManager.Ordered (q : QueueManager) (later : List Int) : Prop :=
  q.queue.Pairwise admittedBefore ∧
  (∀ a ∈ q.queue, a.id < q.enqueued) ∧
  (∀ a ∈ q.queue, ∀ b ∈ q.queue, a.id < b.id → a.ts ≤ b.ts) ∧
  (∀ a ∈ q.queue, ∀ t ∈ later, a.ts ≤ t) ∧
  (∀ a ∈ q.queue, a.priority = calculatePriority a.metadata)

/-- The accounting invariant: the enqueue positions of the waiting, running and settled
tasks together are exactly the positions below the counter, each once, and `activeCount`
is the number of running tasks. -/
def QueueManager.Accounted (q : QueueManager) : Prop :=
  ((q.queue ++ q.running ++ q.settled.map Prod.fst).map QueueItem.id).Perm
    (List.range q.enqueued) ∧
  (q.running.length : Int) = q.activeCount

/-- Events in which a high-priority request arrives while the only slot is taken and a
low-priority request already waits. -/
def exPriorityEvents : List QueueEvent :=
  [.setConcurrency 1,
   .enqueue ⟨some "personal", none⟩ 0,
   .enqueue ⟨some "personal", none⟩ 1,
   .enqueue ⟨some "work", some "urgent"⟩ 2,
   .enqueue ⟨some "personal", none⟩ 3]

/-! ## Orchestrator: authorization and sequential mode -/

/-- The payload that `verifyPayload` returns for a subscription token: the subscription
fields that `createP2pSubscription` signed. -/
structure SubscriptionPayload where
  id : String
  offerId : Option String
  name : String
  status : String
deriving DecidableEq

/-- A stored P2P subscription (`signature` is `""` when the record has none). -/
structure Subscription where
  id : String
  offerId : Option String
  name : String
  status : String
  signature : String
deriving DecidableEq

/-- What `_executeOrchestratedChat` reads from its collaborators: the list returned by
`getP2pSubscriptions()`, the public key of `getNodeIdentity()` (`none` when the call
raises), `verifyPayload(jwt, publicKeyPem)` (`none` when it throws), `signPayload` on the
identity payload for a target connection (`none` when it throws, with an error that is not an
`AbortError`), the pricing table, and the backend `handleChatCore`, which answers the call
at each position with an outcome and the milliseconds it took. -/
structure OrchestratorEnv where
  subscriptions : List Subscription
  publicKey : Option String
  verifyPayload : String → String → Option SubscriptionPayload
  signPayload : String → Option String
  pricing : PricingTable
  backend : Nat → RacedCall

/-- The field `body.routing` of a request. -/
structure RoutingRequest where
  rule : String
  parallel : Nat
  strategy : String
deriving DecidableEq

/-- The parameters of `_executeOrchestratedChat` that its control flow reads. -/
structure ChatParams where
  modelStr : String
  routing : Option RoutingRequest
  hasOnFailure : Bool

/-- How `_executeOrchestratedChat` ends: it returns a response or raises. -/
inductive Completion where
  | returned (r : Response) : Completion
  | raised (name message : String) : Completion
deriving DecidableEq

/-- The body of the authorization loop for one candidate: whether it is pushed to
`authorizedCandidates`. -/
def isAuthorized (env : OrchestratorEnv) (cand : Candidate) : Bool :=
  if cand.provider ≠ "peer" then true
  else
    let nodeId := cand.connection.nodeId
    match env.subscriptions.find? (fun s => s.offerId = nodeId && s.status = "active") with
    | none => false
    | some sub =>
      if sub.signature ≠ "" then
        match env.publicKey with
        | none => false
        | some publicKey => (env.verifyPayload sub.signature publicKey).isSome
      else true

/-- The list `authorizedCandidates` after the loop. -/
def authorizedCandidates (env : OrchestratorEnv) (candidates : List Candidate) :
    List Candidate :=
  candidates.filter (isAuthorized env)

/-- The value of `batchRule`: the request's own routing when it asks for a batch, otherwise
the rule attached to the first candidate that carries one. -/
def selectBatchRule (params : ChatParams) (candidates : List Candidate) : Option Rule :=
  let attached := (candidates.find? (fun c => c.batchRule.isSome)).bind (fun c => c.batchRule)
  match params.routing with
  | some r =>
    if r.rule = "batch" then
      some { type := r.rule, target := none, value := .missing, parallel := r.parallel,
             strategy := r.strategy }
    else attached
  | none => attached

/-- The signed identity header of a call: absent for a provider other than `peer`; the
outer `none` when `signPayload` throws. -/
def identityHeader (env : OrchestratorEnv) (cand : Candidate) : Option (Option String) :=
  if cand.provider = "peer" then (env.signPayload cand.connection.id).map some
  else some none

/-- The success block of the sequential loop. -/
def successEffects (pricing : PricingTable) (cand : Candidate) (result : CallResult)
    (latency : Int) : List Effect :=
  let tokens : Nat :=
    match result.usage with
    | some u => orDefault u.total_tokens 1
    | none => 1
  let usage : Usage :=
    match result.usage with
    | some u => u
    | none => { tokens := 0, total_tokens := 0, prompt_tokens := 0, completion_tokens := 0 }
  [Effect.updateProviderConnection cand.connection.id latency tokens,
   Effect.recordUsage cand.provider cand.model usage result.providerHeaders,
   Effect.appendRequestLog
     { model := cand.model, provider := some cand.provider,
       connectionId := some cand.connection.id, status := orDefault result.status 200,
       tokens := result.usage, latency := some latency }]
  ++ billingEffects pricing cand result

/-- The loop `for (const candidate of finalCandidates)` of `_executeOrchestratedChat` and the
code after it, from the candidate at position `i` on, with the current `lastError` and
`lastStatus`. The callbacks and writes that the loop awaits are taken to return. -/
def sequentialLoop (env : OrchestratorEnv) (params : ChatParams) :
    Nat → List Candidate → Option String → Nat → List Effect × Completion
  | _, [], lastError, lastStatus =>
    ([Effect.appendRequestLog
        { model := params.modelStr, provider := none, connectionId := none,
          status := lastStatus, tokens := none, latency := none }],
     .returned (.error lastStatus
       (match lastError with
        | some e => if e = "" then "All candidates failed" else e
        | none => "All candidates failed")))
  | i, cand :: rest, _, _ =>
    match identityHeader env cand with
    | none => ([], .raised "Error" "signPayload failed")
    | some identity =>
      match (env.backend i).outcome with
      | .threw name message => ([Effect.handleChatCore cand identity], .raised name message)
      | .returned result =>
        if result.success then
          (Effect.handleChatCore cand identity
             :: successEffects env.pricing cand result (env.backend i).latency,
           .returned (.result result))
        else
          let next := sequentialLoop env params (i + 1) rest result.error result.status
          (Effect.handleChatCore cand identity
             :: ((if params.hasOnFailure then
                    [Effect.onFailure cand.connection.id result.status result.error cand.provider]
                  else []) ++ next.1),
           next.2)

/-- The backend calls that the tasks of `_executeBatchChat` make: one for each of the first
`batchRule.parallel || 2` candidates whose identity header could be signed. -/
def batchCalls (env : OrchestratorEnv) (candidates : List Candidate) (batchRule : Rule) :
    List Effect :=
  (candidates.take (orDefault batchRule.parallel 2)).filterMap fun c =>
    (identityHeader env c).map (Effect.handleChatCore c)

/-- How the awaited calls of the batch tasks end: as the backend answers, or at once with
the error of `signPayload` when the identity header of the candidate could not be signed. -/
def batchRace (env : OrchestratorEnv) (candidates : List Candidate) (batchRule : Rule) :
    Nat → RacedCall :=
  fun i =>
    match (candidates.take (orDefault batchRule.parallel 2)).get? i with
    | some c =>
      match identityHeader env c with
      | some _ => env.backend i
      | none => { outcome := .threw "Error" "signPayload failed", latency := 0, recording := 0 }
    | none => env.backend i

/-- The function `_executeOrchestratedChat(params)` from the routed `candidates` on: the
effects on the collaborators, in order (the backend calls of a batch are listed before the
effects of its tasks), and how the function ends. -/
def executeOrchestratedChat (env : OrchestratorEnv) (params : ChatParams)
    (candidates : List Candidate) : List Effect × Completion :=
  let batchRule := selectBatchRule params candidates
  if candidates.length = 0 then
    ([Effect.appendRequestLog
        { model := params.modelStr, provider := none, connectionId := none, status := 404,
          tokens := none, latency := none }],
     .returned (.error 404 ("No available accounts for " ++ params.modelStr ++ " or equivalents")))
  else
    let authorized := authorizedCandidates env candidates
    if authorized.length = 0 && candidates.any (fun c => c.provider = "peer") then
      ([], .returned (.error 403 "Subscription required to access peer nodes. Visit the Marketplace."))
    else
      let finalCandidates := if authorized.length > 0 then authorized else candidates
      match batchRule with
      | some rule =>
        let batch :=
          executeBatchChat env.pricing finalCandidates rule (batchRace env finalCandidates rule)
        (batchCalls env finalCandidates rule ++ batch.1, .returned batch.2)
      | none => sequentialLoop env params 0 finalCandidates none 503

/-- The candidate of a backend call. -/
def Effect.calledCandidate : Effect → Option Candidate
  | .handleChatCore cand _ => some cand
  | _ => none

/-- Whether an effect is a call of the failure callback. -/
def Effect.isOnFailure : Effect → Bool
  | .onFailure _ _ _ _ => true
  | _ => false

/-- Whether an effect is a billing transaction. -/
def Effect.isBilling : Effect → Bool
  | .recordP2pTransaction _ => true
  | _ => false

/-! ## Example data for the orchestrator -/

/-- A failed backend result. -/
def exFail (status : Nat) (error : String) : CallResult :=
  { success := false, status := status, usage := none, providerHeaders := none,
    error := some error }

/-- A backend call that returns `r` after 10 ms. -/
def exCall (r : CallResult) : RacedCall :=
  { outcome := .returned r, latency := 10, recording := 5 }

/-- An environment without subscriptions, keys or pricing, around a given backend. -/
def exEnv (backend : Nat → RacedCall) : OrchestratorEnv :=
  { subscriptions := [], publicKey := none, verifyPayload := fun _ _ => none,
    signPayload := fun _ => none, pricing := noPricing, backend := backend }

/-- A backend whose first two calls fail and whose later calls succeed. -/
def exTwoFailures : Nat → RacedCall
  | 0 => exCall (exFail 500 "upstream error")
  | 1 => exCall (exFail 429 "rate limited")
  | _ => exCall exOk

/-- A backend whose calls all fail with status 429. -/
def exAllFail : Nat → RacedCall :=
  fun _ => exCall (exFail 429 "rate limited")

/-- Three ranked candidates of ordinary providers. -/
def exThree : List Candidate :=
  [exCand "a" "openai" "gpt-4o", exCand "b" "groq" "llama-3.1-8b-instant",
   exCand "c" "anthropic" "claude-sonnet-4-5"]

/-- Parameters of a sequential request with a failure callback. -/
def exParams : ChatParams :=
  { modelStr := "gpt-4o", routing := none, hasOnFailure := true }

/-- Parameters of a request that asks for a batch of two. -/
def exBatchParams : ChatParams :=
  { modelStr := "gpt-4o", routing := some { rule := "batch", parallel := 2, strategy := "race" },
    hasOnFailure := true }

/-- A candidate served by the peer node `nodeId`. -/
def exPeer (id nodeId model : String) : Candidate :=
  { connection :=
      { id := id, provider := "peer", group := "", priority := 1, isActive := true,
        rateLimitedUntil := none, nodeId := some nodeId },
    provider := "peer", model := model, score := 0, reasons := [], costPer1k := none,
    batchRule := none }

/-- A node whose store holds one subscription record for the offer `node-B`, carrying the
token that was issued for the subscription to `node-A`; the token verifies under the
node's own public key. -/
def exTamperedEnv : OrchestratorEnv :=
  { subscriptions :=
      [{ id := "sub-1", offerId := some "node-B", name := "basic", status := "active",
         signature := "token-A" }],
    publicKey := some "own-public-key",
    verifyPayload := fun jwt key =>
      if jwt = "token-A" ∧ key = "own-public-key" then
        some { id := "sub-1", offerId := some "node-A", name := "basic", status := "active" }
      else none,
    signPayload := fun target => some ("identity-for-" ++ target),
    pricing := noPricing,
    backend := fun _ => exCall exOk }

/-- A usage report of 1500 tokens. -/
def exUsage : Usage :=
  { tokens := 1500, total_tokens := 1500, prompt_tokens := 1000, completion_tokens := 500 }

/-- A node subscribed (without signature) to the offer `node-B`, with a price for the peer
model `llama-3.1-8b`, and a backend that succeeds and reports usage. -/
def exBillingEnv : OrchestratorEnv :=
  { subscriptions :=
      [{ id := "sub-2", offerId := some "node-B", name := "basic", status := "active",
         signature := "" }],
    publicKey := none,
    verifyPayload := fun _ _ => none,
    signPayload := fun target => some ("identity-for-" ++ target),
    pricing := pricingOf fun provider =>
      if provider = "peer" then
        some (fun model => if model = "llama-3.1-8b" then some { input := 1, output := 2 } else none)
      else none,
    backend := fun _ =>
      exCall { success := true, status := 200, usage := some exUsage, providerHeaders := none,
               error := none } }

/-- A race in which the backend call of the first candidate is still pending when the
second returns success after 10 ms; the cancelled first call ends with an `AbortError` one
millisecond later, while the writes of the success block take 5 ms. -/
def exAbortRace : Nat → RacedCall
  | 0 => { outcome := .threw "AbortError" "The operation was aborted", latency := 11,
           recording := 0 }
  | _ => { outcome := .returned exOk, latency := 10, recording := 5 }

/-- The entries of `DEFAULT_PRICING` for two models of the alias `cc` (dollars per million
tokens). -/
def exDefaultPricing : PricingTable :=
  pricingOf fun provider =>
    if provider = "cc" then
      some fun model =>
        if model = "claude-opus-4-5-20251101" then some { input := 15, output := 75 }
        else if model = "claude-sonnet-4-5-20250929" then some { input := 3, output := 15 }
        else none
    else none

/-- A candidate on a connection of a given group and pool priority. -/
def exGrouped (id provider model group : String) (priority : Nat) : Candidate :=
  { connection :=
      { id := id, provider := provider, group := group, priority := priority, isActive := true,
        rateLimitedUntil := none, nodeId := none },
    provider := provider, model := model, score := 0, reasons := [], costPer1k := none,
    batchRule := none }

/-- A candidate on a connection of the default group with a given pool priority. -/
def exRanked (id provider model : String) (priority : Nat) : Candidate :=
  { connection :=
      { id := id, provider := provider, group := "", priority := priority, isActive := true,
        rateLimitedUntil := none, nodeId := none },
    provider := provider, model := model, score := 0, reasons := [], costPer1k := none,
    batchRule := none }

/-! ## Built-in playbooks and the usage feed -/

/-- The entry `pb-coding-default` of `SMART_PLAYBOOKS`. -/
def pbCodingDefault : Playbook :=
  { id := "pb-coding-default", name := "Coding Priorities", priority := 100, isActive := true,
    trigger := none,
    rules :=
      [{ type := "boost", target := some "cc/claude-3-5-sonnet", value := .num 50000,
         parallel := 0, strategy := "" },
       { type := "boost", target := some "qw/qwen-2.5-coder", value := .num 40000,
         parallel := 0, strategy := "" },
       { type := "boost", target := some "openai/gpt-4o", value := .num 30000,
         parallel := 0, strategy := "" }] }

/-- The entry `pb-low-cost-default` ("Budget Routing") of `SMART_PLAYBOOKS`. -/
def pbLowCostDefault : Playbook :=
  { id := "pb-low-cost-default", name := "Budget Routing", priority := 50, isActive := true,
    trigger := none,
    rules :=
      [{ type := "filter-in", target := some "groq", value := .str "groq",
         parallel := 0, strategy := "" },
       { type := "filter-in", target := some "cerebras", value := .str "cerebras",
         parallel := 0, strategy := "" },
       { type := "filter-in", target := some "github_models", value := .str "github_models",
         parallel := 0, strategy := "" },
       { type := "boost", target := some "groq", value := .num 10000,
         parallel := 0, strategy := "" },
       { type := "boost", target := some "cerebras", value := .num 10000,
         parallel := 0, strategy := "" }] }

/-- The entry `pb-privacy-default` of `SMART_PLAYBOOKS`. -/
def pbPrivacyDefault : Playbook :=
  { id := "pb-privacy-default", name := "Privacy First", priority := 10, isActive := true,
    trigger := none,
    rules :=
      [{ type := "filter-in", target := some "local", value := .str "local",
         parallel := 0, strategy := "" },
       { type := "filter-out", target := some "openai", value := .str "openai",
         parallel := 0, strategy := "" },
       { type := "filter-out", target := some "anthropic", value := .str "anthropic",
         parallel := 0, strategy := "" }] }

/-- The entry `pb-balanced-default` of `SMART_PLAYBOOKS`. -/
def pbBalancedDefault : Playbook :=
  { id := "pb-balanced-default", name := "Performance Balanced", priority := 0,
    isActive := true, trigger := none,
    rules :=
      [{ type := "stack", target := some "ag,cc,cx,qw,openai,anthropic,gemini",
         value := .str "failover", parallel := 0, strategy := "" }] }

/-- The constant `SMART_PLAYBOOKS` of `shared/constants/defaults.js`. -/
def SMART_PLAYBOOKS : List Playbook :=
  [pbCodingDefault, pbLowCostDefault, pbPrivacyDefault, pbBalancedDefault]

/-- The call `routingEngine.recordUsage(provider, model, usage, headers)` that a
`recordUsage` effect of the orchestrator stands for, at clock reading `now` on the rate
limiter of the engine: it hands its arguments to `RateLimiter.recordUsage`. Other effects
leave the limiter alone. -/
def Effect.feedLimiter (db : RateLimitDb) (now : Int) (rl : RateLimiter) : Effect → RateLimiter
  | .recordUsage provider model usage headers =>
    (ZippyMesh.recordUsage db rl now provider model usage headers).2
  | _ => rl

/-- The rate limiter after the effects of a request. -/
def feedLimiter (db : RateLimitDb) (now : Int) (rl : RateLimiter) (effects : List Effect) :
    RateLimiter :=
  effects.foldl (Effect.feedLimiter db now) rl

/-! ## Example data for the routing rules and the usage feed -/

/-- A playbook with a stack rule preferring provider `b` over provider `a`, its target as
given, and a boost of 5000 for provider `a`. -/
def exStackPlaybook (stackTarget : Option String) : Playbook :=
  { id := "pb-stack", name := "Stack", priority := 0, isActive := true, trigger := none,
    rules :=
      [{ type := "stack", target := stackTarget, value := .list ["b", "a"], parallel := 0,
         strategy := "" },
       { type := "boost", target := some "a", value := .num 5000, parallel := 0,
         strategy := "" }] }

/-- A playbook with a boost of 10 for provider `a`. -/
def exTiePlaybook : Playbook :=
  { id := "pb-tie", name := "Tie", priority := 0, isActive := true, trigger := none,
    rules :=
      [{ type := "boost", target := some "a", value := .num 10, parallel := 0,
         strategy := "" }] }

/-- Two candidates with equal base scores, of the providers `a` and `b`. -/
def exStackCandidates : List Candidate :=
  [exRanked "ca" "a" "gpt-4o" 1, exRanked "cb" "b" "gpt-4o" 1]

/-- An OpenAI-style usage object reporting 1500 consumed tokens (it has no field `tokens`). -/
def exOpenAiUsage : Usage :=
  { tokens := 0, total_tokens := 1500, prompt_tokens := 1000, completion_tokens := 500 }

/-- A backend whose calls succeed, reporting `exOpenAiUsage` and no rate-limit headers. -/
def exUsageBackend : Nat → RacedCall :=
  fun _ =>
    exCall { success := true, status := 200, usage := some exOpenAiUsage,
             providerHeaders := none, error := none }

/-- The events of the C29 example: limit 1, four requests (the first starts, three wait),
then `setConcurrency(3)`. -/
def exRaiseLimitEvents : List QueueEvent :=
  [.setConcurrency 1,
   .enqueue ⟨none, none⟩ 0, .enqueue ⟨none, none⟩ 1, .enqueue ⟨none, none⟩ 2,
   .enqueue ⟨none, none⟩ 3,
   .setConcurrency 3]

/-! ## Notions used in the statements about routing order and playbook selection -/

/-- The value of a JavaScript number, `d` for `NaN`. -/
def JsNum.getD (x : JsNum) (d : Int) : Int :=
  match x with
  | .val i => i
  | .nan => d

/-- The comparison `a.score <= b.score` of JavaScript: false when either score is `NaN`. -/
def scoreLe (a b : Candidate) : Prop :=
  match a.score, b.score with
  | .val x, .val y => x ≤ y
  | _, _ => False

instance : DecidableRel scoreLe := fun a b => by
  unfold scoreLe
  cases a.score <;> cases b.score <;> infer_instance

/-- The list `scored` of `executePlaybook` as it is handed to the final sort: the
base-scored candidates in ascending base-score order, each with the modifiers of the
playbook applied to its score and the batch rule of the playbook attached. -/
def playbookScored (pricing : PricingTable) (playbook : Playbook)
    (candidates : List Candidate) : List Candidate :=
  let filtered := applyFilterRules playbook.rules candidates
  let baseScored := defaultStrategy pricing filtered
  let scored := baseScored.map fun cand =>
    { cand with score := playbook.rules.foldl (applyModifier cand) cand.score }
  let batchRule := playbook.rules.find? (fun r => r.type = "batch")
  match batchRule with
  | some r => scored.map fun s => { s with batchRule := some r }
  | none => scored

/-- The test of the loop of `selectPlaybook`: the playbook has a trigger, of type `intent`
with the intent of the context as value, or of type `group` with its user group. -/
def triggerMatches (context : RequestContext) (pb : Playbook) : Bool :=
  match pb.trigger with
  | some t =>
    if t.type = "intent" then context.intent.strictEq t.value
    else if t.type = "group" then context.userGroup.strictEq t.value
    else false
  | none => false

/-- The fallback of `selectPlaybook`: the first active playbook whose id is the configured
default. -/
def defaultPlaybook (playbooks : List Playbook) (settings : Option Settings) :
    Option Playbook :=
  match settings with
  | some st =>
    if st.defaultPlaybookId = "" then none
    else playbooks.find? (fun p => p.id = st.defaultPlaybookId && p.isActive)
  | none => none

/-- A playbook triggered by a user group. -/
def exGroupPlaybook (id : String) (priority : Int) (isActive : Bool) (group : String) :
    Playbook :=
  { id := id, name := id, priority := priority, isActive := isActive,
    trigger := some { type := "group", value := .str group }, rules := [] }

/-- A playbook triggered by an intent. -/
def exIntentPlaybook (id : String) (priority : Int) (value : JsVal) : Playbook :=
  { id := id, name := id, priority := priority, isActive := true,
    trigger := some { type := "intent", value := value }, rules := [] }

/-- Playbooks for a request of the group `default`: a low-priority match, two matches of
priority 5, an inactive match of priority 9 and the built-in playbooks, which have no
trigger. -/
def exPlaybooks : List Playbook :=
  [exGroupPlaybook "low" 1 true "default", exGroupPlaybook "h1" 5 true "default",
   exGroupPlaybook "h2" 5 true "default", exGroupPlaybook "off" 9 false "default"]
  ++ SMART_PLAYBOOKS

/-! ## Notions used in the statements about usage recording -/

/-- Whether `updateBucketState` starts a new window instead of continuing the stored one:
no window is stored, or the stored one has expired (for `fixed_reset` the clock has
reached `state.resetTime || now + 86400000`, otherwise more than the window length has
passed since `startTime`). -/
def startsNewWindow (bucket : Bucket) (state : Option WindowState) (now : Int) : Bool :=
  match state with
  | none => true
  | some s =>
    if bucket.window_type = "fixed_reset" then
      decide (now ≥ (match s.resetTime with
        | .val r => if r = 0 then now + 86400000 else r
        | .nan => now + 86400000))
    else decide (now - s.startTime > windowMs bucket)

/-- An initialised groq limiter with a token bucket and a requests bucket, whose requests
window started at time 0 and holds two requests. -/
def exUsedLimiter (buckets : List Bucket) : RateLimiter :=
  { windows := fun k =>
      if k = "groq:rpm:llama-3.1-8b-instant" then
        some { count := 2, tokens := 0, startTime := 0, resetTime := .val 60000 }
      else none,
    configs := some (exConfigs buckets), isDirty := false }

/-- Response headers that report the remaining tokens only. -/
def exTokenHeaders : Headers := [("X-RateLimit-Remaining-Tokens", .int 5000)]

/-- A usage object of 50 tokens in the form that `recordUsage` reads. -/
def exSmallUsage : Usage :=
  { tokens := 50, total_tokens := 50, prompt_tokens := 30, completion_tokens := 20 }

/-- Whether a backend call returned a result that is not a success (the case in which the
sequential loop goes on to the next candidate). -/
def BackendOutcome.isFailure : BackendOutcome → Bool
  | .returned r => !r.success
  | .threw _ _ => false

/-- A node subscribed (without signature) to the offer `node-B`, without pricing, around a
given backend. -/
def exSubscribedEnv (backend : Nat → RacedCall) : OrchestratorEnv :=
  { subscriptions :=
      [{ id := "sub-2", offerId := some "node-B", name := "basic", status := "active",
         signature := "" }],
    publicKey := none,
    verifyPayload := fun _ _ => none,
    signPayload := fun target => some ("identity-for-" ++ target),
    pricing := noPricing,
    backend := backend }

/-- A routed list with a peer candidate of the node `node-X`, an ordinary candidate and a
peer candidate of the node `node-B`. -/
def exMixed : List Candidate :=
  [exPeer "p0" "node-X" "llama-3.1-8b", exCand "a" "openai" "gpt-4o",
   exPeer "p1" "node-B" "llama-3.1-8b"]

/-! ## Theorems -/

/-! ### Queue manager: concurrency bound -/

theorem QueueManager.process_inv {L : Int} {q : QueueManager} (h : q.Inv L) :
    q.process.Inv L := by
  obtain ⟨h1, h2, h3⟩ := h
  unfold QueueManager.process
  split
  · exact ⟨h1, h2, h3⟩
  · rename_i hc
    split
    · exact ⟨h1, h2, h3⟩
    · simp only [Bool.or_eq_true, decide_eq_true_eq, not_or, not_le] at hc
      refine ⟨?_, h2, ?_⟩
      · simp only; omega
      · simp only [List.length_append, List.length_singleton]; push_cast; omega

theorem QueueManager.step_inv {L : Int} {q : QueueManager} (h : q.Inv L) (e : QueueEvent)
    (he : e.isSetConcurrency = false) : (q.step e).Inv L := by
  obtain ⟨h1, h2, h3⟩ := h
  cases e with
  | enqueue md ts =>
    exact QueueManager.process_inv ⟨h1, h2, h3⟩
  | settle i how =>
    simp only [QueueManager.step, QueueManager.settle]
    cases hi : q.running.get? i with
    | none => exact ⟨h1, h2, h3⟩
    | some item =>
      simp only
      apply QueueManager.process_inv
      have hlt : i < q.running.length := by
        rw [List.get?_eq_some] at hi
        exact hi.1
      refine ⟨?_, h2, ?_⟩
      · simp only; omega
      · simp only [List.length_eraseIdx, hlt, if_true]
        omega
  | setConcurrency l => simp [QueueEvent.isSetConcurrency] at he

theorem QueueManager.run_inv {L : Int} (events : List QueueEvent) :
    ∀ q : QueueManager, q.Inv L → (∀ e ∈ events, e.isSetConcurrency = false) →
      (q.run events).Inv L := by
  induction events with
  | nil => intro q h _; exact h
  | cons e es ih =>
    intro q h hes
    simp only [QueueManager.run, List.foldl_cons]
    exact ih _ (QueueManager.step_inv h e (hes e (List.mem_cons_self _ _)))
      (fun e' he' => hes e' (List.mem_cons_of_mem _ he'))

/-- C10: for a fixed concurrency limit `L ≥ 0`, in every state reached from the initial state
by enqueue steps and task settlements (no `setConcurrency`), `activeCount` is at most `L`,
the limit is still `L`, and `activeCount` is the number of tasks started and not yet
settled. -/
theorem queue_never_exceeds_concurrency (L : Int) (hL : 0 ≤ L) (events : List QueueEvent)
    (hfixed : ∀ e ∈ events, e.isSetConcurrency = false) :
    ((QueueManager.new.setConcurrency L).run events).activeCount ≤ L ∧
    ((QueueManager.new.setConcurrency L).run events).concurrencyLimit = L ∧
    (((QueueManager.new.setConcurrency L).run events).running.length : Int) =
      ((QueueManager.new.setConcurrency L).run events).activeCount := by
  apply QueueManager.run_inv events _ _ hfixed
  apply QueueManager.process_inv
  exact ⟨hL, rfl, rfl⟩

/-- Witness of C10: with limit 2 and five tasks enqueued at once, two tasks have been started
and three wait. -/
theorem queue_never_exceeds_concurrency_witness :
    (0 : Int) ≤ 2 ∧
    (((QueueManager.new.setConcurrency 2).run
        (List.replicate 5 (QueueEvent.enqueue ⟨none, none⟩ 0))).activeCount ≤ 2 ∧
      ((QueueManager.new.setConcurrency 2).run
        (List.replicate 5 (QueueEvent.enqueue ⟨none, none⟩ 0))).concurrencyLimit = 2 ∧
      (((QueueManager.new.setConcurrency 2).run
        (List.replicate 5 (QueueEvent.enqueue ⟨none, none⟩ 0))).running.length : Int) =
        ((QueueManager.new.setConcurrency 2).run
          (List.replicate 5 (QueueEvent.enqueue ⟨none, none⟩ 0))).activeCount) ∧
    ((QueueManager.new.setConcurrency 2).run
        (List.replicate 5 (QueueEvent.enqueue ⟨none, none⟩ 0))).running.length = 2 ∧
    ((QueueManager.new.setConcurrency 2).run
        (List.replicate 5 (QueueEvent.enqueue ⟨none, none⟩ 0))).queue.length = 3 :=
  ⟨by decide,
   queue_never_exceeds_concurrency 2 (by decide)
     (List.replicate 5 (QueueEvent.enqueue ⟨none, none⟩ 0)) (by decide),
   by decide, by decide⟩

/-! ### Batch mode: one record per success, not per request -/

/-- C1: evaluation of the batch path when both raced backend calls return success: the one
logical request produces two usage-log entries, two `recordUsage` calls and two
connection-health updates, where the claim has one of each. -/
theorem batch_records_every_success :
    (((executeBatchChat noPricing
        [exCand "a" "openai" "gpt-4o", exCand "b" "groq" "llama-3.1-8b-instant"]
        exBatchRule exBothSucceed).1.filter Effect.isLog).length = 2) ∧
    (((executeBatchChat noPricing
        [exCand "a" "openai" "gpt-4o", exCand "b" "groq" "llama-3.1-8b-instant"]
        exBatchRule exBothSucceed).1.filter Effect.isRecordUsage).length = 2) ∧
    (((executeBatchChat noPricing
        [exCand "a" "openai" "gpt-4o", exCand "b" "groq" "llama-3.1-8b-instant"]
        exBatchRule exBothSucceed).1.filter Effect.isHealthUpdate).length = 2) := by
  decide

/-! ### Rolling token buckets -/

/-- C5: evaluation of `checkLimit` on the default groq tokens-per-minute bucket (limit 6000)
one second into a window in which 6000 tokens were recorded: the answer is allowed. -/
theorem rolling_token_bucket_not_enforced :
    (checkLimit exNoLimits
        (recordUsage exNoLimits (exLimiter [exTpmBucket]) 0 "groq" "llama-3.1-8b-instant"
          { tokens := 6000, total_tokens := 6000, prompt_tokens := 0, completion_tokens := 0 }
          none).2
        1000 "groq" "llama-3.1-8b-instant" 100).1
      = .ok { allowed := true, reason := none, resetTime := none, remaining := none } ∧
    ((recordUsage exNoLimits (exLimiter [exTpmBucket]) 0 "groq" "llama-3.1-8b-instant"
          { tokens := 6000, total_tokens := 6000, prompt_tokens := 0, completion_tokens := 0 }
          none).2.windows "groq:llama-3-1-8b-instant-tpm:llama-3.1-8b-instant")
      = some { count := 1, tokens := 6000, startTime := 0, resetTime := .val 60000 } := by
  decide

/-! ### Rate limiter: initialisation -/

theorem ensureInit_of_loaded {db : RateLimitDb} {rl : RateLimiter} {cfg : Configs}
    (h : rl.configs = some cfg) : ensureInit db rl = (.ok (), rl) := by
  unfold ensureInit; rw [h]

theorem ensureInit_ok_loaded {db : RateLimitDb} {rl rl1 : RateLimiter} {u : Unit}
    (h : ensureInit db rl = (.ok u, rl1)) : ∃ cfg, rl1.configs = some cfg := by
  unfold ensureInit at h
  cases hc : rl.configs with
  | some cfg =>
    rw [hc] at h
    simp only [Prod.mk.injEq] at h
    exact ⟨cfg, by rw [← h.2]; exact hc⟩
  | none =>
    rw [hc] at h
    unfold RateLimiter.init at h
    cases h1 : db.getRateLimitConfigs with
    | error e => rw [h1] at h; simp at h
    | ok cfg =>
      rw [h1] at h
      cases h2 : db.getRateLimitState with
      | error e => rw [h2] at h; simp at h
      | ok saved =>
        rw [h2] at h
        cases saved with
        | none => simp only [Prod.mk.injEq] at h; exact ⟨cfg, by rw [← h.2]⟩
        | some w => simp only [Prod.mk.injEq] at h; exact ⟨cfg, by rw [← h.2]⟩

theorem checkLimit_after_init {db : RateLimitDb} {rl rl1 : RateLimiter} {u : Unit}
    (h : ensureInit db rl = (.ok u, rl1)) (now : Int) (p m : String) (e : Nat) :
    checkLimit db rl now p m e = checkLimit db rl1 now p m e := by
  obtain ⟨cfg, hcfg⟩ := ensureInit_ok_loaded h
  have h1 : ensureInit db rl1 = (.ok (), rl1) := ensureInit_of_loaded hcfg
  unfold checkLimit
  rw [h, h1]

theorem checkLimit_snd_of_loaded (db : RateLimitDb) {rl : RateLimiter} {cfg : Configs}
    (h : rl.configs = some cfg) (now : Int) (p m : String) (e : Nat) :
    ∃ r, checkLimit db rl now p m e = (.ok r, rl) := by
  unfold checkLimit
  rw [ensureInit_of_loaded h]
  simp only
  split
  · exact ⟨_, rfl⟩
  · exact ⟨_, rfl⟩

theorem checkLimit_error_of_init_error {db : RateLimitDb} {rl rl1 : RateLimiter} {err : String}
    (h : ensureInit db rl = (.error err, rl1)) (now : Int) (p m : String) (e : Nat) :
    checkLimit db rl now p m e = (.error err, rl1) := by
  unfold checkLimit
  rw [h]

theorem filterByRateLimits_of_loaded {db : RateLimitDb} {cfg : Configs} (now : Int) (e : Nat)
    (cands : List Candidate) :
    ∀ rl : RateLimiter, rl.configs = some cfg →
      filterByRateLimits db now e rl cands = (.ok (cands.filter (limitAllows db rl now e)), rl) := by
  induction cands with
  | nil => intro rl _; rfl
  | cons c rest ih =>
    intro rl h
    obtain ⟨r, hr⟩ := checkLimit_snd_of_loaded db h now c.provider c.model e
    unfold filterByRateLimits
    rw [hr]
    simp only
    rw [ih rl h]
    simp only [List.filter_cons, limitAllows, hr]

theorem filterByRateLimits_ok {db : RateLimitDb} (now : Int) (e : Nat) (cands : List Candidate)
    (rl : RateLimiter) (res : List Candidate)
    (h : (filterByRateLimits db now e rl cands).1 = .ok res) :
    res = cands.filter (limitAllows db rl now e) := by
  cases cands with
  | nil =>
    simp only [filterByRateLimits] at h
    simp only [List.filter_nil]
    injection h with h
    exact h.symm
  | cons c rest =>
    cases hi : ensureInit db rl with
    | mk out rl1 =>
      cases out with
      | error err =>
        unfold filterByRateLimits at h
        rw [checkLimit_error_of_init_error hi] at h
        simp at h
      | ok u =>
        obtain ⟨cfg, hcfg⟩ := ensureInit_ok_loaded hi
        have hsame : limitAllows db rl now e = limitAllows db rl1 now e := by
          funext c'
          simp only [limitAllows, checkLimit_after_init hi]
        obtain ⟨r, hr⟩ := checkLimit_snd_of_loaded db hcfg now c.provider c.model e
        unfold filterByRateLimits at h
        rw [checkLimit_after_init hi, hr] at h
        simp only at h
        rw [filterByRateLimits_of_loaded now e rest rl1 hcfg] at h
        simp only at h
        injection h with h
        rw [hsame, ← h]
        simp only [List.filter_cons, limitAllows, hr]

/-! ### Routing engine: which candidates are returned -/

theorem scoreCandidate_route (pricing : PricingTable) (c : Candidate) :
    (scoreCandidate pricing c).route = c.route := rfl

theorem sortByScore_perm (l : List Candidate) : (sortByScore l).Perm l :=
  List.perm_insertionSort _ l

theorem defaultStrategy_route_perm (pricing : PricingTable) (l : List Candidate) :
    ((defaultStrategy pricing l).map Candidate.route).Perm (l.map Candidate.route) := by
  unfold defaultStrategy
  refine ((sortByScore_perm _).map _).trans ?_
  rw [List.map_map]
  have : Candidate.route ∘ scoreCandidate pricing = Candidate.route := by
    funext c; rfl
  rw [this]

theorem applyFilterRules_subset (rules : List Rule) :
    ∀ (l : List Candidate) (c : Candidate), c ∈ applyFilterRules rules l → c ∈ l := by
  induction rules with
  | nil => intro l c h; exact h
  | cons r rs ih =>
    intro l c h
    unfold applyFilterRules at h
    rw [List.foldl_cons] at h
    have h' := ih _ c h
    split at h'
    · exact (List.mem_filter.mp h').1
    · split at h'
      · exact (List.mem_filter.mp h').1
      · exact h'

theorem executePlaybook_route (pricing : PricingTable) (pb : Playbook) (l : List Candidate)
    (c : Candidate) (h : c ∈ executePlaybook pricing pb l) :
    ∃ c0 ∈ l, c.route = c0.route := by
  unfold executePlaybook at h
  simp only at h
  rw [(sortByScore_perm _).mem_iff] at h
  have key : ∀ c1, c1 ∈ (defaultStrategy pricing (applyFilterRules pb.rules l)).map
      (fun cand => { cand with score := pb.rules.foldl (applyModifier cand) cand.score }) →
      ∃ c0 ∈ l, c1.route = c0.route := by
    intro c1 h1
    rw [List.mem_map] at h1
    obtain ⟨c2, hc2, rfl⟩ := h1
    unfold defaultStrategy at hc2
    rw [(sortByScore_perm _).mem_iff, List.mem_map] at hc2
    obtain ⟨c3, hc3, rfl⟩ := hc2
    exact ⟨c3, applyFilterRules_subset _ _ _ hc3, rfl⟩
  split at h
  · rw [List.mem_map] at h
    obtain ⟨c1, hc1, rfl⟩ := h
    obtain ⟨c0, hc0, hr⟩ := key c1 hc1
    exact ⟨c0, hc0, hr⟩
  · exact key c h

theorem mem_getProviderConnections {pool : List Connection} {f : ConnectionFilter}
    {c : Connection} (h : c ∈ getProviderConnections pool f) :
    c ∈ pool ∧ ∀ a, f.isActive = some a → c.isActive = a := by
  unfold getProviderConnections at h
  simp only at h
  rw [(List.perm_insertionSort _ _).mem_iff] at h
  have h12 : ∀ x, x ∈ (match f.group with
      | some g => if g = "" then
          (match f.provider with
            | some p => if p = "" then pool else pool.filter (fun c => c.provider = p)
            | none => pool)
          else (match f.provider with
            | some p => if p = "" then pool else pool.filter (fun c => c.provider = p)
            | none => pool).filter (fun c => c.group = g)
      | none => (match f.provider with
            | some p => if p = "" then pool else pool.filter (fun c => c.provider = p)
            | none => pool)) → x ∈ pool := by
    intro x hx
    have h1 : ∀ y, y ∈ (match f.provider with
            | some p => if p = "" then pool else pool.filter (fun c => c.provider = p)
            | none => pool) → y ∈ pool := by
      intro y hy
      split at hy
      · split at hy
        · exact hy
        · exact (List.mem_filter.mp hy).1
      · exact hy
    split at hx
    · split at hx
      · exact h1 x hx
      · exact h1 x (List.mem_filter.mp hx).1
    · exact h1 x hx
  cases hf : f.isActive with
  | none =>
    rw [hf] at h
    exact ⟨h12 c h, fun a ha => by cases ha⟩
  | some a =>
    rw [hf] at h
    simp only at h
    rw [List.mem_filter] at h
    refine ⟨h12 c h.1, fun a' ha' => ?_⟩
    injection ha' with ha'
    rw [← ha']
    simpa using h.2

theorem mem_expandModel {db : EngineDb} {modelStr : String} {c : Candidate}
    (h : c ∈ expandModel db modelStr) :
    c.connection ∈ db.providerConnections ∧ c.connection.isActive = true := by
  unfold expandModel at h
  simp only at h
  split at h
  · rw [List.mem_map] at h
    obtain ⟨conn, hconn, rfl⟩ := h
    have := mem_getProviderConnections hconn
    exact ⟨this.1, this.2 true rfl⟩
  · rw [List.mem_map] at h
    obtain ⟨conn, hconn, rfl⟩ := h
    have := mem_getProviderConnections hconn
    exact ⟨this.1, this.2 true rfl⟩

theorem mem_expandCandidates {db : EngineDb} {ctx : RequestContext} {c : Candidate}
    (h : c ∈ expandCandidates db ctx) :
    c.connection ∈ db.providerConnections ∧ c.connection.isActive = true := by
  unfold expandCandidates at h
  simp only [List.mem_flatMap] at h
  obtain ⟨m, _, hm⟩ := h
  exact mem_expandModel hm

theorem findRoute_ok {db : EngineDb} {rl : RateLimiter} {now : Int} {ctx : RequestContext}
    {res : List Candidate} (h : (findRoute db rl now ctx).1 = .ok res) :
    res = (match selectPlaybook db.playbooks ctx db.settings with
      | some pb => executePlaybook db.pricing pb
          ((expandCandidates db ctx).filter (limitAllows db.rateLimit rl now ctx.estimatedTokens))
      | none => defaultStrategy db.pricing
          ((expandCandidates db ctx).filter (limitAllows db.rateLimit rl now ctx.estimatedTokens))) := by
  unfold findRoute at h
  simp only at h
  cases hf : filterByRateLimits db.rateLimit now ctx.estimatedTokens rl (expandCandidates db ctx) with
  | mk out rl1 =>
    rw [hf] at h
    cases out with
    | error e => simp at h
    | ok av =>
      have hav := filterByRateLimits_ok now ctx.estimatedTokens (expandCandidates db ctx) rl av
        (by rw [hf])
      simp only at h
      cases hp : selectPlaybook db.playbooks ctx db.settings with
      | none =>
        rw [hp] at h
        simp only at h
        injection h with h
        rw [← h, hav]
      | some pb =>
        rw [hp] at h
        simp only at h
        injection h with h
        rw [← h, hav]

theorem findRoute_mem {db : EngineDb} {rl : RateLimiter} {now : Int} {ctx : RequestContext}
    {res : List Candidate} (h : (findRoute db rl now ctx).1 = .ok res) (c : Candidate)
    (hc : c ∈ res) :
    ∃ c0 ∈ (expandCandidates db ctx).filter
        (limitAllows db.rateLimit rl now ctx.estimatedTokens), c.route = c0.route := by
  rw [findRoute_ok h] at hc
  split at hc
  · exact executePlaybook_route _ _ _ _ hc
  · have := (defaultStrategy_route_perm db.pricing _).mem_iff.mp (List.mem_map_of_mem Candidate.route hc)
    rw [List.mem_map] at this
    obtain ⟨c0, hc0, hr⟩ := this
    exact ⟨c0, hc0, hr.symm⟩

/-! ### Routing engine: the cooldown is not consulted -/

theorem getProviderConnections_withCooldown (g : Connection → Option Int)
    (pool : List Connection) (f : ConnectionFilter) :
    getProviderConnections (pool.map (setCooldown g)) f
      = (getProviderConnections pool f).map (setCooldown g) := by
  unfold getProviderConnections
  simp only
  have h1 : (match f.provider with
        | some p => if p = "" then pool.map (setCooldown g)
            else (pool.map (setCooldown g)).filter (fun c : Connection => c.provider = p)
        | none => pool.map (setCooldown g))
      = (match f.provider with
        | some p => if p = "" then pool else pool.filter (fun c : Connection => c.provider = p)
        | none => pool).map (setCooldown g) := by
    cases f.provider with
    | none => rfl
    | some p =>
      simp only
      split
      · rfl
      · rw [List.filter_map]; rfl
  rw [h1]
  generalize (match f.provider with
        | some p => if p = "" then pool else pool.filter (fun c : Connection => c.provider = p)
        | none => pool) = l1
  have h2 : (match f.group with
        | some gr => if gr = "" then l1.map (setCooldown g)
            else (l1.map (setCooldown g)).filter (fun c : Connection => c.group = gr)
        | none => l1.map (setCooldown g))
      = (match f.group with
        | some gr => if gr = "" then l1 else l1.filter (fun c : Connection => c.group = gr)
        | none => l1).map (setCooldown g) := by
    cases f.group with
    | none => rfl
    | some gr =>
      simp only
      split
      · rfl
      · rw [List.filter_map]; rfl
  rw [h2]
  generalize (match f.group with
        | some gr => if gr = "" then l1 else l1.filter (fun c : Connection => c.group = gr)
        | none => l1) = l2
  have h3 : (match f.isActive with
        | some a => (l2.map (setCooldown g)).filter (fun c : Connection => c.isActive = a)
        | none => l2.map (setCooldown g))
      = (match f.isActive with
        | some a => l2.filter (fun c : Connection => c.isActive = a)
        | none => l2).map (setCooldown g) := by
    cases f.isActive with
    | none => rfl
    | some a => simp only; rw [List.filter_map]; rfl
  rw [h3]
  generalize (match f.isActive with
        | some a => l2.filter (fun c : Connection => c.isActive = a)
        | none => l2) = l3
  exact (List.map_insertionSort _ _ (setCooldown g) l3 (fun a _ b _ => Iff.rfl)).symm

theorem expandModel_withCooldown (g : Connection → Option Int) (db : EngineDb)
    (modelStr : String) :
    expandModel (db.withCooldowns g) modelStr
      = (expandModel db modelStr).map (Candidate.withCooldown g) := by
  unfold expandModel EngineDb.withCooldowns
  simp only [getProviderConnections_withCooldown]
  split <;> simp only [List.map_map] <;> rfl

theorem expandCandidates_withCooldown (g : Connection → Option Int) (db : EngineDb)
    (ctx : RequestContext) :
    expandCandidates (db.withCooldowns g) ctx
      = (expandCandidates db ctx).map (Candidate.withCooldown g) := by
  unfold expandCandidates
  simp only [List.map_flatMap]
  congr 1
  funext m
  exact expandModel_withCooldown g db m

theorem filterByRateLimits_withCooldown (g : Connection → Option Int) (rdb : RateLimitDb)
    (now : Int) (e : Nat) (l : List Candidate) :
    ∀ rl : RateLimiter,
      filterByRateLimits rdb now e rl (l.map (Candidate.withCooldown g))
        = ((filterByRateLimits rdb now e rl l).1.map (List.map (Candidate.withCooldown g)),
           (filterByRateLimits rdb now e rl l).2) := by
  induction l with
  | nil => intro rl; rfl
  | cons c rest ih =>
    intro rl
    simp only [List.map_cons, filterByRateLimits]
    have hc : checkLimit rdb rl now (Candidate.withCooldown g c).provider
        (Candidate.withCooldown g c).model e = checkLimit rdb rl now c.provider c.model e := rfl
    rw [hc]
    cases hcl : checkLimit rdb rl now c.provider c.model e with
    | mk out rl1 =>
      cases out with
      | error err => rfl
      | ok r =>
        simp only
        rw [ih rl1]
        cases hrest : filterByRateLimits rdb now e rl1 rest with
        | mk out2 rl2 =>
          cases out2 with
          | error err => rfl
          | ok av =>
            simp only [Except.map]
            cases r.allowed <;> rfl

theorem sortByScore_withCooldown (g : Connection → Option Int) (l : List Candidate) :
    sortByScore (l.map (Candidate.withCooldown g))
      = (sortByScore l).map (Candidate.withCooldown g) := by
  unfold sortByScore
  exact (List.map_insertionSort _ _ (Candidate.withCooldown g) l (fun a _ b _ => Iff.rfl)).symm

theorem defaultStrategy_withCooldown (g : Connection → Option Int) (pricing : PricingTable)
    (l : List Candidate) :
    defaultStrategy pricing (l.map (Candidate.withCooldown g))
      = (defaultStrategy pricing l).map (Candidate.withCooldown g) := by
  unfold defaultStrategy
  rw [← sortByScore_withCooldown, List.map_map, List.map_map]
  rfl

theorem applyFilterRules_withCooldown (g : Connection → Option Int) (rules : List Rule) :
    ∀ l : List Candidate,
      applyFilterRules rules (l.map (Candidate.withCooldown g))
        = (applyFilterRules rules l).map (Candidate.withCooldown g) := by
  induction rules with
  | nil => intro l; rfl
  | cons r rs ih =>
    intro l
    unfold applyFilterRules at ih ⊢
    rw [List.foldl_cons, List.foldl_cons]
    split
    · rw [List.filter_map]; exact ih _
    · split
      · rw [List.filter_map]; exact ih _
      · exact ih _

theorem executePlaybook_withCooldown (g : Connection → Option Int) (pricing : PricingTable)
    (pb : Playbook) (l : List Candidate) :
    executePlaybook pricing pb (l.map (Candidate.withCooldown g))
      = (executePlaybook pricing pb l).map (Candidate.withCooldown g) := by
  unfold executePlaybook
  simp only [applyFilterRules_withCooldown, defaultStrategy_withCooldown, List.map_map]
  split
  · rw [← sortByScore_withCooldown]; simp only [List.map_map]; rfl
  · rw [← sortByScore_withCooldown]; simp only [List.map_map]; rfl

theorem findRoute_withCooldowns (g : Connection → Option Int) (db : EngineDb)
    (rl : RateLimiter) (now : Int) (ctx : RequestContext) :
    (findRoute (db.withCooldowns g) rl now ctx).1
      = (findRoute db rl now ctx).1.map (List.map (Candidate.withCooldown g)) := by
  unfold findRoute
  simp only [expandCandidates_withCooldown]
  have hdb : (db.withCooldowns g).rateLimit = db.rateLimit := rfl
  have hpb : (db.withCooldowns g).playbooks = db.playbooks := rfl
  have hst : (db.withCooldowns g).settings = db.settings := rfl
  have hpr : (db.withCooldowns g).pricing = db.pricing := rfl
  rw [hdb, hpb, hst, hpr, filterByRateLimits_withCooldown]
  cases hf : filterByRateLimits db.rateLimit now ctx.estimatedTokens rl (expandCandidates db ctx) with
  | mk out rl1 =>
    cases out with
    | error err => rfl
    | ok av =>
      simp only [Except.map]
      cases selectPlaybook db.playbooks ctx db.settings with
      | none => simp only [defaultStrategy_withCooldown]
      | some pb => simp only [executePlaybook_withCooldown]

/-! ### Routing engine: claims on the returned candidates -/

/-- C2: evaluation of `findRoute` on a pool whose only connection `c1` is active and inside
its cooldown. At time 1000 `findRoute` returns the candidate on `c1`, whose
`rateLimitedUntil` is 2000, later than the current time: the connection filter of
`findRoute` is `isActive` alone, while the dashboard of the repository ranks such a
connection as rate limited. -/
theorem findRoute_returns_connection_in_cooldown :
    (findRoute exCooldownDb RateLimiter.new 1000 exCtx).1 = .ok [exCooldownRouted] ∧
    exCooldownRouted.connection.rateLimitedUntil = some 2000 ∧ (1000 : Int) < 2000 := by
  decide

/-- What `findRoute` does guarantee about connections: every candidate returned sits on a
connection of the pool whose `isActive` flag is true; and `rateLimitedUntil` is not
consulted: with the cooldowns of the pooled connections replaced by any others, the same
candidates are returned (carrying the replaced cooldowns), whether or not they lie after the
current time. -/
theorem findRoute_returns_active_pool_connections (db : EngineDb) (rl : RateLimiter) (now : Int)
    (ctx : RequestContext) (res : List Candidate)
    (h : (findRoute db rl now ctx).1 = .ok res) :
    (∀ c ∈ res, c.connection ∈ db.providerConnections ∧ c.connection.isActive = true) ∧
    ∀ g : Connection → Option Int,
      (findRoute (db.withCooldowns g) rl now ctx).1
        = .ok (res.map (Candidate.withCooldown g)) := by
  constructor
  · intro c hc
    obtain ⟨c0, hc0, hr⟩ := findRoute_mem h c hc
    have hconn : c.connection = c0.connection := congrArg (fun r => r.1) hr
    rw [hconn]
    exact mem_expandCandidates (List.mem_filter.mp hc0).1
  · intro g
    rw [findRoute_withCooldowns, h]
    rfl

/-- The guarantee of `findRoute_returns_active_pool_connections` on the pool with the
connection in cooldown. -/
theorem findRoute_returns_active_pool_connections_witness :
    (findRoute exCooldownDb RateLimiter.new 1000 exCtx).1 = .ok [exCooldownRouted] ∧
    ((∀ c ∈ [exCooldownRouted],
      c.connection ∈ exCooldownDb.providerConnections ∧ c.connection.isActive = true) ∧
     ∀ g : Connection → Option Int,
      (findRoute (exCooldownDb.withCooldowns g) RateLimiter.new 1000 exCtx).1
        = .ok ([exCooldownRouted].map (Candidate.withCooldown g))) :=
  ⟨by decide,
   findRoute_returns_active_pool_connections exCooldownDb RateLimiter.new 1000 exCtx
     [exCooldownRouted] (by decide)⟩

/-- C3: every candidate returned by `findRoute` is allowed by `checkLimit` for its provider
and model on the limiter at routing time; and when no playbook is selected, the returned
candidates are, up to order and the scores added, exactly the expanded candidates that
`checkLimit` allows (a permutation: none added, none lost, each once). -/
theorem findRoute_filters_by_rate_limit (db : EngineDb) (rl : RateLimiter) (now : Int)
    (ctx : RequestContext) (res : List Candidate)
    (h : (findRoute db rl now ctx).1 = .ok res) :
    (∀ c ∈ res, ∃ r,
        (checkLimit db.rateLimit rl now c.provider c.model ctx.estimatedTokens).1 = .ok r ∧
        r.allowed = true) ∧
    (selectPlaybook db.playbooks ctx db.settings = none →
      (res.map Candidate.route).Perm
        (((expandCandidates db ctx).filter
          (limitAllows db.rateLimit rl now ctx.estimatedTokens)).map Candidate.route)) := by
  constructor
  · intro c hc
    obtain ⟨c0, hc0, hr⟩ := findRoute_mem h c hc
    have hp : c.provider = c0.provider := congrArg (fun r => r.2.1) hr
    have hm : c.model = c0.model := congrArg (fun r => r.2.2) hr
    have hall := (List.mem_filter.mp hc0).2
    unfold limitAllows at hall
    rw [hp, hm]
    cases hr : (checkLimit db.rateLimit rl now c0.provider c0.model ctx.estimatedTokens).1 with
    | error e => rw [hr] at hall; simp at hall
    | ok r => rw [hr] at hall; exact ⟨r, rfl, hall⟩
  · intro hnone
    rw [findRoute_ok h, hnone]
    exact defaultStrategy_route_perm _ _

/-- Witness of C3: the groq candidate is over its limit and only the openai candidate is
returned. -/
theorem findRoute_filters_by_rate_limit_witness :
    (findRoute exLimitedDb RateLimiter.new 1000 exTwoModelCtx).1 = .ok exLimitedRouted ∧
    ((∀ c ∈ exLimitedRouted, ∃ r,
        (checkLimit exLimitedDb.rateLimit RateLimiter.new 1000 c.provider c.model
          exTwoModelCtx.estimatedTokens).1 = .ok r ∧ r.allowed = true) ∧
     (selectPlaybook exLimitedDb.playbooks exTwoModelCtx exLimitedDb.settings = none →
      (exLimitedRouted.map Candidate.route).Perm
        (((expandCandidates exLimitedDb exTwoModelCtx).filter
          (limitAllows exLimitedDb.rateLimit RateLimiter.new 1000
            exTwoModelCtx.estimatedTokens)).map Candidate.route))) :=
  ⟨by decide,
   findRoute_filters_by_rate_limit exLimitedDb RateLimiter.new 1000 exTwoModelCtx
     exLimitedRouted (by decide)⟩

/-! ### Rate limiter: read failures -/

/-- C9 (counterexample): on a fresh limiter, when `getRateLimitConfigs` raises, or when
`getRateLimitState` raises, `checkLimit` raises the same error instead of answering
allowed. -/
theorem checkLimit_raises_on_read_failure :
    (checkLimit exConfigReadFails RateLimiter.new 0 "groq" "llama-3.1-8b-instant" 100).1
      = .error "db unavailable" ∧
    (checkLimit exStateReadFails RateLimiter.new 0 "groq" "llama-3.1-8b-instant" 100).1
      = .error "db unavailable" := by
  decide

/-- C9 (amended): on a limiter that has not loaded its configuration, a read error raised by
`getRateLimitConfigs` or by `getRateLimitState` propagates out of `checkLimit`; the
optimistic answer allowed is given for missing data only: when both reads succeed and the
configuration has no bucket list for the provider. -/
theorem checkLimit_propagates_read_errors (db : RateLimitDb) (rl : RateLimiter) (now : Int)
    (provider model : String) (estimatedTokens : Nat) (hnew : rl.configs = none) :
    (∀ e, db.getRateLimitConfigs = .error e →
      (checkLimit db rl now provider model estimatedTokens).1 = .error e) ∧
    (∀ cfg e, db.getRateLimitConfigs = .ok cfg → db.getRateLimitState = .error e →
      (checkLimit db rl now provider model estimatedTokens).1 = .error e) ∧
    (∀ cfg saved, db.getRateLimitConfigs = .ok cfg → db.getRateLimitState = .ok saved →
      cfg provider = none →
      (checkLimit db rl now provider model estimatedTokens).1
        = .ok { allowed := true, reason := none, resetTime := none, remaining := none }) := by
  refine ⟨?_, ?_, ?_⟩
  · intro e he
    unfold checkLimit ensureInit RateLimiter.init
    rw [hnew, he]
  · intro cfg e hc he
    unfold checkLimit ensureInit RateLimiter.init
    rw [hnew, hc, he]
  · intro cfg saved hc hs hp
    unfold checkLimit ensureInit RateLimiter.init
    rw [hnew, hc, hs]
    cases saved with
    | none => simp only [Option.bind, hp]
    | some w => simp only [Option.bind, hp]

/-- Witness of C9 (amended), on the three example databases. -/
theorem checkLimit_propagates_read_errors_witness :
    RateLimiter.new.configs = none ∧
    (checkLimit exConfigReadFails RateLimiter.new 0 "groq" "m" 100).1 = .error "db unavailable" ∧
    (checkLimit exStateReadFails RateLimiter.new 0 "groq" "m" 100).1 = .error "db unavailable" ∧
    (checkLimit exNoLimits RateLimiter.new 0 "groq" "m" 100).1
      = .ok { allowed := true, reason := none, resetTime := none, remaining := none } :=
  ⟨rfl,
   (checkLimit_propagates_read_errors exConfigReadFails RateLimiter.new 0 "groq" "m" 100 rfl).1
     "db unavailable" rfl,
   (checkLimit_propagates_read_errors exStateReadFails RateLimiter.new 0 "groq" "m" 100 rfl).2.1
     (fun _ => none) "db unavailable" rfl rfl,
   (checkLimit_propagates_read_errors exNoLimits RateLimiter.new 0 "groq" "m" 100 rfl).2.2
     (fun _ => none) none rfl rfl rfl⟩

/-! ### Rate limiter: windows under recordUsage -/

theorem getBucketKey_name_inj {p n1 n2 m : String}
    (h : getBucketKey p n1 m = getBucketKey p n2 m) : n1 = n2 := by
  unfold getBucketKey at h
  have h' := congrArg String.data h
  simp only [String.data_append, List.append_assoc, List.append_cancel_left_eq] at h'
  have h2 := List.append_inj_left' h' rfl
  exact String.ext h2

theorem recordBucket_configs (p m : String) (now : Int) (tok : Nat) (keys : List String)
    (rl : RateLimiter) (b : Bucket) : (recordBucket p m now tok keys rl b).configs = rl.configs := by
  unfold recordBucket
  split
  · rfl
  · simp only
    split <;> rfl

theorem foldl_recordBucket_configs (p m : String) (now : Int) (tok : Nat) (keys : List String)
    (bs : List Bucket) : ∀ rl : RateLimiter,
      (bs.foldl (recordBucket p m now tok keys) rl).configs = rl.configs := by
  induction bs with
  | nil => intro rl; rfl
  | cons b bs ih => intro rl; rw [List.foldl_cons, ih, recordBucket_configs]

theorem recordBucket_windows_other (p m : String) (now : Int) (tok : Nat) (keys : List String)
    (rl : RateLimiter) (b : Bucket) (k : String)
    (h : isApplicable b m = true → getBucketKey p b.name m ≠ k) :
    (recordBucket p m now tok keys rl b).windows k = rl.windows k := by
  unfold recordBucket
  split
  · rfl
  · rename_i happ
    have hne := h (by simpa using happ)
    simp only
    split
    · rfl
    · simp only [Function.update_apply, if_neg (Ne.symm hne)]

theorem foldl_recordBucket_windows_other (p m : String) (now : Int) (tok : Nat)
    (keys : List String) (k : String) (bs : List Bucket) :
    ∀ rl : RateLimiter, (∀ b ∈ bs, isApplicable b m = true → getBucketKey p b.name m ≠ k) →
      (bs.foldl (recordBucket p m now tok keys) rl).windows k = rl.windows k := by
  induction bs with
  | nil => intro rl _; rfl
  | cons b bs ih =>
    intro rl h
    rw [List.foldl_cons, ih _ (fun b' hb' => h b' (List.mem_cons_of_mem _ hb')),
      recordBucket_windows_other _ _ _ _ _ _ _ _ (h b (List.mem_cons_self _ _))]

theorem recordBucket_windows_at (p m : String) (now : Int) (tok : Nat) (rl : RateLimiter)
    (b : Bucket) (happ : isApplicable b m = true) :
    (recordBucket p m now tok [] rl b).windows (getBucketKey p b.name m)
      = some (updateBucketState b (rl.windows (getBucketKey p b.name m)) now 1 tok) := by
  unfold recordBucket
  simp only [happ, Bool.not_true, Bool.false_eq_true, if_false, List.not_mem_nil,
    Function.update_same]

theorem foldl_recordBucket_windows_at (p m : String) (now : Int) (tok : Nat)
    (pre post : List Bucket) (b : Bucket) (rl : RateLimiter)
    (happ : isApplicable b m = true)
    (hothers : ∀ x ∈ pre ++ post, isApplicable x m = true → x.name ≠ b.name) :
    ((pre ++ b :: post).foldl (recordBucket p m now tok []) rl).windows
        (getBucketKey p b.name m)
      = some (updateBucketState b (rl.windows (getBucketKey p b.name m)) now 1 tok) := by
  rw [List.foldl_append, List.foldl_cons]
  rw [foldl_recordBucket_windows_other]
  · have hpre : (pre.foldl (recordBucket p m now tok []) rl).windows (getBucketKey p b.name m)
        = rl.windows (getBucketKey p b.name m) := by
      apply foldl_recordBucket_windows_other
      intro x hx hxa hk
      exact hothers x (List.mem_append_left _ hx) hxa (getBucketKey_name_inj hk)
    rw [recordBucket_windows_at _ _ _ _ _ _ happ, hpre]
  · intro x hx hxa hk
    exact hothers x (List.mem_append_right _ hx) hxa (getBucketKey_name_inj hk)

theorem recordUsage_of_loaded {db : RateLimitDb} {rl : RateLimiter} {cfg : Configs}
    {bs : List Bucket} {p : String} (hcfg : rl.configs = some cfg) (hp : cfg p = some bs)
    (now : Int) (m : String) (u : Usage) :
    (recordUsage db rl now p m u none).2 = bs.foldl (recordBucket p m now u.tokens []) rl := by
  unfold recordUsage
  rw [ensureInit_of_loaded hcfg]
  simp only [hcfg, Option.bind, hp]

theorem recordUsage_configs_of_loaded (db : RateLimitDb) {rl : RateLimiter} {cfg : Configs}
    {bs : List Bucket} {p : String} (hcfg : rl.configs = some cfg) (hp : cfg p = some bs)
    (now : Int) (m : String) (u : Usage) :
    (recordUsage db rl now p m u none).2.configs = some cfg := by
  rw [recordUsage_of_loaded hcfg hp, foldl_recordBucket_configs, hcfg]

theorem checkLimit_of_loaded (db : RateLimitDb) {rl : RateLimiter} {cfg : Configs}
    {bs : List Bucket} {p : String} (hcfg : rl.configs = some cfg) (hp : cfg p = some bs)
    (now : Int) (m : String) (e : Nat) :
    checkLimit db rl now p m e
      = (.ok (checkBuckets rl.windows p m now (orDefault e 100) bs), rl) := by
  unfold checkLimit
  rw [ensureInit_of_loaded hcfg]
  simp only [hcfg, Option.bind, hp]

theorem checkBuckets_allowed_iff (w : Windows) (p m : String) (now : Int) (e : Nat)
    (bs : List Bucket) :
    (checkBuckets w p m now e bs).allowed = true ↔
      ∀ b ∈ bs, isApplicable b m = true →
        (evaluateBucket b (w (getBucketKey p b.name m)) now e).allowed = true := by
  induction bs with
  | nil => simp [checkBuckets]
  | cons b bs ih =>
    unfold checkBuckets
    by_cases happ : isApplicable b m = true
    · simp only [happ, Bool.not_true, Bool.false_eq_true, if_false]
      by_cases hall : (evaluateBucket b (w (getBucketKey p b.name m)) now e).allowed = true
      · simp only [hall, Bool.not_true, Bool.false_eq_true, if_false, ih]
        constructor
        · intro h b' hb'
          rcases List.mem_cons.mp hb' with rfl | hb'
          · intro _; exact hall
          · exact h b' hb'
        · intro h b' hb'
          exact h b' (List.mem_cons_of_mem _ hb')
      · have hf : (evaluateBucket b (w (getBucketKey p b.name m)) now e).allowed = false := by
          simpa using hall
        simp only [hf, Bool.not_false, if_true]
        constructor
        · intro h; cases h
        · intro h
          have := h b (List.mem_cons_self _ _) happ
          rw [hf] at this
          exact this
    · have hf : isApplicable b m = false := by simpa using happ
      simp only [hf, Bool.not_false, if_true, ih]
      constructor
      · intro h b' hb'
        rcases List.mem_cons.mp hb' with rfl | hb'
        · intro h'; rw [hf] at h'; cases h'
        · exact h b' hb'
      · intro h b' hb'
        exact h b' (List.mem_cons_of_mem _ hb')

theorem windowMs_pos (b : Bucket) : 0 < windowMs b := by
  unfold windowMs orDefault
  split <;> omega

theorem updateBucketState_rolling_none (b : Bucket) (now : Int) (tok : Nat)
    (hroll : b.window_type = "rolling") :
    updateBucketState b none now 1 tok
      = { count := 1, tokens := tok, startTime := now, resetTime := .val (now + windowMs b) } := by
  unfold updateBucketState
  simp [hroll]

theorem updateBucketState_rolling_within (b : Bucket) (s : WindowState) (now : Int) (tok : Nat)
    (hroll : b.window_type = "rolling") (hin : now - s.startTime ≤ windowMs b) :
    updateBucketState b (some s) now 1 tok
      = { count := s.count + 1, tokens := s.tokens + tok, startTime := s.startTime,
          resetTime := s.resetTime } := by
  unfold updateBucketState
  have : ¬ (now - s.startTime > windowMs b) := by omega
  simp [hroll, this]

theorem updateBucketState_rolling_expired (b : Bucket) (s : WindowState) (now : Int) (tok : Nat)
    (hroll : b.window_type = "rolling") (hout : now - s.startTime > windowMs b) :
    updateBucketState b (some s) now 1 tok
      = { count := 1, tokens := tok, startTime := now, resetTime := .val (now + windowMs b) } := by
  unfold updateBucketState
  simp [hroll, hout]

theorem evaluateBucket_rolling_requests (b : Bucket) (s : WindowState) (now : Int) (e : Nat)
    (hroll : b.window_type = "rolling") (hunit : b.unit = "requests") (hL : 1 ≤ b.value_hint) :
    (evaluateBucket b (some s) now e).allowed
      = decide (now - s.startTime > windowMs b ∨ s.count < b.value_hint) := by
  unfold evaluateBucket
  have hv : orDefault b.value_hint 60 = b.value_hint := by
    unfold orDefault; split <;> omega
  simp only [hroll, hunit, hv]
  simp only [show ("rolling" : String) ≠ "fixed_reset" by decide, if_false, if_true]
  by_cases h1 : now - s.startTime > windowMs b
  · simp [h1]
  · by_cases h2 : s.count ≥ b.value_hint
    · have : ¬ s.count < b.value_hint := by omega
      simp [h1, h2, this]
    · have : s.count < b.value_hint := by omega
      simp [h1, h2, this]

theorem recordUsage_window_at (db : RateLimitDb) {rl : RateLimiter} {cfg : Configs}
    {p m : String} {pre post : List Bucket} {b : Bucket}
    (hcfg : rl.configs = some cfg) (hp : cfg p = some (pre ++ b :: post))
    (happ : isApplicable b m = true)
    (hothers : ∀ x ∈ pre ++ post, isApplicable x m = true → x.name ≠ b.name)
    (now : Int) (u : Usage) :
    (recordUsage db rl now p m u none).2.windows (getBucketKey p b.name m)
      = some (updateBucketState b (rl.windows (getBucketKey p b.name m)) now 1 u.tokens) := by
  rw [recordUsage_of_loaded hcfg hp]
  exact foldl_recordBucket_windows_at p m now u.tokens pre post b rl happ hothers

theorem recordUsages_rolling_within (db : RateLimitDb) {cfg : Configs}
    {p m : String} {pre post : List Bucket} {b : Bucket}
    (hp : cfg p = some (pre ++ b :: post)) (hroll : b.window_type = "rolling")
    (happ : isApplicable b m = true)
    (hothers : ∀ x ∈ pre ++ post, isApplicable x m = true → x.name ≠ b.name) (t0 : Int)
    (calls : List (Int × Usage)) :
    ∀ (rl : RateLimiter) (s0 : WindowState), rl.configs = some cfg →
      rl.windows (getBucketKey p b.name m) = some s0 → s0.startTime = t0 →
      (∀ c ∈ calls, c.1 - t0 ≤ windowMs b) →
      (recordUsages db p m rl calls).configs = some cfg ∧
      ∃ s, (recordUsages db p m rl calls).windows (getBucketKey p b.name m) = some s ∧
        s.count = s0.count + calls.length ∧ s.startTime = t0 := by
  induction calls with
  | nil =>
    intro rl s0 hcfg hs0 ht0 _
    exact ⟨hcfg, s0, hs0, by simp, ht0⟩
  | cons c rest ih =>
    intro rl s0 hcfg hs0 ht0 hin
    have hc : c.1 - s0.startTime ≤ windowMs b := by
      rw [ht0]; exact hin c (List.mem_cons_self _ _)
    have hstep := recordUsage_window_at db hcfg hp happ hothers c.1 c.2
    rw [hs0, updateBucketState_rolling_within b s0 c.1 c.2.tokens hroll hc] at hstep
    have hcfg' := recordUsage_configs_of_loaded db hcfg hp c.1 m c.2
    obtain ⟨h1, s, h2, h3, h4⟩ := ih _ _ hcfg' hstep ht0
      (fun c' hc' => hin c' (List.mem_cons_of_mem _ hc'))
    refine ⟨h1, s, h2, ?_, h4⟩
    rw [h3]
    simp only [List.length_cons]
    omega

/-- C4 (amended): a rolling requests bucket with limit `value_hint ≥ 1` that applies to the
model, in a provider config where no other applicable bucket shares its name. Starting from
no stored window, after `recordUsage` (without headers) was called at `t0` and then
`calls.length` more times within the window, `value_hint` or more times in all:
`checkLimit` answers allowed = false at every `now` with `now - t0 ≤ W*1000`; at every
`now` with `now - t0 > W*1000` it answers allowed = true exactly when every other bucket
that applies to the model allows at that time (so always when the bucket is the only one
that applies), and a `recordUsage` at such a time replaces the window by a fresh one with
count 1. Here `W*1000` is `windowMs b`, the bucket's `window_seconds` times 1000 when
`window_seconds ≥ 1` (and 60 seconds when the field is 0 or missing). -/
theorem rolling_request_bucket_blocks_until_window_elapses (db : RateLimitDb)
    (rl : RateLimiter) (cfg : Configs) (provider model : String) (pre post : List Bucket)
    (b : Bucket) (t0 : Int) (u0 : Usage) (calls : List (Int × Usage))
    (hcfg : rl.configs = some cfg) (hp : cfg provider = some (pre ++ b :: post))
    (hroll : b.window_type = "rolling") (hunit : b.unit = "requests")
    (hL : 1 ≤ b.value_hint) (happ : isApplicable b model = true)
    (hothers : ∀ x ∈ pre ++ post, isApplicable x model = true → x.name ≠ b.name)
    (hfresh : rl.windows (getBucketKey provider b.name model) = none)
    (hin : ∀ c ∈ calls, c.1 - t0 ≤ windowMs b)
    (hn : b.value_hint ≤ calls.length + 1) :
    (1 ≤ b.window_seconds → windowMs b = (b.window_seconds : Int) * 1000) ∧
    ∀ (now : Int) (estimatedTokens : Nat),
      (now - t0 ≤ windowMs b →
        ∃ r, (checkLimit db (recordUsages db provider model rl ((t0, u0) :: calls)) now
                provider model estimatedTokens).1 = .ok r ∧ r.allowed = false) ∧
      (now - t0 > windowMs b →
        (∃ r, (checkLimit db (recordUsages db provider model rl ((t0, u0) :: calls)) now
                  provider model estimatedTokens).1 = .ok r ∧
          (r.allowed = true ↔
            ∀ x ∈ pre ++ post, isApplicable x model = true →
              (evaluateBucket x
                ((recordUsages db provider model rl ((t0, u0) :: calls)).windows
                  (getBucketKey provider x.name model))
                now (orDefault estimatedTokens 100)).allowed = true)) ∧
        ∀ u : Usage,
          (recordUsage db (recordUsages db provider model rl ((t0, u0) :: calls)) now
              provider model u none).2.windows (getBucketKey provider b.name model)
            = some { count := 1, tokens := u.tokens, startTime := now,
                     resetTime := .val (now + windowMs b) }) := by
  -- the window after the first call
  have hfirst := recordUsage_window_at db hcfg hp happ hothers t0 u0
  rw [hfresh, updateBucketState_rolling_none b t0 u0.tokens hroll] at hfirst
  have hcfg1 := recordUsage_configs_of_loaded db hcfg hp t0 model u0
  -- the window after all calls
  obtain ⟨hcfgN, s, hs, hcount, hstart⟩ :=
    recordUsages_rolling_within db hp hroll happ hothers t0 calls _ _ hcfg1 hfirst rfl hin
  have hrun : recordUsages db provider model rl ((t0, u0) :: calls)
      = recordUsages db provider model (recordUsage db rl t0 provider model u0 none).2 calls := rfl
  rw [hrun]
  simp only at hcount
  refine ⟨?_, ?_⟩
  · intro hW
    unfold windowMs orDefault
    have : b.window_seconds ≠ 0 := by omega
    simp [this]
  intro now e
  have hcheck := checkLimit_of_loaded db hcfgN hp now model e
  have hev := evaluateBucket_rolling_requests b s now (orDefault e 100) hroll hunit hL
  refine ⟨?_, ?_⟩
  · intro hnow
    refine ⟨_, by rw [hcheck], ?_⟩
    by_contra hne
    have hall : (checkBuckets (recordUsages db provider model
        (recordUsage db rl t0 provider model u0 none).2 calls).windows provider model now
        (orDefault e 100) (pre ++ b :: post)).allowed = true := by simpa using hne
    have := (checkBuckets_allowed_iff _ _ _ _ _ _).mp hall b (by simp) happ
    rw [hs, hev] at this
    simp only [decide_eq_true_eq] at this
    rw [hstart] at this
    omega
  · intro hnow
    refine ⟨?_, ?_⟩
    · refine ⟨_, by rw [hcheck], ?_⟩
      rw [checkBuckets_allowed_iff]
      constructor
      · intro hall x hx hxa
        refine hall x ?_ hxa
        rcases List.mem_append.mp hx with hx | hx
        · exact List.mem_append_left _ hx
        · exact List.mem_append_right _ (List.mem_cons_of_mem _ hx)
      · intro hrest x hx hxa
        rcases List.mem_append.mp hx with hx | hx
        · exact hrest x (List.mem_append_left _ hx) hxa
        · rcases List.mem_cons.mp hx with rfl | hx
          · rw [hs, hev]
            simp only [decide_eq_true_eq]
            left; rw [hstart]; exact hnow
          · exact hrest x (List.mem_append_right _ hx) hxa
    · intro u
      rw [recordUsage_window_at db hcfgN hp happ hothers now u, hs]
      rw [updateBucketState_rolling_expired b s now u.tokens hroll (by rw [hstart]; exact hnow)]

theorem evaluateBucket_fixed_requests_allowed {b : Bucket} {s : WindowState} {now : Int} {e : Nat}
    (hfixed : b.window_type = "fixed_reset") (hunit : b.unit = "requests")
    (hL : 1 ≤ b.value_hint) (h : (evaluateBucket b (some s) now e).allowed = true) :
    (∃ r, s.resetTime = .val r ∧ r ≠ 0 ∧ r ≤ now) ∨ s.count < b.value_hint := by
  unfold evaluateBucket at h
  have hv : orDefault b.value_hint 10000 = b.value_hint := by
    unfold orDefault; split <;> omega
  simp only [hfixed, hunit, hv, if_true] at h
  cases hr : s.resetTime with
  | nan =>
    rw [hr] at h
    simp only [JsNum.truthy, Bool.false_and, Bool.false_eq_true, if_false] at h
    right
    by_contra hc
    have : s.count ≥ b.value_hint := by omega
    simp [this] at h
  | val r =>
    rw [hr] at h
    by_cases hreset : r ≠ 0 ∧ r ≤ now
    · left; exact ⟨r, rfl, hreset.1, hreset.2⟩
    · right
      by_contra hc
      have hge : s.count ≥ b.value_hint := by omega
      have hfalse : (JsNum.truthy (.val r) && decide (now ≥ r)) = false := by
        simp only [JsNum.truthy, Bool.and_eq_false_imp, bne_iff_ne, ne_eq, decide_eq_false_iff_not,
          not_le]
        intro h0
        by_contra h1
        exact hreset ⟨h0, by omega⟩
      simp [hfalse, hge] at h

theorem updateBucketState_fixed_count {b : Bucket} {o : Option WindowState} {now : Int}
    {tok : Nat} (hfixed : b.window_type = "fixed_reset") (hL : 1 ≤ b.value_hint)
    (hok : ∀ s, o = some s →
      (∃ r, s.resetTime = .val r ∧ r ≠ 0 ∧ r ≤ now) ∨ s.count < b.value_hint) :
    (updateBucketState b o now 1 tok).count ≤ b.value_hint := by
  unfold updateBucketState
  simp only [hfixed, if_true]
  cases o with
  | none => simpa using hL
  | some s =>
    simp only
    rcases hok s rfl with ⟨r, hr, hr0, hrn⟩ | hlt
    · rw [hr]
      simp only [hr0, if_false]
      have : now ≥ r := hrn
      simp only [this, if_true]
      simpa using hL
    · split
      · simpa using hL
      · omega

theorem checkLimit_windows_of_loaded {db : RateLimitDb} {rl : RateLimiter} {cfg : Configs}
    (hcfg : rl.configs = some cfg) (now : Int) (p m : String) (e : Nat) :
    (checkLimit db rl now p m e).2 = rl := by
  obtain ⟨r, hr⟩ := checkLimit_snd_of_loaded db hcfg now p m e
  rw [hr]

theorem recordUsage_windows_leaves (db : RateLimitDb) {rl : RateLimiter} {cfg : Configs}
    (hcfg : rl.configs = some cfg) (p m : String) (now : Int) (u : Usage) (k : String)
    (hleaves : match cfg p with
      | none => True
      | some bs => ∀ b ∈ bs, isApplicable b m = true → getBucketKey p b.name m ≠ k) :
    (recordUsage db rl now p m u none).2.configs = some cfg ∧
    (recordUsage db rl now p m u none).2.windows k = rl.windows k := by
  cases hp : cfg p with
  | none =>
    have hsame : (recordUsage db rl now p m u none).2 = rl := by
      unfold recordUsage
      rw [ensureInit_of_loaded hcfg]
      simp only [hcfg, Option.bind, hp]
    rw [hsame]
    exact ⟨hcfg, rfl⟩
  | some bs =>
    rw [hp] at hleaves
    refine ⟨recordUsage_configs_of_loaded db hcfg hp now m u, ?_⟩
    rw [recordUsage_of_loaded hcfg hp]
    exact foldl_recordBucket_windows_other p m now u.tokens [] k bs rl hleaves

theorem applyLimiterOp_fixed_inv (db : RateLimitDb) {cfg : Configs}
    {p m : String} {pre post : List Bucket} {b : Bucket}
    (hp : cfg p = some (pre ++ b :: post)) (hfixed : b.window_type = "fixed_reset")
    (hunit : b.unit = "requests") (hL : 1 ≤ b.value_hint)
    (happ : isApplicable b m = true)
    (hothers : ∀ x ∈ pre ++ post, isApplicable x m = true → x.name ≠ b.name)
    (rl : RateLimiter) (op : LimiterOp) (hcfg : rl.configs = some cfg)
    (hinv : ∀ s, rl.windows (getBucketKey p b.name m) = some s → s.count ≤ b.value_hint)
    (htimed : op.timed)
    (htarget : (op.provider = p ∧ op.model = m) ∨ op.leaves cfg (getBucketKey p b.name m)) :
    (applyLimiterOp db rl op).configs = some cfg ∧
    ∀ s, (applyLimiterOp db rl op).windows (getBucketKey p b.name m) = some s →
      s.count ≤ b.value_hint := by
  cases op with
  | check p' m' now e =>
    simp only [applyLimiterOp, checkLimit_windows_of_loaded hcfg]
    exact ⟨hcfg, hinv⟩
  | checkThenRecord p' m' t1 e t2 u =>
    obtain ⟨r, hr⟩ := checkLimit_snd_of_loaded db hcfg t1 p' m' e
    simp only [applyLimiterOp, hr]
    split
    · rename_i hall
      rcases htarget with ⟨hp', hm'⟩ | hleaves
      · simp only [LimiterOp.provider, LimiterOp.model] at hp' hm'
        subst hp' hm'
        rw [checkLimit_of_loaded db hcfg hp t1 _ e] at hr
        simp only [Prod.mk.injEq, Except.ok.injEq] at hr
        rw [← hr.1] at hall
        refine ⟨recordUsage_configs_of_loaded db hcfg hp t2 _ u, ?_⟩
        intro s hs
        rw [recordUsage_window_at db hcfg hp happ hothers t2 u] at hs
        injection hs with hs
        rw [← hs]
        apply updateBucketState_fixed_count hfixed hL
        intro s0 hs0
        have hev := (checkBuckets_allowed_iff _ _ _ _ _ _).mp hall b (by simp) happ
        rw [hs0] at hev
        rcases evaluateBucket_fixed_requests_allowed hfixed hunit hL hev with
          ⟨r0, hr0, hr00, hrn⟩ | hlt
        · left
          have ht : t1 ≤ t2 := htimed
          exact ⟨r0, hr0, hr00, by omega⟩
        · right; exact hlt
      · have hl := recordUsage_windows_leaves db hcfg p' m' t2 u (getBucketKey p b.name m)
          hleaves
        refine ⟨hl.1, ?_⟩
        intro s hs
        rw [hl.2] at hs
        exact hinv s hs
    · exact ⟨hcfg, hinv⟩

/-- C6 (amended): a fixed_reset requests bucket with limit `value_hint ≥ 1` that applies to
the model, in a provider config where no other applicable bucket shares its name. From a store in
which the bucket's count is at most the limit, after every sequence of operations in which
each `recordUsage` (without headers) directly follows a `checkLimit` for the same provider
and model that answered allowed, at a clock reading not earlier than that check, the stored
request count is at most the limit. Operations for other providers or models may be
interleaved as long as none of their buckets is stored under this bucket's key. -/
theorem fixed_reset_request_count_never_exceeds_limit (db : RateLimitDb) (rl : RateLimiter)
    (cfg : Configs) (provider model : String) (pre post : List Bucket) (b : Bucket)
    (ops : List LimiterOp)
    (hcfg : rl.configs = some cfg) (hp : cfg provider = some (pre ++ b :: post))
    (hfixed : b.window_type = "fixed_reset") (hunit : b.unit = "requests")
    (hL : 1 ≤ b.value_hint) (happ : isApplicable b model = true)
    (hothers : ∀ x ∈ pre ++ post, isApplicable x model = true → x.name ≠ b.name)
    (hstart : ∀ s, rl.windows (getBucketKey provider b.name model) = some s →
      s.count ≤ b.value_hint)
    (htimed : ∀ op ∈ ops, op.timed)
    (htarget : ∀ op ∈ ops, (op.provider = provider ∧ op.model = model) ∨
      op.leaves cfg (getBucketKey provider b.name model)) :
    ∀ s, (ops.foldl (applyLimiterOp db) rl).windows
        (getBucketKey provider b.name model) = some s → s.count ≤ b.value_hint := by
  have key : ∀ (ops : List LimiterOp) (rl : RateLimiter), rl.configs = some cfg →
      (∀ s, rl.windows (getBucketKey provider b.name model) = some s → s.count ≤ b.value_hint) →
      (∀ op ∈ ops, op.timed) →
      (∀ op ∈ ops, (op.provider = provider ∧ op.model = model) ∨
        op.leaves cfg (getBucketKey provider b.name model)) →
      ∀ s, (ops.foldl (applyLimiterOp db) rl).windows
        (getBucketKey provider b.name model) = some s → s.count ≤ b.value_hint := by
    intro ops
    induction ops with
    | nil => intro rl _ h _ _; exact h
    | cons op rest ih =>
      intro rl hc hi ht hg
      rw [List.foldl_cons]
      obtain ⟨hc', hi'⟩ := applyLimiterOp_fixed_inv db hp hfixed hunit hL happ hothers rl op
        hc hi (ht op (List.mem_cons_self _ _)) (hg op (List.mem_cons_self _ _))
      exact ih _ hc' hi' (fun op' hop' => ht op' (List.mem_cons_of_mem _ hop'))
        (fun op' hop' => hg op' (List.mem_cons_of_mem _ hop'))
  exact key ops rl hcfg hstart htimed htarget

theorem updateBucketState_ok_none (b : Bucket) (now : Int) (tok : Nat) :
    WindowOk b (updateBucketState b none now 1 tok) := by
  unfold updateBucketState WindowOk
  by_cases hf : b.window_type = "fixed_reset"
  · simp only [hf, if_true]
    exact ⟨_, rfl, fun h => absurd rfl h⟩
  · simp only [hf, if_false]
    exact ⟨_, rfl, fun _ => rfl⟩

theorem updateBucketState_ok_some (b : Bucket) (s : WindowState) (now : Int) (tok : Nat)
    (h : WindowOk b s) :
    WindowOk b (updateBucketState b (some s) now 1 tok) ∧
    ∃ r r', s.resetTime = .val r ∧ (updateBucketState b (some s) now 1 tok).resetTime = .val r' ∧
      r ≤ r' := by
  obtain ⟨r, hr, hroll⟩ := h
  cases s with
  | mk c t st rt =>
    simp only at hr hroll
    subst hr
    have hpos := windowMs_pos b
    unfold updateBucketState WindowOk
    by_cases hf : b.window_type = "fixed_reset"
    · simp only [hf, if_true]
      by_cases h0 : r = 0
      · have hno : ¬ (now ≥ now + 86400000) := by omega
        simp only [h0, if_true, hno, if_false]
        exact ⟨⟨0, rfl, fun h => absurd rfl h⟩, 0, 0, rfl, rfl, le_refl _⟩
      · simp only [h0, if_false]
        by_cases hge : now ≥ r
        · simp only [hge, if_true]
          exact ⟨⟨_, rfl, fun h => absurd rfl h⟩, r, _, rfl, rfl, by omega⟩
        · simp only [hge, if_false]
          exact ⟨⟨r, rfl, fun h => absurd rfl h⟩, r, r, rfl, rfl, le_refl _⟩
    · simp only [hf, if_false]
      have hrv := hroll hf
      by_cases hexp : now - st > windowMs b
      · simp only [hexp, if_true]
        exact ⟨⟨_, rfl, fun _ => rfl⟩, r, _, rfl, rfl, by omega⟩
      · simp only [hexp, if_false]
        exact ⟨⟨r, rfl, fun _ => hrv⟩, r, r, rfl, rfl, le_refl _⟩

theorem nodup_names_split {bs pre post : List Bucket} {b : Bucket}
    (hnodup : (bs.map Bucket.name).Nodup) (hbs : bs = pre ++ b :: post) :
    ∀ x ∈ pre ++ post, x.name ≠ b.name := by
  subst hbs
  rw [List.map_append, List.map_cons, List.nodup_append] at hnodup
  obtain ⟨_, hpost, hdisj⟩ := hnodup
  rw [List.nodup_cons] at hpost
  intro x hx hname
  rcases List.mem_append.mp hx with hx | hx
  · have h1 : x.name ∈ pre.map Bucket.name := List.mem_map_of_mem _ hx
    have h2 : x.name ∈ b.name :: post.map Bucket.name := by
      rw [hname]; exact List.mem_cons_self _ _
    exact hdisj h1 h2
  · have h1 : x.name ∈ post.map Bucket.name := List.mem_map_of_mem _ hx
    rw [hname] at h1
    exact hpost.1 h1

theorem recordUsage_stream_step (db : RateLimitDb) {cfg : Configs} {p m : String}
    {bs : List Bucket} (hp : cfg p = some bs) (hnodup : (bs.map Bucket.name).Nodup)
    (rl : RateLimiter) (hcfg : rl.configs = some cfg) (hinv : StreamInv p m bs rl.windows)
    (now : Int) (u : Usage) :
    StreamInv p m bs (recordUsage db rl now p m u none).2.windows ∧
    ∀ k s s', rl.windows k = some s → (recordUsage db rl now p m u none).2.windows k = some s' →
      ∃ r r', s.resetTime = .val r ∧ s'.resetTime = .val r' ∧ r ≤ r' := by
  -- what the call does to a key
  have hkey : ∀ k, (∃ b ∈ bs, isApplicable b m = true ∧ k = getBucketKey p b.name m ∧
        (recordUsage db rl now p m u none).2.windows k
          = some (updateBucketState b (rl.windows k) now 1 u.tokens)) ∨
      ((∀ b ∈ bs, isApplicable b m = true → getBucketKey p b.name m ≠ k) ∧
        (recordUsage db rl now p m u none).2.windows k = rl.windows k) := by
    intro k
    by_cases hex : ∃ b ∈ bs, isApplicable b m = true ∧ k = getBucketKey p b.name m
    · left
      obtain ⟨b, hb, happ, hk⟩ := hex
      obtain ⟨pre, post, hsplit⟩ := List.append_of_mem hb
      have hothers := nodup_names_split hnodup hsplit
      refine ⟨b, hb, happ, hk, ?_⟩
      rw [hk]
      exact recordUsage_window_at db hcfg (hsplit ▸ hp) happ
        (fun x hx _ => hothers x hx) now u
    · right
      have hno : ∀ b ∈ bs, isApplicable b m = true → getBucketKey p b.name m ≠ k := by
        intro b hb happ hk
        exact hex ⟨b, hb, happ, hk.symm⟩
      refine ⟨hno, ?_⟩
      rw [recordUsage_of_loaded hcfg hp]
      exact foldl_recordBucket_windows_other p m now u.tokens [] k bs rl hno
  constructor
  · intro k s' hs'
    rcases hkey k with ⟨b, hb, happ, hk, hw⟩ | ⟨_, hw⟩
    · rw [hw] at hs'
      injection hs' with hs'
      refine ⟨b, hb, happ, hk, ?_⟩
      rw [← hs']
      cases hold : rl.windows k with
      | none => exact updateBucketState_ok_none b now u.tokens
      | some s =>
        obtain ⟨b', hb', happ', hk', hok'⟩ := hinv k s hold
        have hname : b'.name = b.name := getBucketKey_name_inj (hk'.symm.trans hk)
        have hbb : b' = b := by
          by_contra hne
          obtain ⟨pre, post, hsplit⟩ := List.append_of_mem hb
          have hothers := nodup_names_split hnodup hsplit
          have hb'mem : b' ∈ pre ++ post := by
            rw [hsplit] at hb'
            rcases List.mem_append.mp hb' with h | h
            · exact List.mem_append_left _ h
            · rcases List.mem_cons.mp h with h | h
              · exact absurd h hne
              · exact List.mem_append_right _ h
          exact hothers b' hb'mem hname
        rw [hbb] at hok'
        exact (updateBucketState_ok_some b s now u.tokens hok').1
    · rw [hw] at hs'
      exact hinv k s' hs'
  · intro k s s' hs hs'
    rcases hkey k with ⟨b, hb, happ, hk, hw⟩ | ⟨_, hw⟩
    · rw [hw, hs] at hs'
      injection hs' with hs'
      obtain ⟨b', hb', happ', hk', hok'⟩ := hinv k s hs
      have hname : b'.name = b.name := getBucketKey_name_inj (hk'.symm.trans hk)
      have hbb : b' = b := by
        by_contra hne
        obtain ⟨pre, post, hsplit⟩ := List.append_of_mem hb
        have hothers := nodup_names_split hnodup hsplit
        have hb'mem : b' ∈ pre ++ post := by
          rw [hsplit] at hb'
          rcases List.mem_append.mp hb' with h | h
          · exact List.mem_append_left _ h
          · rcases List.mem_cons.mp h with h | h
            · exact absurd h hne
            · exact List.mem_append_right _ h
        exact hothers b' hb'mem hname
      rw [hbb] at hok'
      rw [← hs']
      exact (updateBucketState_ok_some b s now u.tokens hok').2
    · rw [hw, hs] at hs'
      injection hs' with hs'
      obtain ⟨b', _, _, _, r, hr, _⟩ := hinv k s hs
      exact ⟨r, r, hr, by rw [← hs']; exact hr, le_refl _⟩

theorem recordUsages_stream_inv (db : RateLimitDb) {cfg : Configs} {p m : String}
    {bs : List Bucket} (hp : cfg p = some bs) (hnodup : (bs.map Bucket.name).Nodup)
    (calls : List (Int × Usage)) :
    ∀ rl : RateLimiter, rl.configs = some cfg → StreamInv p m bs rl.windows →
      (recordUsages db p m rl calls).configs = some cfg ∧
      StreamInv p m bs (recordUsages db p m rl calls).windows := by
  induction calls with
  | nil => intro rl hc hi; exact ⟨hc, hi⟩
  | cons c rest ih =>
    intro rl hc hi
    exact ih _ (recordUsage_configs_of_loaded db hc hp c.1 m c.2)
      (recordUsage_stream_step db hp hnodup rl hc hi c.1 c.2).1

theorem recordUsages_append (db : RateLimitDb) (p m : String) (rl : RateLimiter)
    (calls : List (Int × Usage)) (c : Int × Usage) :
    recordUsages db p m rl (calls ++ [c])
      = (recordUsage db (recordUsages db p m rl calls) c.1 p m c.2 none).2 := by
  unfold recordUsages
  rw [List.foldl_append]
  rfl

/-- C7 (amended): for a provider whose bucket names are distinct, along every sequence of
`recordUsage` calls without headers for one provider and model, starting from an empty
window store, the reset time of every window key after a call is a number greater than or
equal to its reset time before the call. -/
theorem recordUsage_resetTime_moves_forward (db : RateLimitDb) (cfg : Configs)
    (provider model : String) (bs : List Bucket) (calls : List (Int × Usage))
    (call : Int × Usage) (key : String) (s s' : WindowState)
    (hp : cfg provider = some bs) (hnodup : (bs.map Bucket.name).Nodup)
    (hs : (recordUsages db provider model { RateLimiter.new with configs := some cfg }
            calls).windows key = some s)
    (hs' : (recordUsages db provider model { RateLimiter.new with configs := some cfg }
            (calls ++ [call])).windows key = some s') :
    ∃ r r', s.resetTime = .val r ∧ s'.resetTime = .val r' ∧ r ≤ r' := by
  have h0 : StreamInv provider model bs
      ({ RateLimiter.new with configs := some cfg } : RateLimiter).windows := by
    intro k s hk
    simp [RateLimiter.new] at hk
  obtain ⟨hc, hi⟩ := recordUsages_stream_inv db hp hnodup calls _ rfl h0
  rw [recordUsages_append] at hs'
  exact (recordUsage_stream_step db hp hnodup _ hc hi call.1 call.2).2 key s s' hs hs'

/-! ### Header sync is idempotent -/

theorem Patch.apply_andThen (P Q : Patch) (s : WindowState) :
    (P.andThen Q).apply s = Q.apply (P.apply s) := by
  cases P with
  | mk pc pt pr =>
    cases Q with
    | mk qc qt qr =>
      cases qc <;> cases qt <;> cases qr <;> rfl

theorem Patch.apply_apply (P : Patch) (s : WindowState) : P.apply (P.apply s) = P.apply s := by
  cases P with
  | mk pc pt pr => cases pc <;> cases pt <;> cases pr <;> rfl

theorem syncState_patch (b : Bucket) (now : Int) (rem rst : Option HeaderVal) :
    ∃ (P : Patch) (d : Bool), ∀ s, syncState b s now rem rst = (P.apply s, d) := by
  -- the reset block
  have hreset : ∃ (P : Patch) (d : Bool), P.count = none ∧ P.tokens = none ∧ ∀ s : WindowState,
      (match rst with
        | some h =>
          if h.truthy then ({ s with resetTime := headerResetTime now h }, true)
          else (s, false)
        | none => (s, false)) = (P.apply s, d) := by
    cases rst with
    | none => exact ⟨⟨none, none, none⟩, false, rfl, rfl, fun s => rfl⟩
    | some h =>
      by_cases ht : h.truthy = true
      · exact ⟨⟨none, none, some (headerResetTime now h)⟩, true, rfl, rfl,
          fun s => by simp only [ht, if_true]; rfl⟩
      · exact ⟨⟨none, none, none⟩, false, rfl, rfl, fun s => by simp only [ht, if_false]; rfl⟩
  obtain ⟨P, d, hPc, hPt, hP⟩ := hreset
  cases P with
  | mk pc pt pr =>
    simp only at hPc hPt
    subst hPc hPt
    unfold syncState
    cases rem with
    | none => exact ⟨⟨none, none, pr⟩, d, fun s => by simp only [hP s]⟩
    | some h =>
      by_cases hv : b.value_hint ≠ 0
      · cases hparse : parseInt h with
        | nan => exact ⟨⟨none, none, pr⟩, d, fun s => by simp only [hP s, if_pos hv, hparse]⟩
        | val remaining =>
          by_cases hu : b.unit = "requests"
          · exact ⟨⟨some (Int.toNat ((b.value_hint : Int) - remaining)), none, pr⟩, true,
              fun s => by simp only [hP s, if_pos hv, hparse, if_pos hu]; rfl⟩
          · exact ⟨⟨none, some (Int.toNat ((b.value_hint : Int) - remaining)), pr⟩, true,
              fun s => by simp only [hP s, if_pos hv, hparse, if_neg hu]; rfl⟩
      · exact ⟨⟨none, none, pr⟩, d, fun s => by simp only [hP s, if_neg hv]⟩

theorem syncBucket_form (nh : String → Option HeaderVal) (p m : String) (now : Int)
    (k : String) (b : Bucket) :
    (∃ K, ∀ acc : List String × RateLimiter, (syncBucket nh p m now acc b).1 = acc.1 ++ K) ∧
    ((∀ acc : List String × RateLimiter,
        (syncBucket nh p m now acc b).2.windows k = acc.2.windows k) ∨
     (∃ P : Patch, ∀ acc : List String × RateLimiter,
        (syncBucket nh p m now acc b).2.windows k
          = some (P.apply ((acc.2.windows k).getD (freshWindow now))))) := by
  have hnone : (∀ acc : List String × RateLimiter, syncBucket nh p m now acc b = acc) →
      (∃ K, ∀ acc : List String × RateLimiter, (syncBucket nh p m now acc b).1 = acc.1 ++ K) ∧
      ((∀ acc : List String × RateLimiter,
          (syncBucket nh p m now acc b).2.windows k = acc.2.windows k) ∨
       (∃ P : Patch, ∀ acc : List String × RateLimiter,
          (syncBucket nh p m now acc b).2.windows k
            = some (P.apply ((acc.2.windows k).getD (freshWindow now))))) := by
    intro h
    exact ⟨⟨[], fun acc => by rw [h acc, List.append_nil]⟩, Or.inl (fun acc => by rw [h acc])⟩
  by_cases happ : isApplicable b m = true
  · cases hsel : selectHeaders nh b with
    | none =>
      apply hnone
      intro acc
      unfold syncBucket
      simp only [happ, Bool.not_true, Bool.false_eq_true, if_false, hsel]
    | some hdrs =>
      obtain ⟨rem, rst⟩ := hdrs
      by_cases hpres : (rem.isSome || rst.isSome) = true
      · obtain ⟨P, d, hP⟩ := syncState_patch b now rem rst
        cases d with
        | false =>
          apply hnone
          intro acc
          unfold syncBucket
          simp only [happ, Bool.not_true, Bool.false_eq_true, if_false, hsel, hpres, if_true,
            hP]
        | true =>
          have hstep : ∀ acc : List String × RateLimiter, syncBucket nh p m now acc b
              = (acc.1 ++ [getBucketKey p b.name m],
                  { acc.2 with
                    windows := Function.update acc.2.windows (getBucketKey p b.name m)
                      (some (P.apply
                        ((acc.2.windows (getBucketKey p b.name m)).getD (freshWindow now)))),
                    isDirty := true }) := by
            intro acc
            unfold syncBucket
            simp only [happ, Bool.not_true, Bool.false_eq_true, if_false, hsel, hpres, if_true,
              hP]
          refine ⟨⟨[getBucketKey p b.name m], fun acc => by rw [hstep acc]⟩, ?_⟩
          by_cases hk : getBucketKey p b.name m = k
          · right
            refine ⟨P, fun acc => ?_⟩
            rw [hstep acc]
            subst hk
            simp only [Function.update_same]
          · left
            intro acc
            rw [hstep acc]
            simp only [Function.update_apply, if_neg (Ne.symm hk)]
      · apply hnone
        intro acc
        unfold syncBucket
        simp only [happ, Bool.not_true, Bool.false_eq_true, if_false, hsel, hpres]
  · apply hnone
    intro acc
    unfold syncBucket
    have : isApplicable b m = false := by simpa using happ
    simp only [this, Bool.not_false, if_true]

theorem foldl_syncBucket_form (nh : String → Option HeaderVal) (p m : String) (now : Int)
    (k : String) (bs : List Bucket) :
    (∃ K, ∀ acc : List String × RateLimiter,
        (bs.foldl (syncBucket nh p m now) acc).1 = acc.1 ++ K) ∧
    ((∀ acc : List String × RateLimiter,
        (bs.foldl (syncBucket nh p m now) acc).2.windows k = acc.2.windows k) ∨
     (∃ P : Patch, ∀ acc : List String × RateLimiter,
        (bs.foldl (syncBucket nh p m now) acc).2.windows k
          = some (P.apply ((acc.2.windows k).getD (freshWindow now))))) := by
  induction bs with
  | nil => exact ⟨⟨[], fun acc => by simp⟩, Or.inl (fun acc => rfl)⟩
  | cons b bs ih =>
    obtain ⟨⟨K1, hK1⟩, h1⟩ := syncBucket_form nh p m now k b
    obtain ⟨⟨K2, hK2⟩, h2⟩ := ih
    refine ⟨⟨K1 ++ K2, fun acc => by
      rw [List.foldl_cons, hK2, hK1, List.append_assoc]⟩, ?_⟩
    rcases h1 with h1 | ⟨P1, h1⟩
    · rcases h2 with h2 | ⟨P2, h2⟩
      · left
        intro acc
        rw [List.foldl_cons, h2, h1]
      · right
        refine ⟨P2, fun acc => ?_⟩
        rw [List.foldl_cons, h2, h1]
    · rcases h2 with h2 | ⟨P2, h2⟩
      · right
        refine ⟨P1, fun acc => ?_⟩
        rw [List.foldl_cons, h2, h1]
      · right
        refine ⟨P1.andThen P2, fun acc => ?_⟩
        rw [List.foldl_cons, h2, h1, Option.getD_some, Patch.apply_andThen]

theorem syncFromHeaders_windows_idem (rl : RateLimiter) (provider model : String)
    (headers : Headers) (buckets : List Bucket) (now : Int) :
    (syncFromHeaders (syncFromHeaders rl provider model headers buckets now).2 provider model
        headers buckets now).2.windows
      = (syncFromHeaders rl provider model headers buckets now).2.windows ∧
    (syncFromHeaders (syncFromHeaders rl provider model headers buckets now).2 provider model
        headers buckets now).1
      = (syncFromHeaders rl provider model headers buckets now).1 := by
  constructor
  · funext k
    unfold syncFromHeaders
    rcases (foldl_syncBucket_form (normalizeHeaders headers) provider model now k buckets).2
      with h | ⟨P, h⟩
    · rw [h]
    · rw [h, h]
      simp only [Option.getD_some, Patch.apply_apply]
  · unfold syncFromHeaders
    obtain ⟨K, hK⟩ :=
      (foldl_syncBucket_form (normalizeHeaders headers) provider model now "" buckets).1
    rw [hK, hK]

theorem syncBucket_windows_other (nh : String → Option HeaderVal) (p m : String) (now : Int)
    (k : String) (b : Bucket) (acc : List String × RateLimiter)
    (h : isApplicable b m = true → getBucketKey p b.name m ≠ k) :
    (syncBucket nh p m now acc b).2.windows k = acc.2.windows k := by
  unfold syncBucket
  split
  · rfl
  · rename_i happ
    have hne := h (by simpa using happ)
    split
    · rfl
    · simp only
      split
      · split
        · simp only [Function.update_apply, if_neg (Ne.symm hne)]
        · rfl
      · rfl

theorem foldl_syncBucket_windows_other (nh : String → Option HeaderVal) (p m : String)
    (now : Int) (k : String) (bs : List Bucket) :
    ∀ acc : List String × RateLimiter,
      (∀ b ∈ bs, isApplicable b m = true → getBucketKey p b.name m ≠ k) →
      (bs.foldl (syncBucket nh p m now) acc).2.windows k = acc.2.windows k := by
  induction bs with
  | nil => intro acc _; rfl
  | cons b bs ih =>
    intro acc h
    rw [List.foldl_cons, ih _ (fun b' hb' => h b' (List.mem_cons_of_mem _ hb')),
      syncBucket_windows_other _ _ _ _ _ _ _ (h b (List.mem_cons_self _ _))]

theorem syncBucket_requests_count (nh : String → Option HeaderVal) (p m : String) (now : Int)
    (b : Bucket) (acc : List String × RateLimiter) (n : Int)
    (happ : isApplicable b m = true) (hunit : b.unit = "requests") (hv : b.value_hint ≠ 0)
    (hrem : headerOr (nh "x-ratelimit-remaining-requests") (nh "x-ratelimit-remaining")
      = some (.int n)) :
    ∃ s, (syncBucket nh p m now acc b).2.windows (getBucketKey p b.name m) = some s ∧
      s.count = Int.toNat ((b.value_hint : Int) - n) := by
  unfold syncBucket selectHeaders
  simp only [happ, Bool.not_true, Bool.false_eq_true, if_false, hunit, if_true, hrem,
    Option.isSome_some, Bool.true_or]
  have hst : ∀ s rst, syncState b s now (some (.int n)) rst
      = ({ (syncState b s now none rst).1 with
            count := Int.toNat ((b.value_hint : Int) - n) }, true) := by
    intro s rst
    unfold syncState
    simp only [if_pos hv, parseInt, if_pos hunit]
  simp only [hst, if_true, Function.update_same]
  exact ⟨_, rfl, rfl⟩

theorem syncFromHeaders_requests_count (rl : RateLimiter) (provider model : String)
    (headers : Headers) (pre post : List Bucket) (b : Bucket) (now : Int) (n : Int)
    (happ : isApplicable b model = true) (hunit : b.unit = "requests")
    (hv : b.value_hint ≠ 0)
    (hothers : ∀ x ∈ pre ++ post, isApplicable x model = true → x.name ≠ b.name)
    (hrem : headerOr (normalizeHeaders headers "x-ratelimit-remaining-requests")
      (normalizeHeaders headers "x-ratelimit-remaining") = some (.int n)) :
    ∃ s, (syncFromHeaders rl provider model headers (pre ++ b :: post) now).2.windows
        (getBucketKey provider b.name model) = some s ∧
      s.count = Int.toNat ((b.value_hint : Int) - n) := by
  unfold syncFromHeaders
  rw [List.foldl_append, List.foldl_cons, foldl_syncBucket_windows_other]
  · exact syncBucket_requests_count _ _ _ _ _ _ n happ hunit hv hrem
  · intro x hx hxa hk
    exact hothers x (List.mem_append_right _ hx) hxa (getBucketKey_name_inj hk)

/-- C8: applying `syncFromHeaders` a second time with the same headers at the same clock
reading changes nothing: the window store (count, tokens, start and reset time of every
key) and the set of updated keys are those of the first application. In particular, for a
requests bucket with a limit whose name no other applicable bucket shares, and a numeric
remaining header `n`, the count after the second application is `max(0, value_hint - n)`,
which is `value_hint - n` whenever the remaining figure does not exceed the limit. -/
theorem syncFromHeaders_idempotent (rl : RateLimiter) (provider model : String)
    (headers : Headers) (buckets : List Bucket) (now : Int) :
    (syncFromHeaders (syncFromHeaders rl provider model headers buckets now).2 provider model
        headers buckets now).2.windows
      = (syncFromHeaders rl provider model headers buckets now).2.windows ∧
    (syncFromHeaders (syncFromHeaders rl provider model headers buckets now).2 provider model
        headers buckets now).1
      = (syncFromHeaders rl provider model headers buckets now).1 ∧
    ∀ (pre post : List Bucket) (b : Bucket) (n : Int), buckets = pre ++ b :: post →
      isApplicable b model = true → b.unit = "requests" → b.value_hint ≠ 0 →
      (∀ x ∈ pre ++ post, isApplicable x model = true → x.name ≠ b.name) →
      headerOr (normalizeHeaders headers "x-ratelimit-remaining-requests")
        (normalizeHeaders headers "x-ratelimit-remaining") = some (.int n) →
      ∃ s, (syncFromHeaders (syncFromHeaders rl provider model headers buckets now).2 provider
          model headers buckets now).2.windows (getBucketKey provider b.name model) = some s ∧
        s.count = Int.toNat ((b.value_hint : Int) - n) ∧
        (n ≤ b.value_hint → (s.count : Int) = (b.value_hint : Int) - n) := by
  refine ⟨(syncFromHeaders_windows_idem rl provider model headers buckets now).1,
    (syncFromHeaders_windows_idem rl provider model headers buckets now).2, ?_⟩
  intro pre post b n hb happ hunit hv hothers hrem
  subst hb
  obtain ⟨s, hs, hc⟩ := syncFromHeaders_requests_count
    (syncFromHeaders rl provider model headers (pre ++ b :: post) now).2 provider model headers
    pre post b now n happ hunit hv hothers hrem
  refine ⟨s, hs, hc, fun hn => ?_⟩
  rw [hc]
  omega

/-! ### Witnesses and counterexamples for the rate limiter -/

/-- C4 (counterexample): three evaluations after the rolling window of a requests bucket
with limit 2 has elapsed. With the fixed_reset bucket `rpd` (limit 2) applying as well, two
calls at times 0 and 1000 exhaust both buckets and `checkLimit` at time 61000, more than 60
seconds after the first call, answers allowed = false. With two applicable buckets of the
name `rpm`, the first `recordUsage` after expiry leaves a fresh window whose count is 2.
With `window_seconds` 0 the window lasts 60 seconds: after calls at times 0 and 500,
`checkLimit` at time 1000 answers allowed = false. -/
theorem rolling_window_elapsed_still_refused :
    Except.map (fun r => r.allowed)
      (checkLimit exNoLimits
        (recordUsages exNoLimits "groq" "llama-3.1-8b-instant"
          (exLimiter [exRpmBucket, exRpdBucket]) [(0, noUsage), (1000, noUsage)])
        61000 "groq" "llama-3.1-8b-instant" 100).1 = .ok false ∧
    (recordUsage exNoLimits
        (recordUsages exNoLimits "groq" "llama-3.1-8b-instant"
          (exLimiter [exRpmBucket, exRpmBucket]) [(0, noUsage), (1000, noUsage)])
        61000 "groq" "llama-3.1-8b-instant" noUsage none).2.windows
        "groq:rpm:llama-3.1-8b-instant"
      = some { count := 2, tokens := 0, startTime := 61000, resetTime := .val 121000 } ∧
    Except.map (fun r => r.allowed)
      (checkLimit exNoLimits
        (recordUsages exNoLimits "groq" "llama-3.1-8b-instant"
          (exLimiter [{ exRpmBucket with window_seconds := 0 }]) [(0, noUsage), (500, noUsage)])
        1000 "groq" "llama-3.1-8b-instant" 100).1 = .ok false := by
  decide

/-- Witness of C4 (amended): the rolling bucket of limit 2 per 60 seconds next to a
fixed_reset bucket of limit 5, two calls at times 0 and 1000; refused at time 30000,
allowed at time 61000 (the other bucket holds 2 of 5), where a new call opens a fresh
window. -/
theorem rolling_request_bucket_blocks_until_window_elapses_witness :
    (1 ≤ exRpmBucket.value_hint ∧ isApplicable exRpmBucket "llama-3.1-8b-instant" = true ∧
      isApplicable { exRpdBucket with value_hint := 5 } "llama-3.1-8b-instant" = true ∧
      exRpmBucket.value_hint ≤ [((1000 : Int), noUsage)].length + 1) ∧
    (∃ r, (checkLimit exNoLimits
        (recordUsages exNoLimits "groq" "llama-3.1-8b-instant"
          (exLimiter [exRpmBucket, { exRpdBucket with value_hint := 5 }])
          [(0, noUsage), (1000, noUsage)])
        30000 "groq" "llama-3.1-8b-instant" 100).1 = .ok r ∧ r.allowed = false) ∧
    (∃ r, (checkLimit exNoLimits
        (recordUsages exNoLimits "groq" "llama-3.1-8b-instant"
          (exLimiter [exRpmBucket, { exRpdBucket with value_hint := 5 }])
          [(0, noUsage), (1000, noUsage)])
        61000 "groq" "llama-3.1-8b-instant" 100).1 = .ok r ∧ r.allowed = true) ∧
    (recordUsage exNoLimits
        (recordUsages exNoLimits "groq" "llama-3.1-8b-instant"
          (exLimiter [exRpmBucket, { exRpdBucket with value_hint := 5 }])
          [(0, noUsage), (1000, noUsage)])
        61000 "groq" "llama-3.1-8b-instant" noUsage none).2.windows
        (getBucketKey "groq" exRpmBucket.name "llama-3.1-8b-instant")
      = some { count := 1, tokens := noUsage.tokens, startTime := 61000,
               resetTime := .val (61000 + windowMs exRpmBucket) } :=
  ⟨⟨by decide, by decide, by decide, by decide⟩,
   (((rolling_request_bucket_blocks_until_window_elapses exNoLimits
      (exLimiter [exRpmBucket, { exRpdBucket with value_hint := 5 }])
      (exConfigs [exRpmBucket, { exRpdBucket with value_hint := 5 }]) "groq"
      "llama-3.1-8b-instant" [] [{ exRpdBucket with value_hint := 5 }] exRpmBucket 0 noUsage
      [(1000, noUsage)] rfl rfl rfl rfl (by decide) (by decide) (by decide) rfl (by decide)
      (by decide)).2 30000 100).1 (by decide)),
   (((((rolling_request_bucket_blocks_until_window_elapses exNoLimits
      (exLimiter [exRpmBucket, { exRpdBucket with value_hint := 5 }])
      (exConfigs [exRpmBucket, { exRpdBucket with value_hint := 5 }]) "groq"
      "llama-3.1-8b-instant" [] [{ exRpdBucket with value_hint := 5 }] exRpmBucket 0 noUsage
      [(1000, noUsage)] rfl rfl rfl rfl (by decide) (by decide) (by decide) rfl (by decide)
      (by decide)).2 61000 100).2 (by decide)).1).imp
        (fun _ h => ⟨h.1, h.2.mpr (by decide)⟩)),
   ((((rolling_request_bucket_blocks_until_window_elapses exNoLimits
      (exLimiter [exRpmBucket, { exRpdBucket with value_hint := 5 }])
      (exConfigs [exRpmBucket, { exRpdBucket with value_hint := 5 }]) "groq"
      "llama-3.1-8b-instant" [] [{ exRpdBucket with value_hint := 5 }] exRpmBucket 0 noUsage
      [(1000, noUsage)] rfl rfl rfl rfl (by decide) (by decide) (by decide) rfl (by decide)
      (by decide)).2 61000 100).2 (by decide)).2 noUsage)⟩

/-- C6 (counterexample): a provider config with two applicable fixed_reset requests buckets
of the name `rpd`, each with limit 3. Both are stored under the key `groq:rpd:m`, so each
`recordUsage` adds 2 to the one count. After the first check-then-record the count is 2;
`checkLimit` at time 1 answers allowed (2 < 3), and after the second check-then-record the
stored count is 4, above the limit 3, before the reset time 86400000. -/
theorem duplicate_bucket_name_count_exceeds_limit :
    isApplicable { exRpdBucket with value_hint := 3 } "m" = true ∧
    ([LimiterOp.checkThenRecord "groq" "m" 0 100 0 noUsage].foldl (applyLimiterOp exNoLimits)
        (exLimiter [{ exRpdBucket with value_hint := 3 },
                    { exRpdBucket with value_hint := 3 }])).windows "groq:rpd:m"
      = some { count := 2, tokens := 0, startTime := 0, resetTime := .val 86400000 } ∧
    Except.map (fun r => r.allowed)
      (checkLimit exNoLimits
        ([LimiterOp.checkThenRecord "groq" "m" 0 100 0 noUsage].foldl
          (applyLimiterOp exNoLimits)
          (exLimiter [{ exRpdBucket with value_hint := 3 },
                      { exRpdBucket with value_hint := 3 }]))
        1 "groq" "m" 100).1 = .ok true ∧
    ([LimiterOp.checkThenRecord "groq" "m" 0 100 0 noUsage,
      LimiterOp.checkThenRecord "groq" "m" 1 100 1 noUsage].foldl (applyLimiterOp exNoLimits)
        (exLimiter [{ exRpdBucket with value_hint := 3 },
                    { exRpdBucket with value_hint := 3 }])).windows "groq:rpd:m"
      = some { count := 4, tokens := 0, startTime := 0, resetTime := .val 86400000 } ∧
    (1 : Int) < 86400000 := by
  decide

/-- Witness of C6 (amended): limit 2; the third request for the model is refused and the
count stays at 2, with a request for another model in between. -/
theorem fixed_reset_request_count_never_exceeds_limit_witness :
    (1 ≤ exRpdBucket.value_hint ∧ isApplicable exRpdBucket "m" = true ∧
      (∀ op ∈ exFixedOps, op.timed) ∧
      (∀ op ∈ exFixedOps, (op.provider = "groq" ∧ op.model = "m") ∨
        op.leaves (exConfigs [exRpdBucket]) (getBucketKey "groq" exRpdBucket.name "m"))) ∧
    ((exFixedOps.foldl (applyLimiterOp exNoLimits) (exLimiter [exRpdBucket])).windows
        (getBucketKey "groq" exRpdBucket.name "m")
      = some { count := 2, tokens := 0, startTime := 0, resetTime := .val 86400000 }) ∧
    ∀ s, (exFixedOps.foldl (applyLimiterOp exNoLimits)
        (exLimiter [exRpdBucket])).windows (getBucketKey "groq" exRpdBucket.name "m") = some s →
      s.count ≤ exRpdBucket.value_hint :=
  ⟨⟨by decide, by decide, by decide, by decide⟩, by decide,
   fixed_reset_request_count_never_exceeds_limit exNoLimits (exLimiter [exRpdBucket])
     (exConfigs [exRpdBucket]) "groq" "m" [] [] exRpdBucket exFixedOps rfl rfl rfl rfl
     (by decide) (by decide) (by decide) (by intro s hs; cases hs) (by decide) (by decide)⟩

/-- C7 (counterexample): a fixed_reset window created at time 1000 resets at 86401000; a
`recordUsage` with a reset header of 60 seconds at the later time 2000, and likewise
`syncFromHeaders` alone, moves the key's reset time back to 62000. -/
theorem header_sync_moves_resetTime_backwards :
    (recordUsage exNoLimits (exLimiter [exRpdBucket]) 1000 "groq" "m" noUsage none).2.windows
        "groq:rpd:m"
      = some { count := 1, tokens := 0, startTime := 1000, resetTime := .val 86401000 } ∧
    (recordUsage exNoLimits
        (recordUsage exNoLimits (exLimiter [exRpdBucket]) 1000 "groq" "m" noUsage none).2
        2000 "groq" "m" noUsage (some exHeaders)).2.windows "groq:rpd:m"
      = some { count := 1, tokens := 0, startTime := 1000, resetTime := .val 62000 } ∧
    (syncFromHeaders
        (recordUsage exNoLimits (exLimiter [exRpdBucket]) 1000 "groq" "m" noUsage none).2
        "groq" "m" exHeaders [exRpdBucket] 2000).2.windows "groq:rpd:m"
      = some { count := 1, tokens := 0, startTime := 1000, resetTime := .val 62000 } ∧
    (62000 : Int) < 86401000 := by
  decide

/-- Witness of C7 (amended): a rolling window opened at time 0 resets at 60000; the call at
time 70000 replaces it by one that resets at 130000. -/
theorem recordUsage_resetTime_moves_forward_witness :
    ((recordUsages exNoLimits "groq" "llama-3.1-8b-instant"
        { RateLimiter.new with configs := some (exConfigs [exRpmBucket]) }
        [(0, noUsage)]).windows "groq:rpm:llama-3.1-8b-instant"
      = some { count := 1, tokens := 0, startTime := 0, resetTime := .val 60000 }) ∧
    ((recordUsages exNoLimits "groq" "llama-3.1-8b-instant"
        { RateLimiter.new with configs := some (exConfigs [exRpmBucket]) }
        ([(0, noUsage)] ++ [(70000, noUsage)])).windows "groq:rpm:llama-3.1-8b-instant"
      = some { count := 1, tokens := 0, startTime := 70000, resetTime := .val 130000 }) ∧
    ∃ r r', (JsNum.val 60000 = .val r) ∧ (JsNum.val 130000 = .val r') ∧ r ≤ r' :=
  ⟨by decide, by decide,
   recordUsage_resetTime_moves_forward exNoLimits (exConfigs [exRpmBucket]) "groq"
     "llama-3.1-8b-instant" [exRpmBucket] [(0, noUsage)] (70000, noUsage)
     "groq:rpm:llama-3.1-8b-instant"
     { count := 1, tokens := 0, startTime := 0, resetTime := .val 60000 }
     { count := 1, tokens := 0, startTime := 70000, resetTime := .val 130000 }
     rfl (by decide) (by decide) (by decide)⟩

/-- Witness of C8: limit 2 and a remaining header of 1; after one and after two syncs the
count is 1. -/
theorem syncFromHeaders_idempotent_witness :
    (isApplicable exRpdBucket "m" = true ∧ exRpdBucket.value_hint ≠ 0 ∧
      headerOr (normalizeHeaders exHeaders "x-ratelimit-remaining-requests")
        (normalizeHeaders exHeaders "x-ratelimit-remaining") = some (.int 1)) ∧
    ((syncFromHeaders (exLimiter [exRpdBucket]) "groq" "m" exHeaders [exRpdBucket]
        2000).2.windows "groq:rpd:m"
      = some { count := 1, tokens := 0, startTime := 2000, resetTime := .val 62000 }) ∧
    ∃ s, (syncFromHeaders
        (syncFromHeaders (exLimiter [exRpdBucket]) "groq" "m" exHeaders [exRpdBucket] 2000).2
        "groq" "m" exHeaders [exRpdBucket] 2000).2.windows
          (getBucketKey "groq" exRpdBucket.name "m") = some s ∧
      s.count = Int.toNat ((exRpdBucket.value_hint : Int) - 1) ∧
      ((1 : Int) ≤ exRpdBucket.value_hint → (s.count : Int) = (exRpdBucket.value_hint : Int) - 1) :=
  ⟨⟨by decide, by decide, by decide⟩, by decide,
   (syncFromHeaders_idempotent (exLimiter [exRpdBucket]) "groq" "m" exHeaders [exRpdBucket]
      2000).2.2 [] [] exRpdBucket 1 rfl (by decide) rfl (by decide) (by decide) (by decide)⟩

/-! ### Queue: admission order -/

theorem admittedBefore_trans {a b c : QueueItem} (h1 : admittedBefore a b)
    (h2 : admittedBefore b c) : admittedBefore a c := by
  unfold admittedBefore at *
  omega

theorem pairwise_orderedInsert_of_agrees (a : QueueItem) :
    ∀ s : List QueueItem, s.Pairwise admittedBefore → (∀ x ∈ s, sortAgrees a x) →
      (s.orderedInsert queueBefore a).Pairwise admittedBefore := by
  intro s
  induction s with
  | nil => intro _ _; simp
  | cons c rest ih =>
    intro hs hag
    rw [List.pairwise_cons] at hs
    have hc := hag c (List.mem_cons_self _ _)
    by_cases hr : queueBefore a c
    · rw [List.orderedInsert, if_pos hr]
      rw [List.pairwise_cons]
      refine ⟨?_, List.pairwise_cons.mpr hs⟩
      intro x hx
      rcases List.mem_cons.mp hx with rfl | hx
      · exact hc.1 hr
      · exact admittedBefore_trans (hc.1 hr) (hs.1 x hx)
    · rw [List.orderedInsert, if_neg hr]
      rw [List.pairwise_cons]
      refine ⟨?_, ih hs.2 (fun x hx => hag x (List.mem_cons_of_mem _ hx))⟩
      intro x hx
      rw [List.mem_orderedInsert] at hx
      rcases hx with rfl | hx
      · exact hc.2 hr
      · exact hs.1 x hx

theorem pairwise_insertionSort_of_agrees :
    ∀ l : List QueueItem, l.Pairwise sortAgrees →
      (l.insertionSort queueBefore).Pairwise admittedBefore := by
  intro l
  induction l with
  | nil => intro _; simp
  | cons a rest ih =>
    intro hl
    rw [List.pairwise_cons] at hl
    rw [List.insertionSort]
    apply pairwise_orderedInsert_of_agrees a _ (ih hl.2)
    intro x hx
    exact hl.1 x (((List.perm_insertionSort queueBefore rest).mem_iff).mp hx)

theorem queueBefore_iff (a b : QueueItem) :
    queueBefore a b ↔ b.priority < a.priority ∨ (a.priority = b.priority ∧ a.ts ≤ b.ts) := by
  unfold queueBefore
  split <;> omega

theorem QueueManager.step_eq_process (q : QueueManager) (e : QueueEvent) :
    q.step e = match q.beforeProcess e with
      | some p => p.process
      | none => q := by
  cases e with
  | enqueue md ts => rfl
  | settle i how =>
    simp only [QueueManager.step, QueueManager.settle, QueueManager.beforeProcess]
    cases q.running.get? i <;> rfl
  | setConcurrency limit => rfl

theorem QueueManager.process_of_starts {p : QueueManager} {item : QueueItem}
    (h : p.starts = some item) :
    ∃ rest, p.queue = item :: rest ∧
      p.process = { p with activeCount := p.activeCount + 1, queue := rest,
                           running := p.running ++ [item] } := by
  unfold QueueManager.starts at h
  split at h
  · exact absurd h (by simp)
  · rename_i hc
    cases hq : p.queue with
    | nil => rw [hq] at h; exact absurd h (by simp)
    | cons x rest =>
      rw [hq] at h
      simp only [List.head?_cons, Option.some.injEq] at h
      subst h
      refine ⟨rest, rfl, ?_⟩
      unfold QueueManager.process
      rw [if_neg hc, hq]

theorem QueueManager.process_queue_sublist (q : QueueManager) :
    q.process.queue.Sublist q.queue ∧ q.process.enqueued = q.enqueued := by
  unfold QueueManager.process
  split
  · exact ⟨List.Sublist.refl _, rfl⟩
  · split
    · exact ⟨List.Sublist.refl _, rfl⟩
    · rename_i item rest hq
      simp only [hq]
      exact ⟨List.sublist_cons_self _ _, trivial⟩

theorem QueueManager.ordered_of_sublist {q p : QueueManager} {later : List Int}
    (h : q.Ordered later) (hs : p.queue.Sublist q.queue) (hn : p.enqueued = q.enqueued) :
    p.Ordered later := by
  obtain ⟨h1, h2, h3, h4, h5⟩ := h
  refine ⟨h1.sublist hs, ?_, ?_, ?_, ?_⟩
  · intro a ha; rw [hn]; exact h2 a (hs.subset ha)
  · intro a ha b hb; exact h3 a (hs.subset ha) b (hs.subset hb)
  · intro a ha; exact h4 a (hs.subset ha)
  · intro a ha; exact h5 a (hs.subset ha)

theorem QueueManager.process_ordered {q : QueueManager} {later : List Int}
    (h : q.Ordered later) : q.process.Ordered later :=
  QueueManager.ordered_of_sublist h q.process_queue_sublist.1 q.process_queue_sublist.2

theorem QueueManager.beforeProcess_ordered {q p : QueueManager} (e : QueueEvent)
    {rest : List QueueEvent} (h : q.Ordered (enqueueTimes (e :: rest)))
    (hclock : (enqueueTimes (e :: rest)).Pairwise (· ≤ ·))
    (hp : q.beforeProcess e = some p) : p.Ordered (enqueueTimes rest) := by
  cases e with
  | settle i how =>
    simp only [QueueManager.beforeProcess] at hp
    cases hi : q.running.get? i with
    | none => rw [hi] at hp; exact absurd hp (by simp)
    | some item =>
      rw [hi] at hp
      simp only [Option.some.injEq] at hp
      subst hp
      exact QueueManager.ordered_of_sublist h (List.Sublist.refl _) rfl
  | setConcurrency limit =>
    simp only [QueueManager.beforeProcess, Option.some.injEq] at hp
    subst hp
    exact QueueManager.ordered_of_sublist h (List.Sublist.refl _) rfl
  | enqueue md ts =>
    simp only [QueueManager.beforeProcess, Option.some.injEq] at hp
    subst hp
    have htimes : enqueueTimes (QueueEvent.enqueue md ts :: rest) = ts :: enqueueTimes rest := by
      simp [enqueueTimes]
    rw [htimes] at h hclock
    rw [List.pairwise_cons] at hclock
    obtain ⟨h1, h2, h3, h4, h5⟩ := h
    have hmem : ∀ x, x ∈ (q.queue ++ [(⟨q.enqueued, md, calculatePriority md, ts⟩ : QueueItem)]).insertionSort
        queueBefore ↔ x ∈ q.queue ∨ x = ⟨q.enqueued, md, calculatePriority md, ts⟩ := by
      intro x
      rw [(List.perm_insertionSort queueBefore _).mem_iff]
      simp
    refine ⟨?_, ?_, ?_, ?_, ?_⟩
    · apply pairwise_insertionSort_of_agrees
      rw [List.pairwise_append]
      refine ⟨?_, by simp, ?_⟩
      · refine List.Pairwise.imp_of_mem ?_ h1
        intro a b ha hb hab
        have hq : queueBefore a b := by
          rw [queueBefore_iff]
          rcases hab with hlt | ⟨heq, hid⟩
          · exact Or.inl hlt
          · exact Or.inr ⟨heq, h3 a ha b hb hid⟩
        exact ⟨fun _ => hab, fun hn => absurd hq hn⟩
      · intro a ha b hb
        simp only [List.mem_singleton] at hb
        subst hb
        have hts := h4 a ha ts (List.mem_cons_self _ _)
        have hid := h2 a ha
        unfold sortAgrees
        rw [queueBefore_iff]
        unfold admittedBefore
        simp only
        constructor
        · intro hq; omega
        · intro hq; omega
    · intro a ha
      rcases (hmem a).mp ha with ha | rfl
      · exact Nat.lt_succ_of_lt (h2 a ha)
      · exact Nat.lt_succ_self _
    · intro a ha b hb hab
      rcases (hmem a).mp ha with ha | rfl
      · rcases (hmem b).mp hb with hb | rfl
        · exact h3 a ha b hb hab
        · exact h4 a ha ts (List.mem_cons_self _ _)
      · rcases (hmem b).mp hb with hb | rfl
        · have := h2 b hb
          simp only at hab
          omega
        · exact le_refl _
    · intro a ha t ht
      rcases (hmem a).mp ha with ha | rfl
      · exact h4 a ha t (List.mem_cons_of_mem _ ht)
      · exact hclock.1 t ht
    · intro a ha
      rcases (hmem a).mp ha with ha | rfl
      · exact h5 a ha
      · rfl

theorem QueueManager.step_ordered {q : QueueManager} (e : QueueEvent)
    {rest : List QueueEvent} (h : q.Ordered (enqueueTimes (e :: rest)))
    (hclock : (enqueueTimes (e :: rest)).Pairwise (· ≤ ·)) :
    (q.step e).Ordered (enqueueTimes rest) := by
  rw [QueueManager.step_eq_process]
  cases hp : q.beforeProcess e with
  | some p => exact QueueManager.process_ordered (QueueManager.beforeProcess_ordered e h hclock hp)
  | none =>
    simp only
    obtain ⟨h1, h2, h3, h4, h5⟩ := h
    refine ⟨h1, h2, h3, ?_, h5⟩
    intro a ha t ht
    apply h4 a ha t
    unfold enqueueTimes at ht ⊢
    rw [List.filterMap_cons]
    split
    · exact ht
    · exact List.mem_cons_of_mem _ ht

theorem QueueManager.run_ordered (events : List QueueEvent) :
    ∀ (q : QueueManager) (rest : List QueueEvent),
      q.Ordered (enqueueTimes (events ++ rest)) →
      (enqueueTimes (events ++ rest)).Pairwise (· ≤ ·) →
      (q.run events).Ordered (enqueueTimes rest) ∧ (enqueueTimes rest).Pairwise (· ≤ ·) := by
  induction events with
  | nil => intro q rest h hc; exact ⟨h, hc⟩
  | cons e es ih =>
    intro q rest h hc
    simp only [QueueManager.run, List.foldl_cons]
    rw [List.cons_append] at h hc
    apply ih (q.step e) rest (QueueManager.step_ordered e h hc)
    unfold enqueueTimes at hc ⊢
    rw [List.filterMap_cons] at hc
    split at hc
    · exact hc
    · exact (List.pairwise_cons.mp hc).2

/-- C11: under a clock that does not run backwards, whenever an event makes `process()` start
a task, the started task is the head of the waiting list at that moment, it carries its
calculated priority, and every other waiting task has a smaller priority, or the same
priority and a later enqueue position. -/
theorem queue_starts_highest_priority_earliest (events : List QueueEvent) (e : QueueEvent)
    (hclock : (enqueueTimes (events ++ [e])).Pairwise (· ≤ ·))
    (p : QueueManager) (item : QueueItem)
    (hp : (QueueManager.new.run events).beforeProcess e = some p)
    (hstart : p.starts = some item) :
    p.queue = item :: (QueueManager.new.run (events ++ [e])).queue ∧
    (QueueManager.new.run (events ++ [e])).running = p.running ++ [item] ∧
    item.priority = calculatePriority item.metadata ∧
    ∀ w ∈ (QueueManager.new.run (events ++ [e])).queue,
      w.priority = calculatePriority w.metadata ∧
      w.priority ≤ item.priority ∧ (w.priority = item.priority → item.id < w.id) := by
  have h0 : QueueManager.new.Ordered (enqueueTimes (events ++ [e])) := by
    refine ⟨?_, ?_, ?_, ?_, ?_⟩ <;> simp [QueueManager.new]
  have h1 := (QueueManager.run_ordered events QueueManager.new [e] h0 hclock)
  have h2 := QueueManager.beforeProcess_ordered e h1.1 h1.2 hp
  obtain ⟨rest, hq, hproc⟩ := QueueManager.process_of_starts hstart
  have hrun : QueueManager.new.run (events ++ [e]) = p.process := by
    simp only [QueueManager.run, List.foldl_append, List.foldl_cons, List.foldl_nil]
    rw [QueueManager.step_eq_process]
    simp only [QueueManager.run] at hp
    rw [hp]
  rw [hrun, hproc]
  obtain ⟨o1, _, _, _, o5⟩ := h2
  rw [hq] at o1 o5
  rw [List.pairwise_cons] at o1
  refine ⟨hq, rfl, o5 item (List.mem_cons_self _ _), ?_⟩
  intro w hw
  have := o1.1 w hw
  unfold admittedBefore at this
  refine ⟨o5 w (List.mem_cons_of_mem _ hw), ?_, ?_⟩ <;> omega

/-- Witness of C11: one slot, taken by the first request; a low-priority request waits when a
high-priority request arrives, followed by another low-priority one. When the running task
settles, the high-priority request (position 2) is started; the low-priority requests at
positions 1 and 3 keep waiting, in that order. -/
theorem queue_starts_highest_priority_earliest_witness :
    (QueueManager.new.run (exPriorityEvents ++ [QueueEvent.settle 0 .resolved])).running.map
        QueueItem.id = [2] ∧
    (QueueManager.new.run (exPriorityEvents ++ [QueueEvent.settle 0 .resolved])).queue.map
        QueueItem.id = [1, 3] ∧
    ∀ w ∈ (QueueManager.new.run (exPriorityEvents ++ [QueueEvent.settle 0 .resolved])).queue,
      w.priority = calculatePriority w.metadata ∧
      w.priority ≤ (120 : Int) ∧ (w.priority = (120 : Int) → 2 < w.id) :=
  ⟨by decide, by decide,
   (queue_starts_highest_priority_earliest exPriorityEvents (QueueEvent.settle 0 .resolved)
      (by decide)
      { queue := [⟨2, ⟨some "work", some "urgent"⟩, 120, 2⟩, ⟨1, ⟨some "personal", none⟩, 10, 1⟩,
                  ⟨3, ⟨some "personal", none⟩, 10, 3⟩],
        concurrencyLimit := 1, activeCount := 0, running := [],
        settled := [(⟨0, ⟨some "personal", none⟩, 10, 0⟩, .resolved)], enqueued := 4 }
      ⟨2, ⟨some "work", some "urgent"⟩, 120, 2⟩ rfl (by decide)).2.2.2⟩

/-! ### Queue: no task is dropped -/

theorem perm_cons_eraseIdx {α : Type} :
    ∀ (l : List α) (i : Nat) (x : α), l.get? i = some x → l.Perm (x :: l.eraseIdx i) := by
  intro l
  induction l with
  | nil => intro i x h; simp at h
  | cons a rest ih =>
    intro i x h
    cases i with
    | zero =>
      simp only [List.get?_cons_zero, Option.some.injEq] at h
      subst h
      exact List.Perm.refl _
    | succ j =>
      simp only [List.get?_cons_succ] at h
      simp only [List.eraseIdx_cons_succ]
      exact ((ih j x h).cons a).trans (List.Perm.swap x a _)

theorem QueueManager.process_accounted {q : QueueManager} (h : q.Accounted) :
    q.process.Accounted := by
  unfold QueueManager.process
  split
  · exact h
  · split
    · exact h
    · rename_i item rest hq
      obtain ⟨h1, h2⟩ := h
      rw [hq] at h1
      refine ⟨?_, ?_⟩
      · refine List.Perm.trans (List.Perm.map _ ?_) h1
        simp only [List.append_assoc, List.cons_append, List.singleton_append]
        have := @List.perm_middle _ item (rest ++ q.running) (q.settled.map Prod.fst)
        simpa only [List.append_assoc] using this
      · simp only [List.length_append, List.length_singleton]
        push_cast
        omega

theorem QueueManager.beforeProcess_accounted {q p : QueueManager} (e : QueueEvent)
    (h : q.Accounted) (hp : q.beforeProcess e = some p) : p.Accounted := by
  obtain ⟨h1, h2⟩ := h
  cases e with
  | setConcurrency limit =>
    simp only [QueueManager.beforeProcess, Option.some.injEq] at hp
    subst hp
    exact ⟨h1, h2⟩
  | settle i how =>
    simp only [QueueManager.beforeProcess] at hp
    cases hi : q.running.get? i with
    | none => rw [hi] at hp; exact absurd hp (by simp)
    | some item =>
      rw [hi] at hp
      simp only [Option.some.injEq] at hp
      subst hp
      have hperm := perm_cons_eraseIdx q.running i item hi
      refine ⟨?_, ?_⟩
      · refine List.Perm.trans (List.Perm.map _ ?_) h1
        simp only [List.map_append, List.map_cons, List.map_nil, List.append_assoc]
        refine List.Perm.append_left _ ?_
        refine List.Perm.trans ?_ (List.Perm.append_right _ hperm.symm)
        simp only [List.cons_append]
        have := @List.perm_middle _ item (q.running.eraseIdx i ++ q.settled.map Prod.fst) []
        simpa only [List.append_assoc, List.append_nil] using this
      · have hlen := hperm.length_eq
        simp only [List.length_cons] at hlen
        simp only
        omega
  | enqueue md ts =>
    simp only [QueueManager.beforeProcess, Option.some.injEq] at hp
    subst hp
    refine ⟨?_, h2⟩
    simp only [List.range_succ]
    have hsort := List.perm_insertionSort queueBefore
      (q.queue ++ [(⟨q.enqueued, md, calculatePriority md, ts⟩ : QueueItem)])
    refine List.Perm.trans
      (List.Perm.map _ ((hsort.append_right _).append_right _)) ?_
    simp only [List.map_append, List.map_cons, List.map_nil, List.append_assoc]
    simp only [List.map_append, List.append_assoc] at h1
    refine List.Perm.trans ?_ (List.Perm.append_right _ h1)
    simp only [List.append_assoc]
    refine List.Perm.append_left _ ?_
    simp only [List.singleton_append]
    have := @List.perm_middle _ q.enqueued
      (q.running.map QueueItem.id ++ (q.settled.map Prod.fst).map QueueItem.id) []
    simpa only [List.append_assoc, List.append_nil] using this.symm

theorem QueueManager.step_accounted {q : QueueManager} (e : QueueEvent) (h : q.Accounted) :
    (q.step e).Accounted := by
  rw [QueueManager.step_eq_process]
  cases hp : q.beforeProcess e with
  | some p => exact QueueManager.process_accounted (QueueManager.beforeProcess_accounted e h hp)
  | none => exact h

theorem QueueManager.run_accounted (events : List QueueEvent) :
    ∀ q : QueueManager, q.Accounted → (q.run events).Accounted := by
  induction events with
  | nil => intro q h; exact h
  | cons e es ih =>
    intro q h
    simp only [QueueManager.run, List.foldl_cons]
    exact ih _ (QueueManager.step_accounted e h)

theorem QueueManager.process_enqueued (q : QueueManager) : q.process.enqueued = q.enqueued :=
  q.process_queue_sublist.2

theorem QueueManager.run_enqueued (events : List QueueEvent) :
    ∀ q : QueueManager, (q.run events).enqueued = q.enqueued + (enqueueTimes events).length := by
  induction events with
  | nil => intro q; rfl
  | cons e es ih =>
    intro q
    simp only [QueueManager.run, List.foldl_cons]
    have := ih (q.step e)
    simp only [QueueManager.run] at this
    rw [this]
    cases e with
    | enqueue md ts =>
      simp only [QueueManager.step, QueueManager.enqueue, QueueManager.process_enqueued,
        enqueueTimes, List.filterMap_cons, List.length_cons]
      omega
    | settle i how =>
      simp only [QueueManager.step, QueueManager.settle, enqueueTimes, List.filterMap_cons]
      cases q.running.get? i <;> simp only [QueueManager.process_enqueued]
    | setConcurrency limit =>
      simp only [QueueManager.step, QueueManager.setConcurrency, QueueManager.process_enqueued,
        enqueueTimes, List.filterMap_cons]

/-- C12: in every state reached from the initial state by `enqueue`, `setConcurrency` and
settlement events, the counter of enqueued tasks is the number of `enqueue` calls, the
enqueue positions of the waiting, running and settled tasks together are exactly the
positions `0 .. enqueued - 1` with none repeated, `activeCount` is the number of running
tasks, and enqueued = queue length + activeCount + number settled. -/
theorem queue_accounts_for_every_task (events : List QueueEvent) :
    (QueueManager.new.run events).enqueued = (enqueueTimes events).length ∧
    (((QueueManager.new.run events).queue ++ (QueueManager.new.run events).running ++
        (QueueManager.new.run events).settled.map Prod.fst).map QueueItem.id).Perm
      (List.range (QueueManager.new.run events).enqueued) ∧
    (((QueueManager.new.run events).queue ++ (QueueManager.new.run events).running ++
        (QueueManager.new.run events).settled.map Prod.fst).map QueueItem.id).Nodup ∧
    ((QueueManager.new.run events).running.length : Int) =
      (QueueManager.new.run events).activeCount ∧
    ((QueueManager.new.run events).enqueued : Int) =
      (QueueManager.new.run events).queue.length + (QueueManager.new.run events).activeCount +
        (QueueManager.new.run events).settled.length := by
  have h0 : QueueManager.new.Accounted := ⟨List.Perm.refl _, rfl⟩
  obtain ⟨h1, h2⟩ := QueueManager.run_accounted events QueueManager.new h0
  have hn := QueueManager.run_enqueued events QueueManager.new
  refine ⟨?_, h1, h1.nodup_iff.mpr (List.nodup_range _), h2, ?_⟩
  · rw [hn]; simp [QueueManager.new]
  · have hlen := h1.length_eq
    simp only [List.length_map, List.length_append, List.length_range] at hlen
    omega

/-! ### Orchestrator: sequential failover -/

theorem billingEffects_eq_nil (pricing : PricingTable) (cand : Candidate) (result : CallResult) :
    billingEffects pricing cand result = [] := by
  unfold billingEffects
  split
  · split
    · rfl
    · rw [if_neg (by decide)]
  · rfl

theorem successEffects_eq (pricing : PricingTable) (cand : Candidate) (result : CallResult)
    (latency : Int) :
    successEffects pricing cand result latency =
      [Effect.updateProviderConnection cand.connection.id latency
         (match result.usage with
          | some u => orDefault u.total_tokens 1
          | none => 1),
       Effect.recordUsage cand.provider cand.model
         (match result.usage with
          | some u => u
          | none => { tokens := 0, total_tokens := 0, prompt_tokens := 0, completion_tokens := 0 })
         result.providerHeaders,
       Effect.appendRequestLog
         { model := cand.model, provider := some cand.provider,
           connectionId := some cand.connection.id, status := orDefault result.status 200,
           tokens := result.usage, latency := some latency }] := by
  unfold successEffects
  rw [billingEffects_eq_nil, List.append_nil]

theorem sequentialLoop_failover (env : OrchestratorEnv) (params : ChatParams)
    (winner : Candidate) (result : CallResult) (hs : result.success = true) :
    ∀ (fails : List CallResult) (i : Nat) (cands : List Candidate) (lastError : Option String)
      (lastStatus : Nat),
      (∀ c ∈ cands, c.provider = "peer" → (env.signPayload c.connection.id).isSome) →
      (∀ j r, fails.get? j = some r →
        (env.backend (i + j)).outcome = .returned r ∧ r.success = false) →
      cands.get? fails.length = some winner →
      (env.backend (i + fails.length)).outcome = .returned result →
      (sequentialLoop env params i cands lastError lastStatus).2 = .returned (.result result) ∧
      (sequentialLoop env params i cands lastError lastStatus).1.filterMap
          Effect.calledCandidate = cands.take (fails.length + 1) ∧
      (sequentialLoop env params i cands lastError lastStatus).1.filter Effect.isOnFailure =
        (if params.hasOnFailure then
           List.zipWith
             (fun c r => Effect.onFailure c.connection.id r.status r.error c.provider) cands fails
         else []) ∧
      (sequentialLoop env params i cands lastError lastStatus).1.filter Effect.isHealthUpdate =
        [Effect.updateProviderConnection winner.connection.id
           (env.backend (i + fails.length)).latency
           (match result.usage with
            | some u => orDefault u.total_tokens 1
            | none => 1)] ∧
      (sequentialLoop env params i cands lastError lastStatus).1.filter Effect.isLog =
        [Effect.appendRequestLog
           { model := winner.model, provider := some winner.provider,
             connectionId := some winner.connection.id,
             status := if result.status = 0 then 200 else result.status,
             tokens := result.usage,
             latency := some (env.backend (i + fails.length)).latency }] ∧
      (sequentialLoop env params i cands lastError lastStatus).1.filter Effect.isRecordUsage =
        [Effect.recordUsage winner.provider winner.model
           (match result.usage with
            | some u => u
            | none =>
              { tokens := 0, total_tokens := 0, prompt_tokens := 0, completion_tokens := 0 })
           result.providerHeaders] := by
  intro fails
  induction fails with
  | nil =>
    intro i cands lastError lastStatus hsign _ hk hwin
    cases cands with
    | nil => simp at hk
    | cons c rest =>
      simp only [List.length_nil, List.get?_cons_zero, Option.some.injEq] at hk
      subst hk
      simp only [List.length_nil, Nat.add_zero] at hwin ⊢
      have hid : ∃ t, identityHeader env c = some t := by
        unfold identityHeader
        split
        · rename_i hp
          have := hsign c (List.mem_cons_self _ _) hp
          obtain ⟨t, ht⟩ := Option.isSome_iff_exists.mp this
          exact ⟨some t, by rw [ht]; rfl⟩
        · exact ⟨none, rfl⟩
      obtain ⟨t, ht⟩ := hid
      rw [sequentialLoop]
      simp only [ht, hwin, hs, if_true, successEffects_eq]
      refine ⟨trivial, ?_, ?_, ?_, ?_, ?_⟩
      · simp [Effect.calledCandidate]
      · simp [Effect.isOnFailure]
      · simp [Effect.isHealthUpdate]
      · simp [Effect.isLog, orDefault]
      · simp [Effect.isRecordUsage]
  | cons r fs ih =>
    intro i cands lastError lastStatus hsign hfail hk hwin
    cases cands with
    | nil => simp at hk
    | cons c rest =>
      simp only [List.length_cons, List.get?_cons_succ] at hk
      have hr := hfail 0 r rfl
      simp only [Nat.add_zero] at hr
      have hid : ∃ t, identityHeader env c = some t := by
        unfold identityHeader
        split
        · rename_i hp
          have := hsign c (List.mem_cons_self _ _) hp
          obtain ⟨t, ht⟩ := Option.isSome_iff_exists.mp this
          exact ⟨some t, by rw [ht]; rfl⟩
        · exact ⟨none, rfl⟩
      obtain ⟨t, ht⟩ := hid
      have hidx : i + (fs.length + 1) = (i + 1) + fs.length := by omega
      have hnext := ih (i + 1) rest r.error r.status
        (fun c hc => hsign c (List.mem_cons_of_mem _ hc))
        (fun j r' hj => by
          have := hfail (j + 1) r' (by simpa using hj)
          rwa [show i + (j + 1) = i + 1 + j by omega] at this)
        hk (by rw [← hidx]; exact hwin)
      obtain ⟨n1, n2, n3, n4, n5, n6⟩ := hnext
      rw [sequentialLoop]
      simp only [ht, hr.1, hr.2, List.length_cons, hidx]
      refine ⟨n1, ?_, ?_, ?_, ?_, ?_⟩
      · cases params.hasOnFailure <;>
          simp [Effect.calledCandidate, n2]
      · cases hf : params.hasOnFailure <;>
          simp [Effect.isOnFailure, n3, hf]
      · cases params.hasOnFailure <;>
          simp [Effect.isHealthUpdate, n4]
      · cases params.hasOnFailure <;>
          simp [Effect.isLog, n5]
      · cases params.hasOnFailure <;>
          simp [Effect.isRecordUsage, n6]

/-! ### Orchestrator: peer authorization -/

theorem sequentialLoop_calls_initial (env : OrchestratorEnv) (params : ChatParams) :
    ∀ (cands : List Candidate) (i : Nat) (lastError : Option String) (lastStatus : Nat),
      ((sequentialLoop env params i cands lastError lastStatus).1.filterMap
        Effect.calledCandidate) <+: cands := by
  intro cands
  induction cands with
  | nil => intro i le ls; simp [sequentialLoop, Effect.calledCandidate]
  | cons c rest ih =>
    intro i le ls
    rw [sequentialLoop]
    cases hid : identityHeader env c with
    | none => simp
    | some t =>
      simp only
      cases hout : (env.backend i).outcome with
      | threw name message =>
        simp only [List.filterMap_cons, Effect.calledCandidate, List.filterMap_nil]
        exact (List.prefix_cons_inj c).mpr List.nil_prefix
      | returned result =>
        simp only
        by_cases hs : result.success = true
        · rw [if_pos hs, successEffects_eq]
          simp only [List.filterMap_cons, Effect.calledCandidate, List.filterMap_nil]
          exact (List.prefix_cons_inj c).mpr List.nil_prefix
        · rw [if_neg hs]
          have := ih (i + 1) result.error result.status
          cases params.hasOnFailure <;>
            simpa [Effect.calledCandidate, List.prefix_cons_inj] using this

theorem batchTask_calls (pricing : PricingTable) (cand : Candidate) (outcome : BackendOutcome)
    (latency : Int) :
    (batchTask pricing cand outcome latency).1.filterMap Effect.calledCandidate = [] := by
  unfold batchTask
  cases outcome with
  | returned result =>
    simp only
    split
    · simp [billingEffects_eq_nil, Effect.calledCandidate]
    · rfl
  | threw name message =>
    simp only
    split <;> rfl

theorem filterMap_flatMap_eq_nil {α β γ : Type} (f : α → List β) (g : β → Option γ)
    (h : ∀ a, (f a).filterMap g = []) : ∀ l : List α, (l.flatMap f).filterMap g = [] := by
  intro l
  induction l with
  | nil => rfl
  | cons a rest ih => simp [List.flatMap_cons, List.filterMap_append, h a, ih]

theorem executeBatchChat_calls (pricing : PricingTable) (candidates : List Candidate)
    (batchRule : Rule) (race : Nat → RacedCall) :
    (executeBatchChat pricing candidates batchRule race).1.filterMap Effect.calledCandidate
      = [] := by
  unfold executeBatchChat
  exact filterMap_flatMap_eq_nil _ _
    (fun a : Attempt => batchTask_calls pricing a.cand a.call.outcome a.call.latency) _

theorem batchCalls_sublist (env : OrchestratorEnv) (candidates : List Candidate)
    (batchRule : Rule) :
    ((batchCalls env candidates batchRule).filterMap Effect.calledCandidate).Sublist
      candidates := by
  unfold batchCalls
  refine List.Sublist.trans ?_ (List.take_sublist (orDefault batchRule.parallel 2) candidates)
  generalize candidates.take (orDefault batchRule.parallel 2) = l
  induction l with
  | nil => simp
  | cons c rest ih =>
    rw [List.filterMap_cons]
    cases identityHeader env c with
    | none => exact ih.trans (List.sublist_cons_self _ _)
    | some t =>
      simp only [Option.map_some', List.filterMap_cons, Effect.calledCandidate]
      exact ih.cons₂ c

theorem isAuthorized_peer {env : OrchestratorEnv} {c : Candidate} (h : isAuthorized env c = true)
    (hp : c.provider = "peer") :
    ∃ sub ∈ env.subscriptions, sub.offerId = c.connection.nodeId ∧ sub.status = "active" := by
  unfold isAuthorized at h
  rw [if_neg (by simpa using hp)] at h
  simp only at h
  cases hf : env.subscriptions.find?
      (fun s => s.offerId = c.connection.nodeId && s.status = "active") with
  | none => rw [hf] at h; exact absurd h (by simp)
  | some sub =>
    have hmem := List.mem_of_find?_eq_some hf
    have hprop := List.find?_some hf
    simp only [Bool.and_eq_true, decide_eq_true_eq] at hprop
    exact ⟨sub, hmem, hprop⟩

theorem provider_peer_of_not_authorized (env : OrchestratorEnv) {c : Candidate}
    (h : isAuthorized env c = false) : c.provider = "peer" := by
  unfold isAuthorized at h
  by_contra hp
  rw [if_pos hp] at h
  exact absurd h (by simp)

theorem executeOrchestratedChat_calls_sublist (env : OrchestratorEnv) (params : ChatParams)
    (candidates : List Candidate) :
    ((executeOrchestratedChat env params candidates).1.filterMap
      Effect.calledCandidate).Sublist (authorizedCandidates env candidates) := by
  unfold executeOrchestratedChat
  simp only
  split
  · simp [Effect.calledCandidate]
  · split
    · simp
    · rename_i hne h403
      have hfinal : (if (authorizedCandidates env candidates).length > 0
          then authorizedCandidates env candidates else candidates)
          = authorizedCandidates env candidates := by
        split
        · rfl
        · rename_i hlen
          have hnil : authorizedCandidates env candidates = [] :=
            List.length_eq_zero.mp (by omega)
          cases candidates with
          | nil => exact absurd rfl hne
          | cons c rest =>
            exfalso
            apply h403
            simp only [hnil, List.length_nil, decide_True, Bool.true_and, List.any_cons,
              Bool.or_eq_true, decide_eq_true_eq]
            left
            apply provider_peer_of_not_authorized env
            have hc : c ∉ authorizedCandidates env (c :: rest) := by rw [hnil]; simp
            unfold authorizedCandidates at hc
            simpa [List.mem_filter] using hc
      rw [hfinal]
      split
      · rw [List.filterMap_append, executeBatchChat_calls, List.append_nil]
        exact batchCalls_sublist env _ _
      · exact (sequentialLoop_calls_initial env params _ 0 none 503).sublist

/-- C13: sequential failover. When the backend calls for the first `k` candidates return
failures and the call for candidate `k+1` returns success (identity headers of peer
candidates being signed), the backend is called for exactly the first `k+1` candidates in
ranked order, the failure callback (when supplied) is called once for each failed
connection with its status, error and provider, the health of the successful connection is
updated once, one usage is recorded, one log entry is appended with the success status
(200 when the result has none), and the successful result is returned. -/
theorem sequential_failover (env : OrchestratorEnv) (params : ChatParams)
    (cands : List Candidate) (fails : List CallResult) (winner : Candidate)
    (result : CallResult)
    (hsign : ∀ c ∈ cands, c.provider = "peer" → (env.signPayload c.connection.id).isSome)
    (hfail : ∀ p ∈ fails.enum, (env.backend p.1).outcome = .returned p.2 ∧ p.2.success = false)
    (hk : cands.get? fails.length = some winner)
    (hwin : (env.backend fails.length).outcome = .returned result)
    (hs : result.success = true) :
    (sequentialLoop env params 0 cands none 503).2 = .returned (.result result) ∧
    (sequentialLoop env params 0 cands none 503).1.filterMap Effect.calledCandidate =
      cands.take (fails.length + 1) ∧
    (sequentialLoop env params 0 cands none 503).1.filter Effect.isOnFailure =
      (if params.hasOnFailure then
         List.zipWith
           (fun c r => Effect.onFailure c.connection.id r.status r.error c.provider) cands fails
       else []) ∧
    (sequentialLoop env params 0 cands none 503).1.filter Effect.isHealthUpdate =
      [Effect.updateProviderConnection winner.connection.id (env.backend fails.length).latency
         (match result.usage with
          | some u => orDefault u.total_tokens 1
          | none => 1)] ∧
    (sequentialLoop env params 0 cands none 503).1.filter Effect.isLog =
      [Effect.appendRequestLog
         { model := winner.model, provider := some winner.provider,
           connectionId := some winner.connection.id,
           status := if result.status = 0 then 200 else result.status,
           tokens := result.usage,
           latency := some (env.backend fails.length).latency }] ∧
    (sequentialLoop env params 0 cands none 503).1.filter Effect.isRecordUsage =
      [Effect.recordUsage winner.provider winner.model
         (match result.usage with
          | some u => u
          | none =>
            { tokens := 0, total_tokens := 0, prompt_tokens := 0, completion_tokens := 0 })
         result.providerHeaders] := by
  have h := sequentialLoop_failover env params winner result hs fails 0 cands none 503 hsign
    (fun j r hj => by
      have := hfail (j, r) (by rw [List.mk_mem_enum_iff_getElem?]; simpa using hj)
      simpa using this)
    hk (by simpa using hwin)
  simpa using h

/-- Witness of C13: three candidates, the first two calls fail (500, then 429), the third
succeeds: three calls in ranked order, two failure reports, one log entry with status 200,
and the success is returned. -/
theorem sequential_failover_witness :
    (sequentialLoop (exEnv exTwoFailures) exParams 0 exThree none 503).2
      = .returned (.result exOk) ∧
    (sequentialLoop (exEnv exTwoFailures) exParams 0 exThree none 503).1.filterMap
      Effect.calledCandidate = exThree ∧
    (sequentialLoop (exEnv exTwoFailures) exParams 0 exThree none 503).1.filter
      Effect.isOnFailure =
        [Effect.onFailure "a" 500 (some "upstream error") "openai",
         Effect.onFailure "b" 429 (some "rate limited") "groq"] ∧
    (sequentialLoop (exEnv exTwoFailures) exParams 0 exThree none 503).1.filter Effect.isLog =
      [Effect.appendRequestLog
         { model := "claude-sonnet-4-5", provider := some "anthropic",
           connectionId := some "c", status := 200, tokens := none, latency := some 10 }] :=
  have h := sequential_failover (exEnv exTwoFailures) exParams exThree
    [exFail 500 "upstream error", exFail 429 "rate limited"]
    (exCand "c" "anthropic" "claude-sonnet-4-5") exOk
    (by decide) (by decide) (by decide) (by decide) (by decide)
  ⟨h.1, h.2.1, h.2.2.1, h.2.2.2.2.1⟩

/-- C14: evaluation of a batch of two in which the second candidate's call returns success
after 10 ms and the first candidate's call, cancelled by the abort, ends with an
`AbortError` one millisecond later, before the writes of the winning task are done: the
caller receives the cancellation marker of the loser, not the successful response. -/
theorem batch_returns_abort_marker :
    (executeOrchestratedChat (exEnv exAbortRace) exBatchParams
        [exCand "a" "openai" "gpt-4o", exCand "b" "groq" "llama-3.1-8b-instant"]).2
      = .returned .aborted ∧
    (executeOrchestratedChat (exEnv exAbortRace) exBatchParams
        [exCand "a" "openai" "gpt-4o", exCand "b" "groq" "llama-3.1-8b-instant"]).1.filter
        Effect.isLog =
      [Effect.appendRequestLog
         { model := "llama-3.1-8b-instant", provider := some "groq", connectionId := some "b",
           status := 200, tokens := none, latency := some 10 }] := by
  decide

/-! ### Orchestrator: the attempted candidates are the authorized ones -/

theorem sequentialLoop_calls_all_fail (env : OrchestratorEnv) (params : ChatParams) :
    ∀ (cands : List Candidate) (i : Nat) (lastError : Option String) (lastStatus : Nat),
      (∀ c ∈ cands, (identityHeader env c).isSome = true) →
      (∀ j, j < cands.length → (env.backend (i + j)).outcome.isFailure = true) →
      (sequentialLoop env params i cands lastError lastStatus).1.filterMap
        Effect.calledCandidate = cands := by
  intro cands
  induction cands with
  | nil => intro i le ls _ _; simp [sequentialLoop, Effect.calledCandidate]
  | cons c rest ih =>
    intro i le ls hsign hfail
    rw [sequentialLoop]
    have hc := hsign c (List.mem_cons_self _ _)
    cases hid : identityHeader env c with
    | none => rw [hid] at hc; cases hc
    | some t =>
      simp only
      have h0 := hfail 0 (by simp)
      rw [Nat.add_zero] at h0
      cases hout : (env.backend i).outcome with
      | threw name message => rw [hout] at h0; cases h0
      | returned result =>
        rw [hout] at h0
        have hs : result.success = false := by
          simpa [BackendOutcome.isFailure] using h0
        simp only [hs, Bool.false_eq_true, if_false]
        have hrest := ih (i + 1) result.error result.status
          (fun c' hc' => hsign c' (List.mem_cons_of_mem _ hc'))
          (fun j hj => by
            have := hfail (j + 1) (by simp only [List.length_cons]; omega)
            rwa [show i + (j + 1) = i + 1 + j by omega] at this)
        simp only [List.filterMap_cons, Effect.calledCandidate, List.filterMap_append]
        rw [hrest]
        by_cases hf : params.hasOnFailure = true
        · simp [hf, Effect.calledCandidate]
        · simp [hf]

theorem sequentialLoop_ne_silent (env : OrchestratorEnv) (params : ChatParams) (i : Nat)
    (c : Candidate) (rest : List Candidate) (lastError : Option String) (lastStatus : Nat)
    (r : Response) :
    sequentialLoop env params i (c :: rest) lastError lastStatus ≠ ([], .returned r) := by
  rw [sequentialLoop]
  cases identityHeader env c with
  | none => simp
  | some t =>
    simp only
    cases (env.backend i).outcome with
    | threw name message => simp
    | returned result =>
      simp only
      by_cases hs : result.success = true
      · rw [if_pos hs]; simp
      · rw [if_neg hs]; simp

theorem promiseAny_error_status (l : List TaskSettlement)
    (h : ∀ s ∈ l, ∀ st m, s ≠ .fulfilled (.error st m)) (st : Nat) (m : String)
    (he : promiseAny l = .error st m) : st = 503 := by
  induction l with
  | nil =>
    simp only [promiseAny] at he
    injection he with h1 _
    exact h1.symm
  | cons s rest ih =>
    cases s with
    | fulfilled v =>
      simp only [promiseAny] at he
      exact absurd (by rw [he]) (h _ (List.mem_cons_self _ _) st m)
    | rejected msg =>
      simp only [promiseAny] at he
      exact ih (fun s hs => h s (List.mem_cons_of_mem _ hs)) he

theorem batchTask_settlement (pricing : PricingTable) (cand : Candidate)
    (outcome : BackendOutcome) (latency : Int) (st : Nat) (m : String) :
    (batchTask pricing cand outcome latency).2 ≠ .fulfilled (.error st m) := by
  unfold batchTask
  cases outcome with
  | returned result =>
    simp only
    by_cases hs : result.success = true
    · rw [if_pos hs]; simp
    · rw [if_neg hs]; simp
  | threw name message =>
    simp only
    by_cases hn : name = "AbortError"
    · rw [if_pos hn]; simp
    · rw [if_neg hn]; simp

theorem executeBatchChat_error_status (pricing : PricingTable) (candidates : List Candidate)
    (batchRule : Rule) (race : Nat → RacedCall) (st : Nat) (m : String)
    (he : (executeBatchChat pricing candidates batchRule race).2 = .error st m) : st = 503 := by
  unfold executeBatchChat at he
  refine promiseAny_error_status _ ?_ st m he
  intro s hs st' m'
  obtain ⟨a, _, rfl⟩ := List.mem_map.mp hs
  exact batchTask_settlement pricing a.cand a.call.outcome a.call.latency st' m'

theorem batchCalls_called (env : OrchestratorEnv) (candidates : List Candidate)
    (batchRule : Rule) :
    (batchCalls env candidates batchRule).filterMap Effect.calledCandidate
      = (candidates.take (orDefault batchRule.parallel 2)).filter
          (fun c => (identityHeader env c).isSome) := by
  unfold batchCalls
  generalize candidates.take (orDefault batchRule.parallel 2) = l
  induction l with
  | nil => simp
  | cons c rest ih =>
    rw [List.filterMap_cons]
    cases hid : identityHeader env c with
    | none => simp [List.filter_cons, hid, ih]
    | some t =>
      simp only [Option.map_some', List.filterMap_cons, Effect.calledCandidate]
      rw [ih]
      simp [List.filter_cons, hid]

theorem finalCandidates_eq (env : OrchestratorEnv) (candidates : List Candidate)
    (h : authorizedCandidates env candidates ≠ []) :
    (if (authorizedCandidates env candidates).length > 0
      then authorizedCandidates env candidates else candidates)
      = authorizedCandidates env candidates := by
  rw [if_pos (List.length_pos.mpr h)]

theorem executeOrchestratedChat_of_authorized (env : OrchestratorEnv) (params : ChatParams)
    (candidates : List Candidate) (h : authorizedCandidates env candidates ≠ []) :
    executeOrchestratedChat env params candidates =
      match selectBatchRule params candidates with
      | some rule =>
        (batchCalls env (authorizedCandidates env candidates) rule ++
          (executeBatchChat env.pricing (authorizedCandidates env candidates) rule
            (batchRace env (authorizedCandidates env candidates) rule)).1,
         .returned (executeBatchChat env.pricing (authorizedCandidates env candidates) rule
            (batchRace env (authorizedCandidates env candidates) rule)).2)
      | none => sequentialLoop env params 0 (authorizedCandidates env candidates) none 503 := by
  have hcne : candidates ≠ [] := by
    intro hc; rw [hc] at h; exact h rfl
  have hlen : ¬ candidates.length = 0 := fun hl => hcne (List.length_eq_zero.mp hl)
  have hal : ¬ (authorizedCandidates env candidates).length = 0 :=
    fun hl => h (List.length_eq_zero.mp hl)
  unfold executeOrchestratedChat
  simp only [hlen, if_false, hal, decide_False, Bool.false_and, Bool.false_eq_true,
    finalCandidates_eq env candidates h]

theorem sequentialLoop_calls_head (env : OrchestratorEnv) (params : ChatParams) (i : Nat)
    (c : Candidate) (rest : List Candidate) (lastError : Option String) (lastStatus : Nat)
    (hsign : (identityHeader env c).isSome = true) :
    ((sequentialLoop env params i (c :: rest) lastError lastStatus).1.filterMap
      Effect.calledCandidate).head? = some c := by
  rw [sequentialLoop]
  cases hid : identityHeader env c with
  | none => rw [hid] at hsign; cases hsign
  | some t =>
    simp only
    cases (env.backend i).outcome with
    | threw name message => simp [Effect.calledCandidate]
    | returned result =>
      simp only
      by_cases hs : result.success = true
      · rw [if_pos hs]; simp [Effect.calledCandidate]
      · rw [if_neg hs]; simp [Effect.calledCandidate]

/-- C15: peer authorization. For a non-empty routed candidate list, the candidates passed
to the backend, in sequential or batch mode, form a sublist of the authorized candidates;
each of them is a routed candidate and, when its provider is `peer`, the store holds an
active subscription whose offer is its node id. The function returns the 403 response
`Subscription required ...` without any effect (no backend call, no log entry) exactly when
no candidate is authorized. Otherwise it is the batch or the sequential loop run on exactly
the authorized candidates: a batch calls the first `parallel || 2` authorized candidates
(those whose identity header could be signed); the sequential loop calls an initial
segment of the authorized list that starts with its first candidate, and all of the
authorized candidates, in order, when every call returns a failure. -/
theorem peer_candidates_need_subscription (env : OrchestratorEnv) (params : ChatParams)
    (candidates : List Candidate) (hne : candidates ≠ []) :
    ((executeOrchestratedChat env params candidates).1.filterMap
      Effect.calledCandidate).Sublist (authorizedCandidates env candidates) ∧
    (∀ c ∈ (executeOrchestratedChat env params candidates).1.filterMap Effect.calledCandidate,
      c ∈ candidates ∧
      (c.provider = "peer" →
        ∃ sub ∈ env.subscriptions, sub.offerId = c.connection.nodeId ∧ sub.status = "active")) ∧
    (executeOrchestratedChat env params candidates =
        ([], .returned
          (.error 403 "Subscription required to access peer nodes. Visit the Marketplace."))
      ↔ authorizedCandidates env candidates = []) ∧
    (authorizedCandidates env candidates ≠ [] →
      executeOrchestratedChat env params candidates =
        match selectBatchRule params candidates with
        | some rule =>
          (batchCalls env (authorizedCandidates env candidates) rule ++
            (executeBatchChat env.pricing (authorizedCandidates env candidates) rule
              (batchRace env (authorizedCandidates env candidates) rule)).1,
           .returned (executeBatchChat env.pricing (authorizedCandidates env candidates) rule
              (batchRace env (authorizedCandidates env candidates) rule)).2)
        | none =>
          sequentialLoop env params 0 (authorizedCandidates env candidates) none 503) ∧
    (∀ rule, selectBatchRule params candidates = some rule →
      (executeOrchestratedChat env params candidates).1.filterMap Effect.calledCandidate
        = ((authorizedCandidates env candidates).take (orDefault rule.parallel 2)).filter
            (fun c => (identityHeader env c).isSome)) ∧
    (selectBatchRule params candidates = none →
      ((executeOrchestratedChat env params candidates).1.filterMap Effect.calledCandidate
        <+: authorizedCandidates env candidates) ∧
      (∀ c, (authorizedCandidates env candidates).head? = some c →
        (identityHeader env c).isSome = true →
        ((executeOrchestratedChat env params candidates).1.filterMap
          Effect.calledCandidate).head? = some c) ∧
      ((∀ c ∈ authorizedCandidates env candidates, (identityHeader env c).isSome = true) →
        (∀ j, j < (authorizedCandidates env candidates).length →
          (env.backend j).outcome.isFailure = true) →
        (executeOrchestratedChat env params candidates).1.filterMap Effect.calledCandidate
          = authorizedCandidates env candidates)) := by
  have hsub := executeOrchestratedChat_calls_sublist env params candidates
  have h403 : authorizedCandidates env candidates = [] →
      executeOrchestratedChat env params candidates =
        ([], .returned
          (.error 403 "Subscription required to access peer nodes. Visit the Marketplace.")) := by
    intro hnil
    cases candidates with
    | nil => exact absurd rfl hne
    | cons c rest =>
      have hc : c ∉ authorizedCandidates env (c :: rest) := by rw [hnil]; simp
      have hpeer : c.provider = "peer" := by
        apply provider_peer_of_not_authorized env
        unfold authorizedCandidates at hc
        simpa [List.mem_filter] using hc
      unfold executeOrchestratedChat
      simp [hnil, hpeer]
  refine ⟨hsub, ?_, ⟨?_, h403⟩, executeOrchestratedChat_of_authorized env params candidates,
    ?_, ?_⟩
  · intro c hc
    have hmem := hsub.subset hc
    unfold authorizedCandidates at hmem
    rw [List.mem_filter] at hmem
    exact ⟨hmem.1, isAuthorized_peer hmem.2⟩
  · intro hres
    by_contra hauth
    rw [executeOrchestratedChat_of_authorized env params candidates hauth] at hres
    cases hrule : selectBatchRule params candidates with
    | some rule =>
      rw [hrule] at hres
      simp only [Prod.mk.injEq, Completion.returned.injEq] at hres
      have := executeBatchChat_error_status _ _ _ _ _ _ hres.2
      omega
    | none =>
      rw [hrule] at hres
      simp only at hres
      cases hl : authorizedCandidates env candidates with
      | nil => exact hauth hl
      | cons c rest =>
        rw [hl] at hres
        exact sequentialLoop_ne_silent env params 0 c rest none 503 _ hres
  · intro rule hrule
    by_cases hauth : authorizedCandidates env candidates = []
    · rw [h403 hauth, hauth]; simp
    · rw [executeOrchestratedChat_of_authorized env params candidates hauth, hrule]
      simp only [List.filterMap_append, executeBatchChat_calls, List.append_nil]
      exact batchCalls_called env _ rule
  · intro hrule
    by_cases hauth : authorizedCandidates env candidates = []
    · rw [h403 hauth, hauth]
      refine ⟨by simp, ?_, ?_⟩
      · intro c hc; simp at hc
      · intro _ _; simp
    · rw [executeOrchestratedChat_of_authorized env params candidates hauth, hrule]
      simp only
      refine ⟨sequentialLoop_calls_initial env params _ 0 none 503, ?_, ?_⟩
      · intro c hc hsign
        cases hl : authorizedCandidates env candidates with
        | nil => exact absurd hl hauth
        | cons c0 rest =>
          rw [hl] at hc
          simp only [List.head?_cons, Option.some.injEq] at hc
          subst hc
          exact sequentialLoop_calls_head env params 0 c0 rest none 503 hsign
      · intro hsign hfail
        exact sequentialLoop_calls_all_fail env params _ 0 none 503 hsign
          (fun j hj => by rw [Nat.zero_add]; exact hfail j hj)

/-- Witness of C15, on a node subscribed to the offer `node-B` only. For the routed list of
a peer candidate of `node-X`, an ordinary candidate and a peer candidate of `node-B`, with
every backend call failing, the sequential loop calls the ordinary candidate and the
`node-B` candidate, in this order, and not the `node-X` candidate; a batch of two calls the
same two. When the `node-X` candidate is the only routed candidate the caller receives the
403 response and nothing is called. -/
theorem peer_candidates_need_subscription_witness :
    exMixed ≠ [] ∧
    authorizedCandidates (exSubscribedEnv exAllFail) exMixed
      = [exCand "a" "openai" "gpt-4o", exPeer "p1" "node-B" "llama-3.1-8b"] ∧
    (executeOrchestratedChat (exSubscribedEnv exAllFail) exParams exMixed).1.filterMap
        Effect.calledCandidate
      = authorizedCandidates (exSubscribedEnv exAllFail) exMixed ∧
    (executeOrchestratedChat (exSubscribedEnv exAllFail) exBatchParams exMixed).1.filterMap
        Effect.calledCandidate
      = [exCand "a" "openai" "gpt-4o", exPeer "p1" "node-B" "llama-3.1-8b"] ∧
    executeOrchestratedChat (exSubscribedEnv exAllFail) exParams
        [exPeer "p0" "node-X" "llama-3.1-8b"] =
      ([], .returned
        (.error 403 "Subscription required to access peer nodes. Visit the Marketplace.")) :=
  ⟨by decide, by decide,
   (peer_candidates_need_subscription (exSubscribedEnv exAllFail) exParams exMixed
      (by decide)).2.2.2.2.2 (by decide) |>.2.2 (by decide) (by decide),
   by decide,
   (peer_candidates_need_subscription (exSubscribedEnv exAllFail) exParams
      [exPeer "p0" "node-X" "llama-3.1-8b"] (by decide)).2.2.1.mpr (by decide)⟩

/-- C16: evaluation of the authorization of a peer candidate for node `node-B` against a
store whose record for the offer `node-B` carries the token signed for the subscription
to `node-A`: the token verifies under the node's own key, its payload names another offer
than the record, and the candidate is authorized and passed to the backend. -/
theorem tampered_subscription_authorizes :
    exTamperedEnv.verifyPayload "token-A" "own-public-key" =
      some { id := "sub-1", offerId := some "node-A", name := "basic", status := "active" } ∧
    exTamperedEnv.subscriptions.map (fun s => (s.offerId, s.status, s.signature)) =
      [(some "node-B", "active", "token-A")] ∧
    isAuthorized exTamperedEnv (exPeer "p1" "node-B" "llama-3.1-8b") = true ∧
    (executeOrchestratedChat exTamperedEnv exParams [exPeer "p1" "node-B" "llama-3.1-8b"]).1.filterMap
      Effect.calledCandidate = [exPeer "p1" "node-B" "llama-3.1-8b"] ∧
    (executeOrchestratedChat exTamperedEnv exParams [exPeer "p1" "node-B" "llama-3.1-8b"]).2
      = .returned (.result exOk) := by
  decide

/-- C17: evaluation of a successful call served by a subscribed peer candidate whose model
has a price: in sequential and in batch mode the call is logged with status 200 and no
billing transaction is emitted. -/
theorem peer_success_emits_no_transaction :
    getPricingForModel exBillingEnv.pricing "peer" "llama-3.1-8b"
      = .entry { input := 1, output := 2 } ∧
    (executeOrchestratedChat exBillingEnv exParams [exPeer "p1" "node-B" "llama-3.1-8b"]).2 =
      .returned (.result { success := true, status := 200, usage := some exUsage,
                           providerHeaders := none, error := none }) ∧
    (executeOrchestratedChat exBillingEnv exParams [exPeer "p1" "node-B" "llama-3.1-8b"]).1.filter
      Effect.isBilling = [] ∧
    (executeOrchestratedChat exBillingEnv exBatchParams
      [exPeer "p1" "node-B" "llama-3.1-8b"]).1.filter Effect.isBilling = [] ∧
    ((executeOrchestratedChat exBillingEnv exParams [exPeer "p1" "node-B" "llama-3.1-8b"]).1.filter
      Effect.isLog).length = 1 := by
  decide

/-- C18: evaluation of a batch of two whose backend calls both fail with status 429 and
error `rate limited`: the batch path appends no log entry and returns the fixed 503
response, where the sequential path on the same input appends one failed log entry and
returns the last status and error. -/
theorem batch_failure_not_logged :
    (executeOrchestratedChat (exEnv exAllFail) exBatchParams
        [exCand "a" "openai" "gpt-4o", exCand "b" "groq" "llama-3.1-8b-instant"]).1.filter
        Effect.isLog = [] ∧
    (executeOrchestratedChat (exEnv exAllFail) exBatchParams
        [exCand "a" "openai" "gpt-4o", exCand "b" "groq" "llama-3.1-8b-instant"]).2
      = .returned (.error 503 "All batch candidates failed") ∧
    (executeOrchestratedChat (exEnv exAllFail) exParams
        [exCand "a" "openai" "gpt-4o", exCand "b" "groq" "llama-3.1-8b-instant"]).1.filter
        Effect.isLog =
      [Effect.appendRequestLog
         { model := "gpt-4o", provider := none, connectionId := none, status := 429,
           tokens := none, latency := none }] ∧
    (executeOrchestratedChat (exEnv exAllFail) exParams
        [exCand "a" "openai" "gpt-4o", exCand "b" "groq" "llama-3.1-8b-instant"]).2
      = .returned (.error 429 "rate limited") := by
  decide

/-! ### Default strategy: the score -/

theorem groupScore_listed :
    groupScore "personal" = .val 10 ∧ groupScore "work" = .val 20 ∧
    groupScore "team" = .val 30 ∧ groupScore "default" = .val 40 ∧ groupScore "" = .val 40 := by
  decide

theorem groupScore_unlisted (g : String)
    (hg : g ∉ ["personal", "work", "team", "default", ""]) :
    groupScore g = if g ∈ objectPrototypeNames then .nan else .val 99 := by
  simp only [List.mem_cons, List.mem_singleton, List.not_mem_nil, or_false, not_or] at hg
  obtain ⟨h1, h2, h3, h4, h5⟩ := hg
  simp only [groupScore, if_neg h5, GROUP_PRIORITY, List.lookup]
  have e1 : (g == "personal") = false := by simpa using h1
  have e2 : (g == "work") = false := by simpa using h2
  have e3 : (g == "team") = false := by simpa using h3
  have e4 : (g == "default") = false := by simpa using h4
  simp only [e1, e2, e3, e4]

theorem scoreCandidate_formula (pricing : PricingTable) (c : Candidate) :
    (scoreCandidate pricing c).costPer1k
      = some (costScoreOf (getPricingForModel pricing c.provider c.model)) ∧
    (getPricingForModel pricing c.provider c.model = .nothing →
      (scoreCandidate pricing c).costPer1k = some (.val 0)) ∧
    (scoreCandidate pricing c).score =
      (((groupScore c.connection.group).mul (.val 10000)).add
        (.val ((if c.connection.priority = 0 then 999 else (c.connection.priority : Int)) * 10))).add
        (costScoreOf (getPricingForModel pricing c.provider c.model)) ∧
    (scoreCandidate pricing c).connection = c.connection ∧
    (scoreCandidate pricing c).provider = c.provider ∧
    (scoreCandidate pricing c).model = c.model ∧
    (scoreCandidate pricing c).reasons = c.reasons ∧
    (scoreCandidate pricing c).batchRule = c.batchRule := by
  refine ⟨rfl, ?_, ?_, rfl, rfl, rfl, rfl, rfl⟩
  · intro hnone
    simp only [scoreCandidate, hnone, costScoreOf]
  · simp only [scoreCandidate, orDefault]
    split <;> simp

/-- C19: evaluation of the scoring of `defaultStrategy` on a candidate whose connection has
the group `constructor`, without pricing: the group is not in the table, yet it does not
weigh 99, because the read of the table answers the member inherited from
`Object.prototype`; the group weight and the score are `NaN`, where an unknown group such
as `guests` gives the score 99 * 10000 + 1 * 10 + 0. -/
theorem group_constructor_scores_nan :
    groupScore "constructor" = .nan ∧
    (scoreCandidate noPricing (exGrouped "c1" "openai" "gpt-4o" "constructor" 1)).score
      = .nan ∧
    (scoreCandidate noPricing (exGrouped "c1" "openai" "gpt-4o" "constructor" 1)).costPer1k
      = some (.val 0) ∧
    groupScore "guests" = .val 99 ∧
    (scoreCandidate noPricing (exGrouped "c2" "openai" "gpt-4o" "guests" 1)).score
      = .val 990010 := by
  decide

/-- C20: evaluation of `defaultStrategy` under the default prices on two candidates of the
same group: the connection with pool priority 2 on the cheaper model is ranked before the
connection with pool priority 1 on the dearer model. -/
theorem defaultStrategy_cost_outranks_priority :
    (defaultStrategy exDefaultPricing
        [exRanked "a" "claude" "claude-opus-4-5-20251101" 1,
         exRanked "b" "claude" "claude-sonnet-4-5-20250929" 2]).map
      (fun c => (c.connection.id, c.connection.group, c.connection.priority, c.score)) =
      [("b", "", 2, 418020), ("a", "", 1, 490010)] := by
  decide

/-! ### Playbook rules on the built-in data -/

/-- C22: evaluation of `executePlaybook` on two candidates with equal base scores, of the
providers `a` and `b`, under a stack rule with value `["b","a"]` and a boost of 5000 for
`a`. With a stack rule that has no target the stack rule matches no candidate, only the
boost applies, and `a` is ranked before `b`; when the target of the stack rule occurs in
the model name of both candidates the stack rule applies and `b` is ranked before `a`. -/
theorem stack_rule_needs_matching_target :
    (executePlaybook noPricing (exStackPlaybook none) exStackCandidates).map
        (fun c => (c.provider, c.score)) = [("a", 395010), ("b", 400010)] ∧
    (executePlaybook noPricing (exStackPlaybook (some "gpt")) exStackCandidates).map
        (fun c => (c.provider, c.score)) = [("b", 380010), ("a", 385010)] ∧
    (defaultStrategy noPricing exStackCandidates).map
        (fun c => (c.provider, c.score)) = [("a", 400010), ("b", 400010)] := by
  decide

theorem filter_in_two_providers (a b : String) (hab : a ≠ b) (l : List Candidate) :
    (l.filter (fun c => decide (RuleValue.str c.provider = RuleValue.str a))).filter
      (fun c => decide (RuleValue.str c.provider = RuleValue.str b)) = [] := by
  rw [List.filter_filter, List.filter_eq_nil_iff]
  intro c _
  simp only [RuleValue.str.injEq, Bool.and_eq_true, decide_eq_true_eq, not_and]
  intro hb ha
  exact hab (ha.symm.trans hb)

/-- C23: with the built-in "Budget Routing" playbook `executePlaybook` returns the empty
list for every pricing table and every candidate list: its three `filter-in` rules are
applied one after the other, and no provider equals both `groq` and `cerebras`. In
particular a single groq candidate is dropped. -/
theorem budget_routing_returns_nothing (pricing : PricingTable) (candidates : List Candidate) :
    executePlaybook pricing pbLowCostDefault candidates = [] ∧
    executePlaybook pricing pbLowCostDefault
      [exCand "g1" "groq" "llama-3.1-8b-instant"] = [] := by
  have h : ∀ l : List Candidate, applyFilterRules pbLowCostDefault.rules l = [] := by
    intro l
    simp only [applyFilterRules, pbLowCostDefault, List.foldl_cons, List.foldl_nil]
    simp only [show ("filter-in" : String) = "filter-in" from rfl, if_true,
      show ¬ (("boost" : String) = "filter-in") by decide,
      show ¬ (("boost" : String) = "filter-out") by decide, if_false]
    rw [filter_in_two_providers "groq" "cerebras" (by decide)]
    rfl
  constructor
  · unfold executePlaybook
    simp only [h]
    rfl
  · unfold executePlaybook
    simp only [h]
    rfl

/-! ### Queue priority and free slots -/

/-- C25: evaluation of `calculatePriority` on the group `urgent`: the weights table holds
the key `urgent`, so the group weighs 100, where a group outside personal, work, team and
enterprise is claimed to weigh 0 (as the group `other` does). -/
theorem calculatePriority_group_urgent :
    calculatePriority { group := some "urgent", intent := none } = 100 ∧
    calculatePriority { group := some "other", intent := none } = 0 ∧
    calculatePriority { group := some "urgent", intent := some "urgent" } = 200 := by
  decide

/-- C29: evaluation of the queue with limit 1, one task running and three waiting, on
`setConcurrency(3)`: one more task is started, so that two run and two wait under the
limit 3: a slot is free and the queue is not empty. -/
theorem setConcurrency_starts_one_task :
    (QueueManager.new.run exRaiseLimitEvents).concurrencyLimit = 3 ∧
    (QueueManager.new.run exRaiseLimitEvents).activeCount = 2 ∧
    (QueueManager.new.run exRaiseLimitEvents).running.map QueueItem.id = [0, 1] ∧
    (QueueManager.new.run exRaiseLimitEvents).queue.map QueueItem.id = [2, 3] ∧
    ¬ ((QueueManager.new.run exRaiseLimitEvents).activeCount
          ≥ (QueueManager.new.run exRaiseLimitEvents).concurrencyLimit ∨
       (QueueManager.new.run exRaiseLimitEvents).queue = []) := by
  decide

/-! ### Usage feed and cost term -/

/-- C27: evaluation of a successful sequential call on groq whose result reports an
OpenAI-style usage of 1500 total tokens and no headers, fed into a limiter with the groq
token bucket and a requests bucket: `recordUsage` receives the usage object, reads its
missing field `tokens` as 0, and the token bucket's window holds 0 tokens after the call
(the request count of both windows is 1). -/
theorem usage_tokens_not_counted :
    (sequentialLoop (exEnv exUsageBackend) exParams 0
        [exCand "g1" "groq" "llama-3.1-8b-instant"] none 503).1.filter Effect.isRecordUsage =
      [Effect.recordUsage "groq" "llama-3.1-8b-instant" exOpenAiUsage none] ∧
    (feedLimiter exNoLimits 1000 (exLimiter [exTpmBucket, exRpmBucket])
        (sequentialLoop (exEnv exUsageBackend) exParams 0
          [exCand "g1" "groq" "llama-3.1-8b-instant"] none 503).1).windows
        "groq:llama-3-1-8b-instant-tpm:llama-3.1-8b-instant" =
      some { count := 1, tokens := 0, startTime := 1000, resetTime := .val 61000 } ∧
    (feedLimiter exNoLimits 1000 (exLimiter [exTpmBucket, exRpmBucket])
        (sequentialLoop (exEnv exUsageBackend) exParams 0
          [exCand "g1" "groq" "llama-3.1-8b-instant"] none 503).1).windows
        "groq:rpm:llama-3.1-8b-instant" =
      some { count := 1, tokens := 0, startTime := 1000, resetTime := .val 61000 } := by
  decide

/-- C28: evaluation of the cost term for a candidate whose model is priced at 3 dollars
(input) and 15 dollars (output) per million tokens: `costPer1k` is 18000, which is the sum
of the rates multiplied by 1000, not the sum divided by 1000. -/
theorem costPer1k_multiplies_rates :
    getPricingForModel exDefaultPricing "claude" "claude-sonnet-4-5-20250929"
      = .entry { input := 3, output := 15 } ∧
    (scoreCandidate exDefaultPricing
        (exRanked "a" "claude" "claude-sonnet-4-5-20250929" 1)).costPer1k = some 18000 ∧
    (18000 : Int) = (3 + 15) * 1000 ∧
    ¬ ((18000 : Int) * 1000 = 3 + 15) := by
  decide

/-! ### Routing order: ascending, permutation, stable -/

theorem insertionSort_filter_of_related {α : Type} (r : α → α → Prop) [DecidableRel r]
    (p : α → Bool) (hp : ∀ a b, p a = true → p b = true → r a b) (l : List α) :
    (l.insertionSort r).filter p = l.filter p := by
  have hc : (l.filter p).Pairwise r := by
    apply List.pairwise_of_forall_mem_list
    intro a ha b hb
    exact hp a b (List.mem_filter.mp ha).2 (List.mem_filter.mp hb).2
  have hsub : (l.filter p).Sublist (l.insertionSort r) :=
    List.sublist_insertionSort hc (List.filter_sublist l)
  have h2 := hsub.filter p
  have hff : (l.filter p).filter p = l.filter p := by
    rw [List.filter_filter]
    congr 1
    funext a
    simp
  rw [hff] at h2
  have hlen := ((List.perm_insertionSort r l).filter p).length_eq
  exact (h2.eq_of_length hlen.symm).symm

theorem orderedInsert_congr {α : Type} (r r' : α → α → Prop) [DecidableRel r]
    [DecidableRel r'] (a : α) :
    ∀ s : List α, (∀ b ∈ s, r a b ↔ r' a b) → s.orderedInsert r a = s.orderedInsert r' a := by
  intro s
  induction s with
  | nil => intro _; rfl
  | cons c rest ih =>
    intro h
    have hc := h c (List.mem_cons_self _ _)
    by_cases hr : r a c
    · rw [List.orderedInsert, if_pos hr, List.orderedInsert, if_pos (hc.mp hr)]
    · rw [List.orderedInsert, if_neg hr, List.orderedInsert, if_neg (fun h' => hr (hc.mpr h')),
        ih (fun b hb => h b (List.mem_cons_of_mem _ hb))]

theorem insertionSort_congr {α : Type} (r r' : α → α → Prop) [DecidableRel r]
    [DecidableRel r'] :
    ∀ l : List α, (∀ a ∈ l, ∀ b ∈ l, r a b ↔ r' a b) →
      l.insertionSort r = l.insertionSort r' := by
  intro l
  induction l with
  | nil => intro _; rfl
  | cons a rest ih =>
    intro h
    rw [List.insertionSort, List.insertionSort,
      ← ih (fun x hx y hy => h x (List.mem_cons_of_mem _ hx) y (List.mem_cons_of_mem _ hy))]
    apply orderedInsert_congr
    intro b hb
    exact h a (List.mem_cons_self _ _) b
      (List.mem_cons_of_mem _ (((List.perm_insertionSort r rest).mem_iff).mp hb))

theorem scoreLe_iff_of_numeric {a b : Candidate} (ha : a.score ≠ .nan) (hb : b.score ≠ .nan) :
    scoreBefore a b ↔ a.score.getD 0 ≤ b.score.getD 0 := by
  unfold scoreBefore JsNum.getD
  cases ha' : a.score with
  | nan => exact absurd ha' ha
  | val x =>
    cases hb' : b.score with
    | nan => exact absurd hb' hb
    | val y => rfl

theorem sortByScore_sorted (l : List Candidate) (hnum : ∀ c ∈ l, c.score ≠ .nan) :
    (sortByScore l).Pairwise scoreLe := by
  haveI : IsTotal Candidate (fun a b => a.score.getD 0 ≤ b.score.getD 0) :=
    ⟨fun a b => le_total (a.score.getD 0) (b.score.getD 0)⟩
  haveI : IsTrans Candidate (fun a b => a.score.getD 0 ≤ b.score.getD 0) :=
    ⟨fun _ _ _ hab hbc => le_trans hab hbc⟩
  have hsorted := List.sorted_insertionSort
    (fun a b : Candidate => a.score.getD 0 ≤ b.score.getD 0) l
  have hcongr : sortByScore l
      = l.insertionSort (fun a b : Candidate => a.score.getD 0 ≤ b.score.getD 0) := by
    unfold sortByScore
    apply insertionSort_congr
    intro a ha b hb
    exact scoreLe_iff_of_numeric (hnum a ha) (hnum b hb)
  rw [hcongr]
  refine List.Pairwise.imp_of_mem ?_ hsorted
  intro a b ha hb hab
  have ha' := hnum a (((List.perm_insertionSort _ l).mem_iff).mp ha)
  have hb' := hnum b (((List.perm_insertionSort _ l).mem_iff).mp hb)
  unfold scoreLe
  unfold JsNum.getD at hab
  cases hsa : a.score with
  | nan => exact absurd hsa ha'
  | val x =>
    cases hsb : b.score with
    | nan => exact absurd hsb hb'
    | val y =>
      rw [hsa, hsb] at hab
      exact hab

theorem sortByScore_stable (l : List Candidate) (s : JsNum) :
    (sortByScore l).filter (fun c => c.score = s) = l.filter (fun c => c.score = s) := by
  unfold sortByScore
  apply insertionSort_filter_of_related
  intro a b ha hb
  simp only [decide_eq_true_eq] at ha hb
  unfold scoreBefore
  rw [ha, hb]
  cases s with
  | nan => trivial
  | val x => exact le_refl x

theorem executePlaybook_eq_sort (pricing : PricingTable) (playbook : Playbook)
    (candidates : List Candidate) :
    executePlaybook pricing playbook candidates
      = sortByScore (playbookScored pricing playbook candidates) := rfl

theorem playbookScored_route (pricing : PricingTable) (playbook : Playbook)
    (candidates : List Candidate) :
    (playbookScored pricing playbook candidates).map Candidate.route
      = (defaultStrategy pricing (applyFilterRules playbook.rules candidates)).map
          Candidate.route := by
  unfold playbookScored
  simp only
  split
  · rw [List.map_map, List.map_map]
    rfl
  · rw [List.map_map]
    rfl

theorem numeric_of_perm {l l' : List Candidate} (h : l.Perm l')
    (hnum : ∀ c ∈ l, c.score ≠ .nan) : ∀ c ∈ l', c.score ≠ .nan :=
  fun c hc => hnum c (h.mem_iff.mpr hc)

/-- C21 (counterexample): two evaluations. `executePlaybook` on the input [a, b], where a
(pool priority 2) is boosted by 10 to the score of b (pool priority 1): both have the score
400010 and the result is [b, a], the reverse of the input order. `defaultStrategy` on a
candidate of the group `constructor` and an ordinary one: the first score is `NaN`, the
result is a permutation of the two scored candidates, and in neither order are the two in
ascending score order. -/
theorem playbook_tie_reverses_input_order :
    (executePlaybook noPricing exTiePlaybook
        [exRanked "ca" "a" "gpt-4o" 2, exRanked "cb" "b" "gpt-4o" 1]).map
      (fun c => (c.provider, c.score)) = [("b", .val 400010), ("a", .val 400010)] ∧
    (scoreCandidate noPricing (exGrouped "c1" "openai" "gpt-4o" "constructor" 1)).score
      = .nan ∧
    (scoreCandidate noPricing (exRanked "c2" "openai" "gpt-4o" 1)).score = .val 400010 ∧
    (defaultStrategy noPricing
        [exGrouped "c1" "openai" "gpt-4o" "constructor" 1,
         exRanked "c2" "openai" "gpt-4o" 1]).Perm
      [scoreCandidate noPricing (exGrouped "c1" "openai" "gpt-4o" "constructor" 1),
       scoreCandidate noPricing (exRanked "c2" "openai" "gpt-4o" 1)] ∧
    ¬ [scoreCandidate noPricing (exGrouped "c1" "openai" "gpt-4o" "constructor" 1),
       scoreCandidate noPricing (exRanked "c2" "openai" "gpt-4o" 1)].Pairwise scoreLe ∧
    ¬ [scoreCandidate noPricing (exRanked "c2" "openai" "gpt-4o" 1),
       scoreCandidate noPricing (exGrouped "c1" "openai" "gpt-4o" "constructor" 1)].Pairwise
        scoreLe := by
  refine ⟨by decide, by decide, by decide, sortByScore_perm _, by decide, by decide⟩

/-- C21 (amended): the lists returned by `defaultStrategy` and `executePlaybook` are
permutations of the scored candidates handed to the final sort: the scored copies of the
input in input order for `defaultStrategy`; for `executePlaybook` the filtered candidates
in the order of their base scores, with the modifiers applied. When no returned score is
`NaN`, the list is in ascending score order and keeps the candidates of every score value
in the order in which the sort received them. A list returned by `findRoute` is one of the
two on the candidates that pass the rate limits. -/
theorem routes_sorted_ascending_stable (pricing : PricingTable) (playbook : Playbook)
    (candidates : List Candidate) (db : EngineDb) (rl : RateLimiter) (now : Int)
    (ctx : RequestContext) (routes : List Candidate)
    (hroutes : (findRoute db rl now ctx).1 = .ok routes) :
    ((defaultStrategy pricing candidates).Perm (candidates.map (scoreCandidate pricing)) ∧
     ((∀ c ∈ defaultStrategy pricing candidates, c.score ≠ .nan) →
       (defaultStrategy pricing candidates).Pairwise scoreLe ∧
       ∀ s : JsNum, (defaultStrategy pricing candidates).filter (fun c => c.score = s) =
         (candidates.map (scoreCandidate pricing)).filter (fun c => c.score = s))) ∧
    ((executePlaybook pricing playbook candidates).Perm
       (playbookScored pricing playbook candidates) ∧
     (playbookScored pricing playbook candidates).map Candidate.route
       = (defaultStrategy pricing (applyFilterRules playbook.rules candidates)).map
           Candidate.route ∧
     ((∀ c ∈ executePlaybook pricing playbook candidates, c.score ≠ .nan) →
       (executePlaybook pricing playbook candidates).Pairwise scoreLe ∧
       ∀ s : JsNum, (executePlaybook pricing playbook candidates).filter (fun c => c.score = s) =
         (playbookScored pricing playbook candidates).filter (fun c => c.score = s))) ∧
    ((routes = defaultStrategy db.pricing
        ((expandCandidates db ctx).filter
          (limitAllows db.rateLimit rl now ctx.estimatedTokens)) ∨
      ∃ pb, routes = executePlaybook db.pricing pb
        ((expandCandidates db ctx).filter
          (limitAllows db.rateLimit rl now ctx.estimatedTokens))) ∧
     ((∀ c ∈ routes, c.score ≠ .nan) → routes.Pairwise scoreLe)) := by
  have hsort : ∀ l : List Candidate, (∀ c ∈ sortByScore l, c.score ≠ .nan) →
      (sortByScore l).Pairwise scoreLe := fun l h =>
    sortByScore_sorted l (numeric_of_perm (sortByScore_perm l) h)
  refine ⟨⟨sortByScore_perm _, fun h => ⟨hsort _ h, sortByScore_stable _⟩⟩,
    ⟨sortByScore_perm _, playbookScored_route pricing playbook candidates,
      fun h => ⟨hsort _ h, sortByScore_stable _⟩⟩, ?_⟩
  have h := findRoute_ok hroutes
  cases hsel : selectPlaybook db.playbooks ctx db.settings with
  | none =>
    rw [hsel] at h
    simp only at h
    subst h
    exact ⟨Or.inl rfl, hsort _⟩
  | some pb =>
    rw [hsel] at h
    simp only at h
    subst h
    exact ⟨Or.inr ⟨pb, rfl⟩, hsort _⟩

/-- Witness of C21 (amended): two candidates with the same score keep their input order
under `defaultStrategy`; under the playbook that boosts provider `a` by 10, the input
[a (pool priority 2), b (pool priority 1)] reaches the final sort as [b, a] with equal
scores and is returned in that order, in ascending score order; and the route found for
the example request is in ascending score order. -/
theorem routes_sorted_ascending_stable_witness :
    (findRoute exLimitedDb RateLimiter.new 1000 exTwoModelCtx).1 = .ok exLimitedRouted ∧
    (defaultStrategy noPricing exStackCandidates).map (fun c => c.provider) = ["a", "b"] ∧
    ((defaultStrategy noPricing exStackCandidates).Pairwise scoreLe ∧
      ∀ s : JsNum, (defaultStrategy noPricing exStackCandidates).filter (fun c => c.score = s) =
        (exStackCandidates.map (scoreCandidate noPricing)).filter (fun c => c.score = s)) ∧
    (playbookScored noPricing exTiePlaybook
        [exRanked "ca" "a" "gpt-4o" 2, exRanked "cb" "b" "gpt-4o" 1]).map
      (fun c => (c.provider, c.score)) = [("b", .val 400010), ("a", .val 400010)] ∧
    ((executePlaybook noPricing exTiePlaybook
        [exRanked "ca" "a" "gpt-4o" 2, exRanked "cb" "b" "gpt-4o" 1]).Pairwise scoreLe ∧
      ∀ s : JsNum,
        (executePlaybook noPricing exTiePlaybook
          [exRanked "ca" "a" "gpt-4o" 2, exRanked "cb" "b" "gpt-4o" 1]).filter
            (fun c => c.score = s) =
        (playbookScored noPricing exTiePlaybook
          [exRanked "ca" "a" "gpt-4o" 2, exRanked "cb" "b" "gpt-4o" 1]).filter
            (fun c => c.score = s)) ∧
    exLimitedRouted.Pairwise scoreLe :=
  ⟨by decide, by decide,
   (routes_sorted_ascending_stable noPricing (exStackPlaybook none) exStackCandidates
      exLimitedDb RateLimiter.new 1000 exTwoModelCtx exLimitedRouted (by decide)).1.2
      (by decide),
   by decide,
   (routes_sorted_ascending_stable noPricing exTiePlaybook
      [exRanked "ca" "a" "gpt-4o" 2, exRanked "cb" "b" "gpt-4o" 1]
      exLimitedDb RateLimiter.new 1000 exTwoModelCtx exLimitedRouted (by decide)).2.1.2.2
      (by decide),
   (routes_sorted_ascending_stable noPricing (exStackPlaybook none) exStackCandidates
      exLimitedDb RateLimiter.new 1000 exTwoModelCtx exLimitedRouted (by decide)).2.2.2
      (by decide)⟩

/-! ### Playbook selection -/

theorem selectPlaybook_eq (playbooks : List Playbook) (context : RequestContext)
    (settings : Option Settings) :
    selectPlaybook playbooks context settings =
      match ((playbooks.filter (fun p => p.isActive)).insertionSort
          (fun a b => b.priority ≤ a.priority)).find? (triggerMatches context) with
      | some pb => some pb
      | none => defaultPlaybook playbooks settings := rfl

theorem sortedPlaybooks_pairwise (l : List Playbook) :
    (l.insertionSort (fun a b => b.priority ≤ a.priority)).Pairwise
      (fun a b => b.priority ≤ a.priority) := by
  haveI : IsTotal Playbook (fun a b => b.priority ≤ a.priority) :=
    ⟨fun a b => le_total b.priority a.priority⟩
  haveI : IsTrans Playbook (fun a b => b.priority ≤ a.priority) :=
    ⟨fun _ _ _ hab hbc => le_trans hbc hab⟩
  exact List.sorted_insertionSort (fun a b : Playbook => b.priority ≤ a.priority) l

theorem mem_sortedPlaybooks (playbooks : List Playbook) (p : Playbook) :
    p ∈ (playbooks.filter (fun p => p.isActive)).insertionSort
        (fun a b => b.priority ≤ a.priority) ↔ p ∈ playbooks ∧ p.isActive = true := by
  rw [(List.perm_insertionSort _ _).mem_iff, List.mem_filter]

theorem triggered_first (playbooks : List Playbook) (context : RequestContext)
    (pb : Playbook)
    (h : ((playbooks.filter (fun p => p.isActive)).insertionSort
        (fun a b => b.priority ≤ a.priority)).find? (triggerMatches context) = some pb) :
    pb ∈ playbooks ∧ pb.isActive = true ∧ triggerMatches context pb = true ∧
    (∀ p ∈ playbooks, p.isActive = true → triggerMatches context p = true →
      p.priority ≤ pb.priority) ∧
    (playbooks.filter (fun p =>
      p.isActive && triggerMatches context p && decide (p.priority = pb.priority))).head?
      = some pb := by
  have hmem := (mem_sortedPlaybooks playbooks pb).mp (List.mem_of_find?_eq_some h)
  obtain ⟨hp, pre, post, hsplit, hpre⟩ := List.find?_eq_some.mp h
  have hsorted := sortedPlaybooks_pairwise (playbooks.filter (fun p => p.isActive))
  rw [hsplit, List.pairwise_append, List.pairwise_cons] at hsorted
  refine ⟨hmem.1, hmem.2, hp, ?_, ?_⟩
  · intro p hpm hpa hpt
    have hps := (mem_sortedPlaybooks playbooks p).mpr ⟨hpm, hpa⟩
    rw [hsplit, List.mem_append, List.mem_cons] at hps
    rcases hps with hin | rfl | hin
    · have := hpre p hin
      rw [hpt] at this
      exact absurd this (by simp)
    · exact le_refl _
    · exact hsorted.2.1.1 p hin
  · have hstable := insertionSort_filter_of_related
      (fun a b : Playbook => b.priority ≤ a.priority)
      (fun p => decide (p.priority = pb.priority))
      (by
        intro a b ha hb
        simp only [decide_eq_true_eq] at ha hb
        rw [ha, hb])
      (playbooks.filter (fun p => p.isActive))
    have h2 := congrArg (List.filter (triggerMatches context)) hstable
    rw [hsplit] at h2
    simp only [List.filter_filter, List.filter_append, List.filter_cons] at h2
    have hprenil : pre.filter
        (fun a => triggerMatches context a && decide (a.priority = pb.priority)) = [] := by
      rw [List.filter_eq_nil_iff]
      intro a ha
      have := hpre a ha
      simp only [Bool.not_eq_true'] at this
      simp [this]
    rw [hprenil] at h2
    simp only [hp, decide_True, Bool.and_self, if_true, List.nil_append] at h2
    have hpred : (fun p : Playbook =>
        p.isActive && triggerMatches context p && decide (p.priority = pb.priority))
        = (fun a => triggerMatches context a &&
            (decide (a.priority = pb.priority) && a.isActive)) := by
      funext a
      cases a.isActive <;> cases triggerMatches context a <;> simp
    rw [hpred, ← h2]
    simp [List.filter_cons, hp]

/-- C24: `selectPlaybook` returns at most one playbook. If some active playbook has a
trigger matching the request, the result is such a playbook, of maximal priority among
them and the first in list order among those of its priority. If none has, the result is
the first active playbook whose id is the configured default, or nothing. Every returned
playbook is in the list and active, and one without a trigger is the configured default. -/
theorem selectPlaybook_chooses (playbooks : List Playbook) (context : RequestContext)
    (settings : Option Settings) :
    ((∃ p ∈ playbooks, p.isActive = true ∧ triggerMatches context p = true) →
      ∃ pb, selectPlaybook playbooks context settings = some pb ∧
        pb ∈ playbooks ∧ pb.isActive = true ∧ triggerMatches context pb = true ∧
        (∀ p ∈ playbooks, p.isActive = true → triggerMatches context p = true →
          p.priority ≤ pb.priority) ∧
        (playbooks.filter (fun p =>
          p.isActive && triggerMatches context p && decide (p.priority = pb.priority))).head?
          = some pb) ∧
    ((∀ p ∈ playbooks, ¬ (p.isActive = true ∧ triggerMatches context p = true)) →
      selectPlaybook playbooks context settings = defaultPlaybook playbooks settings) ∧
    (∀ pb, defaultPlaybook playbooks settings = some pb →
      pb ∈ playbooks ∧ pb.isActive = true ∧
      ∃ st, settings = some st ∧ st.defaultPlaybookId ≠ "" ∧ pb.id = st.defaultPlaybookId) ∧
    (∀ pb, selectPlaybook playbooks context settings = some pb →
      pb ∈ playbooks ∧ pb.isActive = true ∧
      (pb.trigger = none → defaultPlaybook playbooks settings = some pb)) := by
  have hdef : ∀ pb, defaultPlaybook playbooks settings = some pb →
      pb ∈ playbooks ∧ pb.isActive = true ∧
      ∃ st, settings = some st ∧ st.defaultPlaybookId ≠ "" ∧ pb.id = st.defaultPlaybookId := by
    intro pb h
    unfold defaultPlaybook at h
    cases settings with
    | none => simp at h
    | some st =>
      simp only at h
      by_cases hid : st.defaultPlaybookId = ""
      · rw [if_pos hid] at h; simp at h
      · rw [if_neg hid] at h
        have h1 := List.mem_of_find?_eq_some h
        have h2 := List.find?_some h
        simp only [Bool.and_eq_true, decide_eq_true_eq] at h2
        exact ⟨h1, h2.2, st, rfl, hid, h2.1⟩
  refine ⟨?_, ?_, hdef, ?_⟩
  · rintro ⟨p, hpm, hpa, hpt⟩
    rw [selectPlaybook_eq]
    cases hf : ((playbooks.filter (fun p => p.isActive)).insertionSort
        (fun a b => b.priority ≤ a.priority)).find? (triggerMatches context) with
    | none =>
      rw [List.find?_eq_none] at hf
      exact absurd hpt (hf p ((mem_sortedPlaybooks playbooks p).mpr ⟨hpm, hpa⟩))
    | some pb => exact ⟨pb, rfl, triggered_first playbooks context pb hf⟩
  · intro hnone
    rw [selectPlaybook_eq]
    cases hf : ((playbooks.filter (fun p => p.isActive)).insertionSort
        (fun a b => b.priority ≤ a.priority)).find? (triggerMatches context) with
    | none => rfl
    | some pb =>
      have h := triggered_first playbooks context pb hf
      exact absurd ⟨h.2.1, h.2.2.1⟩ (hnone pb h.1)
  · intro pb hsel
    rw [selectPlaybook_eq] at hsel
    cases hf : ((playbooks.filter (fun p => p.isActive)).insertionSort
        (fun a b => b.priority ≤ a.priority)).find? (triggerMatches context) with
    | none =>
      rw [hf] at hsel
      simp only at hsel
      have h := hdef pb hsel
      exact ⟨h.1, h.2.1, fun _ => hsel⟩
    | some pb' =>
      rw [hf] at hsel
      simp only [Option.some.injEq] at hsel
      subst hsel
      have h := triggered_first playbooks context pb' hf
      refine ⟨h.1, h.2.1, ?_⟩
      intro htrig
      have hm := h.2.2.1
      unfold triggerMatches at hm
      rw [htrig] at hm
      exact absurd hm (by simp)

/-- Witness of C24: for a request of the group `default`, among a low-priority match, two
matches of priority 5, an inactive match of priority 9 and the built-in playbooks without
trigger, the first playbook of priority 5 is selected; for a request of another group the
configured default `pb-balanced-default` is selected. A playbook whose intent trigger has
the value `null` is not selected for a context without intent (`undefined === null` is
false) and is selected for a context whose intent is `null`. -/
theorem selectPlaybook_chooses_witness :
    selectPlaybook exPlaybooks exCtx (some { defaultPlaybookId := "pb-balanced-default" })
      = some (exGroupPlaybook "h1" 5 true "default") ∧
    selectPlaybook [exIntentPlaybook "n" 1 .null] exCtx none = none ∧
    selectPlaybook [exIntentPlaybook "n" 1 .null] { exCtx with intent := .null } none
      = some (exIntentPlaybook "n" 1 .null) ∧
    selectPlaybook exPlaybooks { exCtx with userGroup := .str "work" }
        (some { defaultPlaybookId := "pb-balanced-default" })
      = some pbBalancedDefault ∧
    (∃ pb, selectPlaybook exPlaybooks exCtx none = some pb ∧
      pb ∈ exPlaybooks ∧ pb.isActive = true ∧ triggerMatches exCtx pb = true ∧
      (∀ p ∈ exPlaybooks, p.isActive = true → triggerMatches exCtx p = true →
        p.priority ≤ pb.priority) ∧
      (exPlaybooks.filter (fun p =>
        p.isActive && triggerMatches exCtx p && decide (p.priority = pb.priority))).head?
        = some pb) :=
  ⟨by decide, by decide, by decide, by decide,
   (selectPlaybook_chooses exPlaybooks exCtx none).1
     ⟨exGroupPlaybook "low" 1 true "default", by decide, by decide, by decide⟩⟩

/-! ### Rate limiter: the estimate is not read -/

theorem evaluateBucket_estimate (b : Bucket) (s : Option WindowState) (now : Int) (e1 e2 : Nat) :
    evaluateBucket b s now e1 = evaluateBucket b s now e2 := rfl

theorem checkBuckets_estimate (w : Windows) (p m : String) (now : Int) (e1 e2 : Nat)
    (bs : List Bucket) :
    checkBuckets w p m now e1 bs = checkBuckets w p m now e2 bs := by
  induction bs with
  | nil => rfl
  | cons b rest ih =>
    simp only [checkBuckets, ih, evaluateBucket_estimate b _ now e1 e2]

theorem checkLimit_estimate (db : RateLimitDb) (rl : RateLimiter) (now : Int) (p m : String)
    (e1 e2 : Nat) : checkLimit db rl now p m e1 = checkLimit db rl now p m e2 := by
  unfold checkLimit
  cases ensureInit db rl with
  | mk out rl1 =>
    cases out with
    | error e => rfl
    | ok u =>
      simp only
      cases rl1.configs.bind (fun c => c p) with
      | none => rfl
      | some bs =>
        simp only [checkBuckets_estimate rl1.windows p m now (orDefault e1 100)
          (orDefault e2 100) bs]

theorem ensureInit_isDirty (db : RateLimitDb) (rl : RateLimiter) :
    (ensureInit db rl).2.isDirty = rl.isDirty := by
  unfold ensureInit
  cases rl.configs with
  | some cfg => rfl
  | none =>
    simp only [RateLimiter.init]
    cases db.getRateLimitConfigs with
    | error e => rfl
    | ok cfg =>
      simp only
      cases db.getRateLimitState with
      | error e => rfl
      | ok saved => cases saved <;> rfl

theorem checkLimit_isDirty (db : RateLimitDb) (rl : RateLimiter) (now : Int) (p m : String)
    (e : Nat) : (checkLimit db rl now p m e).2.isDirty = rl.isDirty := by
  have h := ensureInit_isDirty db rl
  unfold checkLimit
  cases hi : ensureInit db rl with
  | mk out rl1 =>
    rw [hi] at h
    cases out with
    | error err => exact h
    | ok u =>
      simp only
      cases rl1.configs.bind (fun c => c p) <;> exact h

/-- C30: on a limiter whose configuration is loaded, `checkLimit` returns, its result
(allowed, reason, resetTime, remaining) is the same for any two token estimates, and the
limiter afterwards is the limiter before (window store, configuration and dirty flag), so
that a second call on it answers as the first. On any limiter, loaded or not, two calls
that differ only in the estimate end in the same way, and the dirty flag is unchanged. -/
theorem checkLimit_ignores_estimate (db : RateLimitDb) (rl : RateLimiter) (cfg : Configs)
    (now : Int) (provider model : String) (e1 e2 : Nat) (hcfg : rl.configs = some cfg) :
    (∃ r, checkLimit db rl now provider model e1 = (.ok r, rl) ∧
          checkLimit db rl now provider model e2 = (.ok r, rl) ∧
          checkLimit db (checkLimit db rl now provider model e1).2 now provider model e2
            = (.ok r, rl)) ∧
    (∀ rl0 : RateLimiter,
      checkLimit db rl0 now provider model e1 = checkLimit db rl0 now provider model e2 ∧
      (checkLimit db rl0 now provider model e1).2.isDirty = rl0.isDirty) := by
  constructor
  · obtain ⟨r, hr⟩ := checkLimit_snd_of_loaded db hcfg now provider model e1
    refine ⟨r, hr, ?_, ?_⟩
    · rw [← checkLimit_estimate db rl now provider model e1 e2]; exact hr
    · rw [hr]
      simp only
      rw [← checkLimit_estimate db rl now provider model e1 e2]; exact hr
  · intro rl0
    exact ⟨checkLimit_estimate db rl0 now provider model e1 e2,
      checkLimit_isDirty db rl0 now provider model e1⟩

/-- Witness of C30: on a limiter with a requests bucket, the checks with estimates 1 and
1000000 give the same answer and leave the limiter as it was. -/
theorem checkLimit_ignores_estimate_witness :
    (exLimiter [exRpmBucket]).configs = some (exConfigs [exRpmBucket]) ∧
    ∃ r, checkLimit exNoLimits (exLimiter [exRpmBucket]) 1000 "groq" "llama-3.1-8b-instant" 1
          = (.ok r, exLimiter [exRpmBucket]) ∧
        checkLimit exNoLimits (exLimiter [exRpmBucket]) 1000 "groq" "llama-3.1-8b-instant"
          1000000 = (.ok r, exLimiter [exRpmBucket]) ∧
        checkLimit exNoLimits
          (checkLimit exNoLimits (exLimiter [exRpmBucket]) 1000 "groq"
            "llama-3.1-8b-instant" 1).2 1000 "groq" "llama-3.1-8b-instant" 1000000
          = (.ok r, exLimiter [exRpmBucket]) :=
  ⟨rfl,
   (checkLimit_ignores_estimate exNoLimits (exLimiter [exRpmBucket])
      (exConfigs [exRpmBucket]) 1000 "groq" "llama-3.1-8b-instant" 1 1000000 rfl).1⟩

/-! ### Rate limiter: header sync and local counting -/

theorem updateBucketState_continue (b : Bucket) (s : WindowState) (now : Int) (t : Nat)
    (h : startsNewWindow b (some s) now = false) :
    updateBucketState b (some s) now 1 t =
      { s with count := s.count + 1, tokens := s.tokens + t } := by
  unfold startsNewWindow at h
  unfold updateBucketState
  simp only at h ⊢
  by_cases hf : b.window_type = "fixed_reset"
  · rw [if_pos hf] at h
    simp only [decide_eq_false_iff_not] at h
    rw [if_pos hf, if_neg h]
  · rw [if_neg hf] at h
    simp only [decide_eq_false_iff_not] at h
    rw [if_neg hf, if_neg h]

theorem updateBucketState_restart (b : Bucket) (state : Option WindowState) (now : Int)
    (t : Nat) (h : startsNewWindow b state now = true) :
    (updateBucketState b state now 1 t).count = 1 ∧
    (updateBucketState b state now 1 t).tokens = t ∧
    (updateBucketState b state now 1 t).startTime = now := by
  unfold startsNewWindow at h
  unfold updateBucketState
  cases state with
  | none =>
    simp only
    split <;> simp
  | some s =>
    simp only at h ⊢
    by_cases hf : b.window_type = "fixed_reset"
    · rw [if_pos hf] at h
      simp only [decide_eq_true_eq] at h
      rw [if_pos hf, if_pos h]
      simp
    · rw [if_neg hf] at h
      simp only [decide_eq_true_eq] at h
      rw [if_neg hf, if_pos h]
      simp

theorem syncBucket_untouched (nh : String → Option HeaderVal) (p m : String) (now : Int)
    (rl : RateLimiter) (b : Bucket) (acc : List String × RateLimiter)
    (h : ∀ k, k ∉ acc.1 → acc.2.windows k = rl.windows k) :
    ∀ k, k ∉ (syncBucket nh p m now acc b).1 →
      (syncBucket nh p m now acc b).2.windows k = rl.windows k := by
  intro k
  unfold syncBucket
  split
  · exact h k
  · split
    · exact h k
    · simp only
      split
      · split
        · intro hk
          simp only [List.mem_append, List.mem_singleton, not_or] at hk
          simp only [Function.update_apply, if_neg hk.2]
          exact h k hk.1
        · exact h k
      · exact h k

theorem syncFromHeaders_untouched (rl : RateLimiter) (p m : String) (headers : Headers)
    (bs : List Bucket) (now : Int) :
    ∀ k, k ∉ (syncFromHeaders rl p m headers bs now).1 →
      (syncFromHeaders rl p m headers bs now).2.windows k = rl.windows k := by
  unfold syncFromHeaders
  have key : ∀ (l : List Bucket) (acc : List String × RateLimiter),
      (∀ k, k ∉ acc.1 → acc.2.windows k = rl.windows k) →
      ∀ k, k ∉ (l.foldl (syncBucket (normalizeHeaders headers) p m now) acc).1 →
        (l.foldl (syncBucket (normalizeHeaders headers) p m now) acc).2.windows k
          = rl.windows k := by
    intro l
    induction l with
    | nil => intro acc h; exact h
    | cons b rest ih =>
      intro acc h
      rw [List.foldl_cons]
      exact ih _ (syncBucket_untouched _ p m now rl b acc h)
  exact key bs ([], rl) (fun k _ => rfl)

theorem recordBucket_windows_skipped (p m : String) (now : Int) (tok : Nat)
    (keys : List String) (rl : RateLimiter) (b : Bucket) (k : String) (hk : k ∈ keys) :
    (recordBucket p m now tok keys rl b).windows k = rl.windows k := by
  unfold recordBucket
  split
  · rfl
  · simp only
    split
    · rfl
    · rename_i hnot
      have hne : getBucketKey p b.name m ≠ k := fun heq => hnot (heq ▸ hk)
      simp only [Function.update_apply, if_neg (Ne.symm hne)]

theorem foldl_recordBucket_windows_skipped (p m : String) (now : Int) (tok : Nat)
    (keys : List String) (k : String) (hk : k ∈ keys) (bs : List Bucket) :
    ∀ rl : RateLimiter, (bs.foldl (recordBucket p m now tok keys) rl).windows k = rl.windows k := by
  induction bs with
  | nil => intro rl; rfl
  | cons b rest ih =>
    intro rl
    rw [List.foldl_cons, ih, recordBucket_windows_skipped p m now tok keys rl b k hk]

theorem recordBucket_windows_counted (p m : String) (now : Int) (tok : Nat)
    (keys : List String) (rl : RateLimiter) (b : Bucket) (happ : isApplicable b m = true)
    (hk : getBucketKey p b.name m ∉ keys) :
    (recordBucket p m now tok keys rl b).windows (getBucketKey p b.name m)
      = some (updateBucketState b (rl.windows (getBucketKey p b.name m)) now 1 tok) := by
  unfold recordBucket
  simp only [happ, Bool.not_true, Bool.false_eq_true, if_false, if_neg hk,
    Function.update_same]

theorem foldl_recordBucket_windows_counted (p m : String) (now : Int) (tok : Nat)
    (keys : List String) (pre post : List Bucket) (b : Bucket) (rl : RateLimiter)
    (happ : isApplicable b m = true) (hk : getBucketKey p b.name m ∉ keys)
    (hothers : ∀ x ∈ pre ++ post, x.name ≠ b.name) :
    ((pre ++ b :: post).foldl (recordBucket p m now tok keys) rl).windows
        (getBucketKey p b.name m)
      = some (updateBucketState b (rl.windows (getBucketKey p b.name m)) now 1 tok) := by
  rw [List.foldl_append, List.foldl_cons]
  rw [foldl_recordBucket_windows_other]
  · have hpre : (pre.foldl (recordBucket p m now tok keys) rl).windows (getBucketKey p b.name m)
        = rl.windows (getBucketKey p b.name m) := by
      apply foldl_recordBucket_windows_other
      intro x hx _ hkey
      exact hothers x (List.mem_append_left _ hx) (getBucketKey_name_inj hkey)
    rw [recordBucket_windows_counted p m now tok keys _ b happ hk, hpre]
  · intro x hx _ hkey
    exact hothers x (List.mem_append_right _ hx) (getBucketKey_name_inj hkey)

theorem recordUsage_headers_of_loaded (db : RateLimitDb) {rl : RateLimiter} {cfg : Configs}
    {bs : List Bucket} {p : String} (hcfg : rl.configs = some cfg) (hp : cfg p = some bs)
    (now : Int) (m : String) (u : Usage) (headers : Headers) :
    (recordUsage db rl now p m u (some headers)).2 =
      bs.foldl (recordBucket p m now u.tokens (syncFromHeaders rl p m headers bs now).1)
        (syncFromHeaders rl p m headers bs now).2 := by
  unfold recordUsage
  rw [ensureInit_of_loaded hcfg]
  simp only [hcfg, Option.bind, hp]

/-- C26 (counterexample): two evaluations of `recordUsage` with headers that report the
remaining tokens only, so that the token bucket is synced and the requests bucket is
counted locally. At time 100000 the requests window of time 0 (count 2) has expired: it is
restarted and holds count 1, not 3. With two applicable buckets of the same name the one
window is counted twice within the window: count 4, not 3. -/
theorem local_count_restarts_or_repeats :
    (syncFromHeaders (exUsedLimiter [exTpmBucket, exRpmBucket]) "groq" "llama-3.1-8b-instant"
        exTokenHeaders [exTpmBucket, exRpmBucket] 100000).1
      = ["groq:llama-3-1-8b-instant-tpm:llama-3.1-8b-instant"] ∧
    (recordUsage exNoLimits (exUsedLimiter [exTpmBucket, exRpmBucket]) 100000 "groq"
        "llama-3.1-8b-instant" exSmallUsage (some exTokenHeaders)).2.windows
        "groq:rpm:llama-3.1-8b-instant"
      = some { count := 1, tokens := 50, startTime := 100000, resetTime := .val 160000 } ∧
    (recordUsage exNoLimits (exUsedLimiter [exRpmBucket, { exRpmBucket with value_hint := 5 }])
        1000 "groq" "llama-3.1-8b-instant" exSmallUsage (some exTokenHeaders)).2.windows
        "groq:rpm:llama-3.1-8b-instant"
      = some { count := 4, tokens := 100, startTime := 0, resetTime := .val 60000 } := by
  decide

/-- C26 (amended): on an initialised limiter whose provider has distinct bucket names,
after `recordUsage` with headers every key returned by the header sync holds exactly the
window that the sync wrote; every other applicable bucket holds the window that
`updateBucketState` makes of the one stored before the call, which is the stored window
with count + 1 and tokens + usage.tokens when that window is continued, and a new window
with count 1 and tokens usage.tokens when no window was stored or the stored one had
expired; every key that is not the key of an applicable bucket of the provider for the
model keeps its window. -/
theorem recordUsage_headers_counts_once (db : RateLimitDb) (rl : RateLimiter) (cfg : Configs)
    (provider model : String) (buckets : List Bucket) (usage : Usage) (headers : Headers)
    (now : Int) (hcfg : rl.configs = some cfg) (hp : cfg provider = some buckets)
    (hnames : (buckets.map Bucket.name).Nodup) :
    (∀ key ∈ (syncFromHeaders rl provider model headers buckets now).1,
      (recordUsage db rl now provider model usage (some headers)).2.windows key
        = (syncFromHeaders rl provider model headers buckets now).2.windows key) ∧
    (∀ b ∈ buckets, isApplicable b model = true →
      getBucketKey provider b.name model
        ∉ (syncFromHeaders rl provider model headers buckets now).1 →
      (recordUsage db rl now provider model usage (some headers)).2.windows
          (getBucketKey provider b.name model)
        = some (updateBucketState b (rl.windows (getBucketKey provider b.name model)) now 1
            usage.tokens) ∧
      (∀ s, rl.windows (getBucketKey provider b.name model) = some s →
        startsNewWindow b (some s) now = false →
        (recordUsage db rl now provider model usage (some headers)).2.windows
            (getBucketKey provider b.name model)
          = some { s with count := s.count + 1, tokens := s.tokens + usage.tokens }) ∧
      (startsNewWindow b (rl.windows (getBucketKey provider b.name model)) now = true →
        ∃ w, (recordUsage db rl now provider model usage (some headers)).2.windows
            (getBucketKey provider b.name model) = some w ∧
          w.count = 1 ∧ w.tokens = usage.tokens ∧ w.startTime = now)) ∧
    (∀ key, (∀ b ∈ buckets, isApplicable b model = true →
        getBucketKey provider b.name model ≠ key) →
      (recordUsage db rl now provider model usage (some headers)).2.windows key
        = rl.windows key) := by
  rw [recordUsage_headers_of_loaded db hcfg hp]
  refine ⟨?_, ?_, ?_⟩
  · intro key hkey
    exact foldl_recordBucket_windows_skipped provider model now usage.tokens _ key hkey buckets _
  · intro b hb happ hk
    obtain ⟨pre, post, hsplit⟩ := List.append_of_mem hb
    have hothers := nodup_names_split hnames hsplit
    have hwin : (buckets.foldl
        (recordBucket provider model now usage.tokens
          (syncFromHeaders rl provider model headers buckets now).1)
        (syncFromHeaders rl provider model headers buckets now).2).windows
          (getBucketKey provider b.name model)
        = some (updateBucketState b (rl.windows (getBucketKey provider b.name model)) now 1
            usage.tokens) := by
      have h1 := foldl_recordBucket_windows_counted provider model now usage.tokens
        (syncFromHeaders rl provider model headers buckets now).1 pre post b
        (syncFromHeaders rl provider model headers buckets now).2 happ hk hothers
      rw [← hsplit] at h1
      rw [h1, syncFromHeaders_untouched rl provider model headers buckets now _ hk]
    refine ⟨hwin, ?_, ?_⟩
    · intro s hs hlive
      rw [hwin, hs, updateBucketState_continue b s now usage.tokens hlive]
    · intro hnew
      exact ⟨_, hwin, updateBucketState_restart b _ now usage.tokens hnew⟩
  · intro key hkey
    rw [foldl_recordBucket_windows_other provider model now usage.tokens _ key buckets _ hkey]
    unfold syncFromHeaders
    exact foldl_syncBucket_windows_other _ provider model now key buckets ([], rl) hkey

/-- Witness of C26 (amended): the headers report the remaining tokens; at time 1000 the
token bucket holds what the sync wrote (1000 tokens, no request counted), and the requests
window of time 0 is continued from count 2 to count 3 with 50 tokens. -/
theorem recordUsage_headers_counts_once_witness :
    (recordUsage exNoLimits (exUsedLimiter [exTpmBucket, exRpmBucket]) 1000 "groq"
        "llama-3.1-8b-instant" exSmallUsage (some exTokenHeaders)).2.windows
        "groq:llama-3-1-8b-instant-tpm:llama-3.1-8b-instant"
      = some { count := 0, tokens := 1000, startTime := 1000, resetTime := .val 86401000 } ∧
    (recordUsage exNoLimits (exUsedLimiter [exTpmBucket, exRpmBucket]) 1000 "groq"
        "llama-3.1-8b-instant" exSmallUsage (some exTokenHeaders)).2.windows
        (getBucketKey "groq" exRpmBucket.name "llama-3.1-8b-instant")
      = some { count := 3, tokens := 50, startTime := 0, resetTime := .val 60000 } :=
  ⟨by decide,
   ((recordUsage_headers_counts_once exNoLimits (exUsedLimiter [exTpmBucket, exRpmBucket])
      (exConfigs [exTpmBucket, exRpmBucket]) "groq" "llama-3.1-8b-instant"
      [exTpmBucket, exRpmBucket] exSmallUsage exTokenHeaders 1000 rfl rfl (by decide)).2.1
      exRpmBucket (by decide) (by decide) (by decide)).2.1
      { count := 2, tokens := 0, startTime := 0, resetTime := .val 60000 } (by decide)
      (by decide)⟩

end ZippyMesh
